import Mathlib

/-!
# Kinetic client core: operations, send path, socket transport and ACL parser

A shallow embedding of `src/lib/kinetic_operation.c`, `src/lib/kinetic_acl.c`
and the read and write loops of `src/lib/kinetic_socket.c`.

Conventions of the embedding.

* A C pointer to a byte region is an `Option (List Nat)`: `none` is `NULL`,
  `some mem` is the region's current contents (one `Nat` per `uint8_t`).
  Distinct buffers own distinct regions.
* In/out pointer parameters become explicit state passing: a function that
  writes through `operation->entry` returns the updated operation, whose
  `entry` field is the caller's entry after the call.
* `KINETIC_ASSERT` failures abort the program; a function that asserts returns
  `Option`, with `none` standing for the abort.
* `calloc`/`malloc` are taken to succeed, except where the outcome is a
  parameter.
* System calls and helpers that are not among the sources are the environment
  of a function: their results are parameters of its embedding.
* A C string is the run of characters before the first NUL of the buffer a
  `char` pointer points into (`cString`); `strlen`, `strcmp` and a `memcpy` of
  `strlen` bytes see that run and nothing after it.
-/

namespace Kinetic

/-! ## Status codes and byte buffers -/

/-- Modelled from the spec: the `KineticStatus` enumeration (declared in a header
that is not among the sources), the closed status taxonomy of section 3. -/
inductive KineticStatus where
  | KINETIC_STATUS_SUCCESS
  | KINETIC_STATUS_INVALID
  | KINETIC_STATUS_CONNECTION_ERROR
  | KINETIC_STATUS_MEMORY_ERROR
  | KINETIC_STATUS_REQUEST_REJECTED
  | KINETIC_STATUS_OPERATION_INVALID
  | KINETIC_STATUS_OPERATION_FAILED
  | KINETIC_STATUS_BUFFER_OVERRUN
  | KINETIC_STATUS_INVALID_FILE
  | KINETIC_STATUS_SOCKET_TIMEOUT
  | KINETIC_STATUS_DATA_ERROR
  | KINETIC_STATUS_VERSION_MISMATCH
  | KINETIC_STATUS_NOT_FOUND
  | KINETIC_STATUS_NOT_AUTHORIZED
  | KINETIC_STATUS_INTERNAL_ERROR
  | KINETIC_STATUS_NO_SPACE
  | KINETIC_STATUS_REMOTE_CONNECTION_ERROR
deriving DecidableEq, Repr

open KineticStatus

/-- Modelled from the spec: the `ByteArray` struct (declared in `byte_array.h`,
not among the sources): a pointer to a byte region and a length. -/
structure ByteArray where
  data : Option (List Nat)
  len : Nat
deriving DecidableEq, Repr

/-- Modelled from the spec: the `ByteBuffer` struct (declared in `byte_array.h`,
not among the sources): a fixed-capacity array (`array.len` is the capacity)
and the number of bytes used. -/
structure ByteBuffer where
  array : ByteArray
  bytesUsed : Nat
deriving DecidableEq, Repr

/-- Modelled from the spec: the `BYTE_BUFFER_NONE` constant, the null buffer
(no data, no capacity, nothing used). -/
def BYTE_BUFFER_NONE : ByteBuffer :=
  { array := { data := none, len := 0 }, bytesUsed := 0 }

/-- The bytes a buffer holds: the first `bytesUsed` bytes of its region
(nothing for a null buffer). -/
def ByteBuffer.bytes (b : ByteBuffer) : List Nat :=
  match b.array.data with
  | none => []
  | some mem => mem.take b.bytesUsed

/-- A buffer is well formed when its region has exactly `array.len` bytes and
`bytesUsed` does not exceed the capacity. -/
def ByteBuffer.WF (b : ByteBuffer) : Prop :=
  b.bytesUsed ≤ b.array.len ∧ ∀ mem, b.array.data = some mem → mem.length = b.array.len

/-- Modelled from the spec: `ByteBuffer_IsNull` (`byte_array.c`, not among the
sources): a buffer is null when it has no data region. -/
def ByteBuffer_IsNull (b : ByteBuffer) : Bool :=
  b.array.data.isNone

/-- Modelled from the spec: `ByteBuffer_Reset` (`byte_array.c`, not among the
sources): empties the buffer, keeping its region and capacity. -/
def ByteBuffer_Reset (b : ByteBuffer) : ByteBuffer :=
  { b with bytesUsed := 0 }

/-- The effect of `memcpy(&mem[off], src, src.length)` on a region. -/
def memcpyAt (mem : List Nat) (off : Nat) (src : List Nat) : List Nat :=
  mem.take off ++ src ++ mem.drop (off + src.length)

/-- Modelled from the spec: `ByteBuffer_Append` (`byte_array.c`, not among the
sources). The buffer has a fixed capacity: `len` bytes read from `data` are
stored after the bytes already used when they fit in the remaining capacity;
otherwise (or when either pointer is null) the buffer is left as it was. The
boolean is the success report (a non-null return in C). -/
def ByteBuffer_Append (b : ByteBuffer) (data : Option (List Nat)) (len : Nat) :
    ByteBuffer × Bool :=
  match b.array.data, data with
  | some mem, some src =>
    if b.bytesUsed + len > b.array.len then (b, false)
    else
      ({ array := { data := some (memcpyAt mem b.bytesUsed (src.take len)), len := b.array.len },
         bytesUsed := b.bytesUsed + len }, true)
  | _, _ => (b, false)

/-- Modelled from the spec: `ByteBuffer_AppendArray` (`byte_array.c`, not among
the sources): appends the `array.len` bytes at `array.data`. -/
def ByteBuffer_AppendArray (b : ByteBuffer) (array : ByteArray) : ByteBuffer × Bool :=
  ByteBuffer_Append b array.data array.len

/-! ## Entries, protocol messages, operations -/

/-- Modelled from the spec: the `KineticAlgorithm` enumeration (declared in a
header that is not among the sources), the algorithm tag of an entry. -/
inductive KineticAlgorithm where
  | KINETIC_ALGORITHM_INVALID
  | KINETIC_ALGORITHM_SHA1
  | KINETIC_ALGORITHM_SHA2
  | KINETIC_ALGORITHM_SHA3
  | KINETIC_ALGORITHM_CRC32
  | KINETIC_ALGORITHM_CRC64
deriving DecidableEq, Repr

/-- Modelled from the spec: the `KineticEntry` struct (declared in a header that
is not among the sources), section 3 "Entry". -/
structure KineticEntry where
  key : ByteBuffer := BYTE_BUFFER_NONE
  value : ByteBuffer := BYTE_BUFFER_NONE
  dbVersion : ByteBuffer := BYTE_BUFFER_NONE
  tag : ByteBuffer := BYTE_BUFFER_NONE
  algorithm : KineticAlgorithm := KineticAlgorithm.KINETIC_ALGORITHM_INVALID
  newVersion : ByteBuffer := BYTE_BUFFER_NONE
  metadataOnly : Bool := false
  force : Bool := false
deriving DecidableEq, Repr

/-- Modelled from the spec: the command message types of section 6
(`KineticProto_Command_MessageType`, declared in the generated protocol header). -/
inductive KineticProto_Command_MessageType where
  | INVALID_MESSAGE_TYPE
  | GET
  | PUT
  | DELETE
  | GETNEXT
  | GETPREVIOUS
  | GETKEYRANGE
  | SECURITY
  | SETUP
  | GETLOG
  | PINOP
  | NOOP
  | FLUSHALLDATA
  | PEER2PEERPUSH
deriving DecidableEq, Repr

/-- Modelled from the spec: the wire codes of the command message types
(section 6). -/
def KineticProto_Command_MessageType.code : KineticProto_Command_MessageType → Int
  | .INVALID_MESSAGE_TYPE => -1
  | .GET => 2
  | .PUT => 4
  | .DELETE => 6
  | .GETNEXT => 8
  | .GETPREVIOUS => 10
  | .GETKEYRANGE => 12
  | .SECURITY => 18
  | .SETUP => 22
  | .GETLOG => 24
  | .PINOP => 26
  | .NOOP => 30
  | .FLUSHALLDATA => 32
  | .PEER2PEERPUSH => 36

/-- Modelled from the spec: the `header` of a command message (section 4.2),
with the protobuf `has_` flags the builders set. -/
structure KineticProto_Command_Header where
  has_sequence : Bool := false
  sequence : Int := 0
  has_messageType : Bool := false
  messageType : KineticProto_Command_MessageType :=
    KineticProto_Command_MessageType.INVALID_MESSAGE_TYPE
deriving DecidableEq, Repr

/-- Modelled from the spec: the `keyValue` body of a command message: the
metadata of an entry as carried on the wire. -/
structure KineticProto_Command_KeyValue where
  has_key : Bool := false
  key : ByteArray := { data := none, len := 0 }
  has_dbVersion : Bool := false
  dbVersion : ByteArray := { data := none, len := 0 }
  has_newVersion : Bool := false
  newVersion : ByteArray := { data := none, len := 0 }
  has_tag : Bool := false
  tag : ByteArray := { data := none, len := 0 }
  has_algorithm : Bool := false
  algorithm : KineticAlgorithm := KineticAlgorithm.KINETIC_ALGORITHM_INVALID
  has_force : Bool := false
  force : Bool := false
  has_metadataOnly : Bool := false
  metadataOnly : Bool := false
deriving DecidableEq, Repr

/-! ## Peer-to-peer operation trees -/

/-- Modelled from the spec: the peer of a P2P operation (host, port, tls);
the struct is declared in a header that is not among the sources. -/
structure KineticP2P_Peer where
  hostname : String := ""
  port : Nat := 0
  tls : Bool := false
deriving DecidableEq, Repr

mutual
/-- Modelled from the spec: the caller's `KineticP2P_Operation` (declared in a
header that is not among the sources): a peer and the array of sub-operations.
`numOperations` is the length of the array. -/
inductive KineticP2P_Operation where
  | mk (peer : KineticP2P_Peer) (operations : List KineticP2P_OperationData) :
      KineticP2P_Operation
/-- Modelled from the spec: one sub-operation of a P2P operation: key, optional
version, optional new key, optional chained operation, and the result status
written back by the post-processor. -/
inductive KineticP2P_OperationData where
  | mk (key version newKey : ByteBuffer) (chainedOperation : Option KineticP2P_Operation)
      (resultStatus : KineticStatus) : KineticP2P_OperationData
end

/-- The sub-operation array of a P2P operation. -/
def KineticP2P_Operation.operations : KineticP2P_Operation → List KineticP2P_OperationData
  | .mk _ ops => ops

/-- The `numOperations` field. -/
def KineticP2P_Operation.numOperations (p : KineticP2P_Operation) : Nat :=
  p.operations.length

/-- Modelled from the spec: the wire `Status` message (code only). -/
structure KineticProto_Command_Status where
  has_code : Bool := false
  code : Int := 0
deriving DecidableEq, Repr

/-- Modelled from the spec: the wire peer of a P2P operation. -/
structure KineticProto_Command_P2POperation_Peer where
  hostname : String := ""
  has_port : Bool := false
  port : Nat := 0
  has_tls : Bool := false
  tls : Bool := false
deriving DecidableEq, Repr

/-- The scalar fields of a wire sub-operation
(`KineticProto_Command_P2POperation_Operation` without its pointers). -/
structure P2POperation_OperationFields where
  has_key : Bool := false
  key : ByteArray := { data := none, len := 0 }
  has_newKey : Bool := false
  newKey : ByteArray := { data := none, len := 0 }
  has_version : Bool := false
  version : ByteArray := { data := none, len := 0 }
  has_force : Bool := false
  force : Bool := false
deriving DecidableEq, Repr

mutual
/-- Modelled from the spec: the wire `P2POperation` message (generated protocol
header, not among the sources). `n_operation` is the length of `operation`. -/
inductive KineticProto_Command_P2POperation where
  | mk (peer : Option KineticProto_Command_P2POperation_Peer)
      (operation : List KineticProto_Command_P2POperation_Operation) :
      KineticProto_Command_P2POperation
/-- Modelled from the spec: one wire sub-operation: its scalar fields, the
nested operation and the status. -/
inductive KineticProto_Command_P2POperation_Operation where
  | mk (fields : P2POperation_OperationFields)
      (p2pop : Option KineticProto_Command_P2POperation)
      (status : Option KineticProto_Command_Status) :
      KineticProto_Command_P2POperation_Operation
end

/-- Modelled from the spec: `KINETIC_P2P_MAX_NESTING = 4` (section 6). -/
def KINETIC_P2P_MAX_NESTING : Nat := 4

/-- Modelled from the spec: `KINETIC_P2P_OPERATION_LIMIT = 2000` (section 6). -/
def KINETIC_P2P_OPERATION_LIMIT : Nat := 2000

/-- Modelled from the spec: `KINETIC_OBJ_SIZE`, the spec's `MAX_VALUE = 1 MiB`. -/
def KINETIC_OBJ_SIZE : Nat := 1024 * 1024

mutual
/-- The function `build_p2pOp`: translate the caller's tree into the wire tree.
The outer `Option` is the assertion abort, the inner one the `NULL` return. -/
def build_p2pOp (nestingLevel : Nat) :
    KineticP2P_Operation → Option (Option KineticProto_Command_P2POperation)
  | .mk peer operations =>
    if nestingLevel ≥ KINETIC_P2P_MAX_NESTING then some none
    else
      match build_p2pOp_loop nestingLevel operations with
      | none => none
      | some none => some none
      | some (some protoOps) =>
        some (some (.mk
          (some { hostname := peer.hostname, has_port := true, port := peer.port,
                  has_tls := true, tls := peer.tls })
          protoOps))
/-- The `for` loop of `build_p2pOp` over the sub-operations, in order; it stops
at the first sub-operation that aborts or fails. -/
def build_p2pOp_loop (nestingLevel : Nat) :
    List KineticP2P_OperationData →
      Option (Option (List KineticProto_Command_P2POperation_Operation))
  | [] => some (some [])
  | d :: rest =>
    match build_p2pOp_operation nestingLevel d with
    | none => none
    | some none => some none
    | some (some o) =>
      match build_p2pOp_loop nestingLevel rest with
      | none => none
      | some none => some none
      | some (some os) => some (some (o :: os))
/-- The body of the loop of `build_p2pOp` for one sub-operation. -/
def build_p2pOp_operation (nestingLevel : Nat) :
    KineticP2P_OperationData → Option (Option KineticProto_Command_P2POperation_Operation)
  | .mk key version newKey chainedOperation _ =>
    if ByteBuffer_IsNull key then none
    else
      let fields : P2POperation_OperationFields :=
        { has_key := true
          key := { data := key.array.data, len := key.bytesUsed }
          has_newKey := !ByteBuffer_IsNull newKey
          newKey := { data := newKey.array.data, len := newKey.bytesUsed }
          has_version := !ByteBuffer_IsNull version
          version := { data := version.array.data, len := version.bytesUsed }
          has_force := ByteBuffer_IsNull version
          force := ByteBuffer_IsNull version }
      match build_p2pOp_chained nestingLevel chainedOperation with
      | none => none
      | some none => some none
      | some (some p2pop) => some (some (.mk fields p2pop none))
/-- The chained-operation branch of the loop body: `NULL` stays `NULL`, a
chained operation is built one level deeper. The innermost `Option` is the
value stored in `p2pop`. -/
def build_p2pOp_chained (nestingLevel : Nat) :
    Option KineticP2P_Operation →
      Option (Option (Option KineticProto_Command_P2POperation))
  | none => some (some none)
  | some chained =>
    match build_p2pOp (nestingLevel + 1) chained with
    | none => none
    | some none => some none
    | some (some p) => some (some (some p))
end

/-! ## Security, setup, log and range messages -/

/-- Modelled from the spec: the permission vocabulary of section 3
(`KineticProto_Command_Security_ACL_Permission`, generated protocol header). -/
inductive KineticProto_Command_Security_ACL_Permission where
  | INVALID_PERMISSION
  | READ
  | WRITE
  | DELETE
  | RANGE
  | SETUP
  | P2POP
  | GETLOG
  | SECURITY
deriving DecidableEq, Repr

/-- Modelled from the spec: the HMAC algorithm of an ACL record
(`KineticProto_Command_Security_ACL_HMACAlgorithm`, generated protocol header). -/
inductive KineticProto_Command_Security_ACL_HMACAlgorithm where
  | INVALID_HMAC_ALGORITHM
  | HmacSHA1
deriving DecidableEq, Repr

/-- Modelled from the spec: the wire `Scope` of an ACL (generated protocol
header, not among the sources), section 3 "ACL document". `permission` is
`none` until the array of `ACL_MAX_PERMISSIONS` slots is allocated; then it
lists, in slot order, the permissions written so far (the write to slot
`n_permission` appends one). -/
structure KineticProto_Command_Security_ACL_Scope where
  has_offset : Bool := false
  offset : Int := 0
  has_value : Bool := false
  value : ByteArray := { data := none, len := 0 }
  n_permission : Nat := 0
  permission : Option (List KineticProto_Command_Security_ACL_Permission) := none
  has_TlsRequired : Bool := false
  TlsRequired : Bool := false
deriving DecidableEq, Repr

/-- Modelled from the spec: the wire `ACL` record (generated protocol header,
not among the sources). `scope` lists, in slot order, the scopes assigned so
far to the array of `scope_count` slots (the write to slot `n_scope` appends
one); the slots after them are null. -/
structure KineticProto_Command_Security_ACL where
  has_identity : Bool := false
  identity : Int := 0
  has_key : Bool := false
  key : ByteArray := { data := none, len := 0 }
  has_hmacAlgorithm : Bool := false
  hmacAlgorithm : KineticProto_Command_Security_ACL_HMACAlgorithm :=
    .INVALID_HMAC_ALGORITHM
  n_scope : Nat := 0
  scope : List KineticProto_Command_Security_ACL_Scope := []
deriving DecidableEq, Repr

/-- Modelled from the spec: the struct `ACL`, an ACL group (declared in `acl.h`,
not among the sources): `ACLs` lists the records stored so far, `ACL_ceil` is
the number of slots allocated. -/
structure ACL where
  ACL_ceil : Nat
  ACL_count : Nat
  ACLs : List KineticProto_Command_Security_ACL
deriving DecidableEq, Repr

/-- Modelled from the spec: the wire `Security` message (generated protocol
header, not among the sources): the ACLs and the four PINs of section 4.7. -/
structure KineticProto_Command_Security where
  n_acl : Nat := 0
  acl : Option (List KineticProto_Command_Security_ACL) := none
  has_oldLockPIN : Bool := false
  oldLockPIN : ByteArray := { data := none, len := 0 }
  has_newLockPIN : Bool := false
  newLockPIN : ByteArray := { data := none, len := 0 }
  has_oldErasePIN : Bool := false
  oldErasePIN : ByteArray := { data := none, len := 0 }
  has_newErasePIN : Bool := false
  newErasePIN : ByteArray := { data := none, len := 0 }
deriving DecidableEq, Repr

/-- Modelled from the spec: the wire `Setup` message (generated protocol
header, not among the sources). -/
structure KineticProto_Command_Setup where
  has_newClusterVersion : Bool := false
  newClusterVersion : Int := 0
  has_firmwareDownload : Bool := false
  firmwareDownload : Bool := false
deriving DecidableEq, Repr

/-- Modelled from the spec: the kinds of pin operation (generated protocol
header, not among the sources), section 4.7. -/
inductive KineticProto_Command_PinOperation_PinOpType where
  | INVALID_PINOP
  | UNLOCK_PINOP
  | LOCK_PINOP
  | ERASE_PINOP
  | SECURE_ERASE_PINOP
deriving DecidableEq, Repr

/-- Modelled from the spec: the wire `PinOperation` message. -/
structure KineticProto_Command_PinOperation where
  has_pinOpType : Bool := false
  pinOpType : KineticProto_Command_PinOperation_PinOpType :=
    KineticProto_Command_PinOperation_PinOpType.INVALID_PINOP
deriving DecidableEq, Repr

/-- Modelled from the spec: the wire `GetLog` message: the log types asked for
(`n_types` of them) in a request, and what the device reports in a response
(kept as the list of the types it reports on). -/
structure KineticProto_Command_GetLog where
  n_types : Nat := 0
  types : List Int := []
deriving DecidableEq, Repr

/-- Modelled from the spec: the `KineticLogInfo` struct `KineticLogInfo_Create`
allocates and populates from a `GetLog` body (section 4.7): it is kept as the
body it was populated from. -/
structure KineticLogInfo where
  populatedFrom : KineticProto_Command_GetLog
deriving DecidableEq, Repr

/-- Modelled from the spec: `KineticLogInfo_Create` (not among the sources):
"allocate and populate a LogInfo struct". -/
def KineticLogInfo_Create (getLog : KineticProto_Command_GetLog) : KineticLogInfo :=
  { populatedFrom := getLog }

/-- Modelled from the spec: the caller's key range of a GETKEYRANGE (declared
in a header that is not among the sources). -/
structure KineticKeyRange where
  startKey : ByteBuffer := BYTE_BUFFER_NONE
  endKey : ByteBuffer := BYTE_BUFFER_NONE
  startKeyInclusive : Bool := false
  endKeyInclusive : Bool := false
  maxReturned : Nat := 0
  reverse : Bool := false
deriving DecidableEq, Repr

/-- Modelled from the spec: the wire `Range` message: the bounds of a request
and the keys of a response. -/
structure KineticProto_Command_Range where
  has_startKey : Bool := false
  startKey : ByteArray := { data := none, len := 0 }
  has_endKey : Bool := false
  endKey : ByteArray := { data := none, len := 0 }
  has_startKeyInclusive : Bool := false
  startKeyInclusive : Bool := false
  has_endKeyInclusive : Bool := false
  endKeyInclusive : Bool := false
  has_maxReturned : Bool := false
  maxReturned : Nat := 0
  has_reverse : Bool := false
  reverse : Bool := false
  keys : List ByteArray := []
deriving DecidableEq, Repr

/-- Modelled from the spec: the caller's array of key buffers of a GETKEYRANGE
(`ByteBufferArray`, not among the sources): `count` is the length of `buffers`,
`used` the number of buffers filled. -/
structure ByteBufferArray where
  buffers : List ByteBuffer := []
  used : Nat := 0
deriving DecidableEq, Repr

/-! ## Requests, responses and operations -/

/-- Modelled from the spec: the `body` of a command message; a null pointer
field is `none`. -/
structure KineticProto_Command_Body where
  keyValue : Option KineticProto_Command_KeyValue := none
  p2pOperation : Option KineticProto_Command_P2POperation := none
  range : Option KineticProto_Command_Range := none
  getLog : Option KineticProto_Command_GetLog := none
  security : Option KineticProto_Command_Security := none
  setup : Option KineticProto_Command_Setup := none
  pinOp : Option KineticProto_Command_PinOperation := none

/-- Modelled from the spec: a command message `{header, body, status}`
(section 6); a null pointer field is `none`. -/
structure KineticProto_Command where
  header : Option KineticProto_Command_Header := none
  body : Option KineticProto_Command_Body := none
  status : Option KineticProto_Command_Status := none

/-- Modelled from the spec: the request of an operation (`KineticRequest`,
declared in a header that is not among the sources). `command` stands for both
`request->command` and `request->message.command`, which name the same message. -/
structure KineticRequest where
  command : Option KineticProto_Command := none
  pinAuth : Bool := false

/-- Modelled from the spec: the fixed PDU header of a response: the length of
the value payload (section 4.2). -/
structure KineticPDUHeader where
  valueLength : Nat := 0
deriving DecidableEq, Repr

/-- Modelled from the spec: a received response (`KineticResponse`, declared in
a header that is not among the sources): PDU header, command and value payload. -/
structure KineticResponse where
  header : KineticPDUHeader := {}
  command : Option KineticProto_Command := none
  value : Option (List Nat) := none

/-- Modelled from the spec: the session's mutable state (section 3 "Session"). -/
structure KineticSession where
  clusterVersion : Int := 0
  sequence : Int := 0
deriving DecidableEq, Repr

/-- Modelled from the spec: the connection of an operation: its session and the
count of the admission semaphore `outstandingOperations`. -/
structure KineticConnection where
  pSession : KineticSession := {}
  outstandingOperations : Nat := 0
deriving DecidableEq, Repr

/-- The post-processors an operation's `callback` pointer can name. -/
inductive KineticOperationCallback where
  | KineticOperation_NoopCallback
  | KineticOperation_PutCallback
  | get_cmd_cb
  | getprevious_cmd_cb
  | getnext_cmd_cb
  | KineticOperation_FlushCallback
  | KineticOperation_DeleteCallback
  | KineticOperation_GetKeyRangeCallback
  | KineticOperation_GetLogCallback
  | KineticOperation_P2POperationCallback
  | KineticOperation_SetPinCallback
  | KineticOperation_EraseCallback
  | KineticOperation_LockUnlockCallback
  | KineticOperation_SetClusterVersionCallback
  | KineticOperation_SetACLCallback
  | KineticOperation_UpdateFirmwareCallback
deriving DecidableEq, Repr

/-- Modelled from the spec: the completion closure of an operation (section 3
"Operation", declared in a header that is not among the sources): the user's
callback, named by a number (`none` is the null pointer), and its client data. -/
structure KineticCompletionClosure where
  callback : Option Nat := none
  clientData : Nat := 0
deriving DecidableEq, Repr

/-- Modelled from the spec: the operation (`KineticOperation`, declared in a
header that is not among the sources), section 3 "Operation". `entry`, `p2pOp`
and `buffers` are the caller's objects the operation points to; `deviceInfo`
is the caller's out-pointer (`none` when null, else the pointer it holds);
`pin` is the pin of a pin-authenticated operation. -/
structure KineticOperation where
  connection : Option KineticConnection := none
  request : Option KineticRequest := none
  response : Option KineticResponse := none
  entry : Option KineticEntry := none
  value : ByteArray := { data := none, len := 0 }
  p2pOp : Option KineticP2P_Operation := none
  callback : Option KineticOperationCallback := none
  timeoutSeconds : Nat := 10
  pendingClusterVersion : Int := 0
  buffers : Option ByteBufferArray := none
  deviceInfo : Option (Option KineticLogInfo) := none
  pin : Option ByteArray := none
  closure : KineticCompletionClosure := {}

/-- The assertions of `KineticOperation_ValidateOperation`: `true` when all of
them hold (the operation itself is never null here). -/
def KineticOperation_ValidateOperation (operation : KineticOperation) : Bool :=
  match operation.connection, operation.request with
  | some _, some request =>
    match request.command with
    | some command =>
      match command.header with
      | some header => header.has_sequence
      | none => false
    | none => false
  | _, _ => false

/-- Assignment through `request->command->header`: apply `f` to the header. -/
def KineticOperation.updateHeader (operation : KineticOperation)
    (f : KineticProto_Command_Header → KineticProto_Command_Header) : KineticOperation :=
  { operation with
    request := operation.request.map fun request =>
      { request with
        command := request.command.map fun command =>
          { command with header := command.header.map f } } }

/-- The assignment `command->body = &message.body` followed by assignments
through `command->body`: the body is present afterwards (the zero-initialised
storage when it was not attached before) and `f` is applied to it. -/
def KineticOperation.updateBody (operation : KineticOperation)
    (f : KineticProto_Command_Body → KineticProto_Command_Body) : KineticOperation :=
  { operation with
    request := operation.request.map fun request =>
      { request with
        command := request.command.map fun command =>
          { command with body := some (f (command.body.getD {})) } } }

/-- The two assignments every builder starts with: `header->messageType = mt`
and `header->has_messageType = true`. -/
def KineticOperation.setMessageType (operation : KineticOperation)
    (mt : KineticProto_Command_MessageType) : KineticOperation :=
  operation.updateHeader fun header => { header with messageType := mt, has_messageType := true }

/-- The message type of the request header, when there is a header. -/
def KineticOperation.messageType (operation : KineticOperation) :
    Option (Bool × KineticProto_Command_MessageType) :=
  match operation.request with
  | some request =>
    match request.command with
    | some command => command.header.map fun header => (header.has_messageType, header.messageType)
    | none => none
  | none => none

/-- Modelled from the spec: `KineticMessage_ConfigureKeyValue`
(`kinetic_message.c`, not among the sources): attach the key-value body built
from the entry (key, versions, tag, algorithm, flags) to the request. It reads
the entry and does not write to it. -/
def KineticMessage_ConfigureKeyValue (operation : KineticOperation) (entry : KineticEntry) :
    KineticOperation :=
  operation.updateBody fun body =>
    { body with
      keyValue := some
        { has_key := !ByteBuffer_IsNull entry.key
          key := { data := entry.key.array.data, len := entry.key.bytesUsed }
          has_dbVersion := !ByteBuffer_IsNull entry.dbVersion
          dbVersion := { data := entry.dbVersion.array.data, len := entry.dbVersion.bytesUsed }
          has_newVersion := !ByteBuffer_IsNull entry.newVersion
          newVersion := { data := entry.newVersion.array.data, len := entry.newVersion.bytesUsed }
          has_tag := !ByteBuffer_IsNull entry.tag
          tag := { data := entry.tag.array.data, len := entry.tag.bytesUsed }
          has_algorithm := true
          algorithm := entry.algorithm
          has_force := entry.force
          force := entry.force
          has_metadataOnly := entry.metadataOnly
          metadataOnly := entry.metadataOnly } }

/-- Modelled from the spec: `KineticResponse_GetKeyValue` (`kinetic_response.c`,
not among the sources): the key-value body of the response, `none` when the
response carries none. -/
def KineticResponse_GetKeyValue (response : KineticResponse) :
    Option KineticProto_Command_KeyValue :=
  match response.command with
  | some command =>
    match command.body with
    | some body => body.keyValue
    | none => none
  | none => none

/-- One field of `Copy_KineticProto_Command_KeyValue_to_KineticEntry`: a
returned field replaces the contents of the entry's buffer when it fits; the
boolean is `false` on overflow. A field the response does not carry leaves the
buffer as it is. -/
def copyKeyValueField (has : Bool) (src : ByteArray) (dst : ByteBuffer) : ByteBuffer × Bool :=
  if has then ByteBuffer_Append (ByteBuffer_Reset dst) src.data src.len
  else (dst, true)

/-- Modelled from the spec: `Copy_KineticProto_Command_KeyValue_to_KineticEntry`
(not among the sources): "copy returned key/tag/dbVersion/algorithm into
Entry"; the result is `false` when one of them does not fit its fixed-capacity
buffer. The value buffer and the flags of the entry are not touched. -/
def Copy_KineticProto_Command_KeyValue_to_KineticEntry
    (keyValue : KineticProto_Command_KeyValue) (entry : KineticEntry) : KineticEntry × Bool :=
  let dbVersion := copyKeyValueField keyValue.has_dbVersion keyValue.dbVersion entry.dbVersion
  let key := copyKeyValueField keyValue.has_key keyValue.key entry.key
  let tag := copyKeyValueField keyValue.has_tag keyValue.tag entry.tag
  ({ entry with
      dbVersion := dbVersion.1
      key := key.1
      tag := tag.1
      algorithm := if keyValue.has_algorithm then keyValue.algorithm else entry.algorithm },
   dbVersion.2 && key.2 && tag.2)

/-! ## PUT and GET: builders and post-processors -/

/-- The function `KineticOperation_PutCallback`. -/
def KineticOperation_PutCallback (operation : KineticOperation) (status : KineticStatus) :
    Option (KineticStatus × KineticOperation) :=
  match operation.connection, operation.entry with
  | some _, some entry =>
    if status = KINETIC_STATUS_SUCCESS then
      match operation.response with
      | none => none
      | some _ =>
        if entry.newVersion.array.data ≠ none ∧ entry.newVersion.array.len > 0 then
          if entry.dbVersion.array.data ≠ none ∧ entry.dbVersion.array.len > 0 then
            let dbVersion := ByteBuffer_Reset entry.dbVersion
            let dbVersion :=
              (ByteBuffer_Append dbVersion entry.newVersion.array.data
                entry.newVersion.bytesUsed).1
            let newVersion := ByteBuffer_Reset entry.newVersion
            some (status,
              { operation with
                entry := some { entry with dbVersion := dbVersion, newVersion := newVersion } })
          else
            some (status,
              { operation with
                entry := some
                  { entry with dbVersion := entry.newVersion, newVersion := BYTE_BUFFER_NONE } })
        else some (status, operation)
    else some (status, operation)
  | _, _ => none

/-- The function `KineticOperation_BuildPut`. The caller's entry is not written. -/
def KineticOperation_BuildPut (operation : KineticOperation) (entry : KineticEntry) :
    Option (KineticStatus × KineticOperation) :=
  if !KineticOperation_ValidateOperation operation then none
  else if entry.value.bytesUsed > KINETIC_OBJ_SIZE then
    some (KINETIC_STATUS_BUFFER_OVERRUN, operation)
  else
    let operation := operation.setMessageType KineticProto_Command_MessageType.PUT
    let operation := { operation with entry := some entry }
    let operation := KineticMessage_ConfigureKeyValue operation entry
    let operation :=
      { operation with
        value := { data := entry.value.array.data, len := entry.value.bytesUsed }
        callback := some KineticOperationCallback.KineticOperation_PutCallback }
    some (KINETIC_STATUS_SUCCESS, operation)

/-- The function `get_cb`, the post-processor shared by GET, GETNEXT and
GETPREVIOUS (`cmd_name` is only logged). -/
def get_cb (operation : KineticOperation) (status : KineticStatus) :
    Option (KineticStatus × KineticOperation) :=
  match operation.connection, operation.entry with
  | some _, some entry =>
    if status = KINETIC_STATUS_SUCCESS then
      match operation.response with
      | none => none
      | some response =>
        let copied :=
          match KineticResponse_GetKeyValue response with
          | some keyValue => Copy_KineticProto_Command_KeyValue_to_KineticEntry keyValue entry
          | none => (entry, true)
        if !copied.2 then
          some (KINETIC_STATUS_BUFFER_OVERRUN, { operation with entry := some copied.1 })
        else
          let entry := copied.1
          if !entry.metadataOnly && !ByteBuffer_IsNull entry.value then
            let value :=
              (ByteBuffer_AppendArray entry.value
                { data := response.value, len := response.header.valueLength }).1
            some (status, { operation with entry := some { entry with value := value } })
          else some (status, { operation with entry := some entry })
    else some (status, operation)
  | _, _ => none

/-- The function `build_get_command`. -/
def build_get_command (operation : KineticOperation) (entry : KineticEntry)
    (cb : KineticOperationCallback) (command_id : KineticProto_Command_MessageType) :
    Option KineticOperation :=
  if !KineticOperation_ValidateOperation operation then none
  else
    let operation := operation.setMessageType command_id
    let operation := { operation with entry := some entry }
    let operation := KineticMessage_ConfigureKeyValue operation entry
    let operation :=
      if entry.value.array.data ≠ none then
        let value := ByteBuffer_Reset entry.value
        { operation with
          entry := some { entry with value := value }
          value := { data := value.array.data, len := value.bytesUsed } }
      else operation
    some { operation with callback := some cb }

/-- The function `get_cmd_cb`. -/
def get_cmd_cb (operation : KineticOperation) (status : KineticStatus) :
    Option (KineticStatus × KineticOperation) :=
  get_cb operation status

/-- The function `KineticOperation_BuildGet`. -/
def KineticOperation_BuildGet (operation : KineticOperation) (entry : KineticEntry) :
    Option KineticOperation :=
  build_get_command operation entry KineticOperationCallback.get_cmd_cb
    KineticProto_Command_MessageType.GET

/-- The function `getprevious_cmd_cb`. -/
def getprevious_cmd_cb (operation : KineticOperation) (status : KineticStatus) :
    Option (KineticStatus × KineticOperation) :=
  get_cb operation status

/-- The function `KineticOperation_BuildGetPrevious`. -/
def KineticOperation_BuildGetPrevious (operation : KineticOperation) (entry : KineticEntry) :
    Option KineticOperation :=
  build_get_command operation entry KineticOperationCallback.getprevious_cmd_cb
    KineticProto_Command_MessageType.GETPREVIOUS

/-- The function `getnext_cmd_cb`. -/
def getnext_cmd_cb (operation : KineticOperation) (status : KineticStatus) :
    Option (KineticStatus × KineticOperation) :=
  get_cb operation status

/-- The function `KineticOperation_BuildGetNext`. -/
def KineticOperation_BuildGetNext (operation : KineticOperation) (entry : KineticEntry) :
    Option KineticOperation :=
  build_get_command operation entry KineticOperationCallback.getnext_cmd_cb
    KineticProto_Command_MessageType.GETNEXT

/-- The function `KineticOperation_BuildP2POperation`. -/
def KineticOperation_BuildP2POperation (operation : KineticOperation)
    (p2pOp : KineticP2P_Operation) : Option (KineticStatus × KineticOperation) :=
  if !KineticOperation_ValidateOperation operation then none
  else
    let operation := operation.setMessageType KineticProto_Command_MessageType.PEER2PEERPUSH
    match build_p2pOp 0 p2pOp with
    | none => none
    | some built =>
      let operation := operation.updateBody fun body => { body with p2pOperation := built }
      if built.isNone then some (KINETIC_STATUS_OPERATION_INVALID, operation)
      else if p2pOp.numOperations ≥ KINETIC_P2P_OPERATION_LIMIT then
        some (KINETIC_STATUS_BUFFER_OVERRUN, operation)
      else
        some (KINETIC_STATUS_SUCCESS,
          { operation with
            p2pOp := some p2pOp
            callback := some KineticOperationCallback.KineticOperation_P2POperationCallback })

/-! ## ACL documents: the JSON library interface

`kinetic_acl.c` reads JSON through the json-c library. The embedding models
the object tree the library hands out and the accessors the parser calls on
it. A string node holds the characters of the node's buffer; json-c keeps the
length of the buffer, so the characters may include NUL (written `\u0000` in
the document). `json_object_get_string` returns a pointer to that buffer, and
the C string functions the parser applies to it (`strlen`, `strcmp`, `memcpy`
of `strlen` bytes) see the characters before the first NUL only. The field
names of an object node are the C strings the library's table holds.
JSON numbers with a fraction are outside the embedding. In the accessors,
`none` means that the call has no result in the embedding: the C code would
dereference a null pointer, read a node as the wrong type, or use a conversion
of the library that is not modelled. -/

/-- The value tree built by the json-c tokener. JSON `null` is the null
`json_object` pointer. An `object` node lists its fields, each name once. -/
inductive json_object where
  | null : json_object
  | boolean (b : Bool) : json_object
  | int (i : Int) : json_object
  | string (s : String) : json_object
  | array (items : List json_object) : json_object
  | object (fields : List (String × json_object)) : json_object

/-- The json-c `json_type` of a node (`json_type_double` is not modelled). -/
inductive json_type where
  | json_type_null
  | json_type_boolean
  | json_type_int
  | json_type_object
  | json_type_array
  | json_type_string
deriving DecidableEq, Repr

/-- The json-c accessor `json_object_get_type`. -/
def json_object_get_type : json_object → json_type
  | .null => json_type.json_type_null
  | .boolean _ => json_type.json_type_boolean
  | .int _ => json_type.json_type_int
  | .string _ => json_type.json_type_string
  | .array _ => json_type.json_type_array
  | .object _ => json_type.json_type_object

/-- The json-c accessor `json_object_object_get_ex(obj, key, &val)`: whether
`obj` is an object with a field `key`, and the field's value (the null pointer
when there is none). -/
def json_object_object_get_ex (obj : json_object) (key : String) : Bool × json_object :=
  match obj with
  | .object fields =>
    match fields.lookup key with
    | some val => (true, val)
    | none => (false, json_object.null)
  | _ => (false, json_object.null)

/-- The json-c accessor `json_object_array_length`; it has a result on arrays only. -/
def json_object_array_length : json_object → Option Nat
  | .array items => some items.length
  | _ => none

/-- The json-c accessor `json_object_array_get_idx`: the element at `idx`, the
null pointer past the end; it has a result on arrays only. -/
def json_object_array_get_idx (obj : json_object) (idx : Nat) : Option json_object :=
  match obj with
  | .array items => some (items.getD idx json_object.null)
  | _ => none

/-- The json-c accessor `json_object_get_string`: `some none` is the `NULL`
it returns for the null pointer, `some (some s)` the pointer to the characters
`s` of a string node (what a C string function reads from it is `cString s`);
the serialisation it returns for other nodes is not modelled. -/
def json_object_get_string : json_object → Option (Option String)
  | .null => some none
  | .string s => some (some s)
  | _ => none

/-- The json-c accessor `json_object_get_int64`: the integer of an int node,
`0`/`1` for a boolean, `0` for null, arrays and objects; the conversion of a
string node is not modelled. -/
def json_object_get_int64 : json_object → Option Int
  | .null => some 0
  | .boolean b => some (if b then 1 else 0)
  | .int i => some i
  | .string _ => none
  | .array _ => some 0
  | .object _ => some 0

/-- The json-c accessor `json_object_get_boolean`: the boolean of a boolean
node, non-zero for an int, non-empty for a string, false otherwise. -/
def json_object_get_boolean : json_object → Bool
  | .boolean b => b
  | .int i => i != 0
  | .string s => s.length != 0
  | _ => false

/-- The outcome of one `json_tokener_parse_ex` call: the value parsed together
with the tokener's `char_offset` (the value is the null pointer when the
document read is `null`; the tokener's error is then `json_tokener_success`),
or `NULL` with the error `json_tokener_error_parse_eof`, or `NULL` with any
other error. -/
inductive json_tokener_result where
  | parsed (obj : json_object) (char_offset : Nat) : json_tokener_result
  | error_parse_eof : json_tokener_result
  | error_other : json_tokener_result

/-- The json-c tokener as the parser uses it: `json_tokener_parse_ex` applied
to the bytes still to be read. -/
abbrev json_tokener := List Nat → json_tokener_result

/-! ## ACL documents: records and the parser -/

/-- Modelled from the spec: the result codes `KineticACLLoadResult` of
section 4.8 (declared in `kinetic_acl.h`, not among the sources). -/
inductive KineticACLLoadResult where
  | ACL_OK
  | ACL_END_OF_STREAM
  | ACL_ERROR_NULL
  | ACL_ERROR_MEMORY
  | ACL_ERROR_JSON_FILE
  | ACL_ERROR_BAD_JSON
  | ACL_ERROR_MISSING_FIELD
  | ACL_ERROR_INVALID_FIELD
deriving DecidableEq, Repr

open KineticACLLoadResult

/-- Modelled from the spec: `ACL_MAX_PERMISSIONS = 16` (section 6). -/
def ACL_MAX_PERMISSIONS : Nat := 16

/-- The table `permission_table`. -/
def permission_table : List (KineticProto_Command_Security_ACL_Permission × String) :=
  [ (.INVALID_PERMISSION, "INVALID"),
    (.READ, "READ"),
    (.WRITE, "WRITE"),
    (.DELETE, "DELETE"),
    (.RANGE, "RANGE"),
    (.SETUP, "SETUP"),
    (.P2POP, "P2POP"),
    (.GETLOG, "GETLOG"),
    (.SECURITY, "SECURITY") ]

/-- The UTF-8 encoding of a character, one `Nat` per byte. -/
def utf8Bytes (c : Char) : List Nat :=
  let n := c.toNat
  if n < 0x80 then [n]
  else if n < 0x800 then [0xC0 + n / 0x40, 0x80 + n % 0x40]
  else if n < 0x10000 then [0xE0 + n / 0x1000, 0x80 + n / 0x40 % 0x40, 0x80 + n % 0x40]
  else [0xF0 + n / 0x40000, 0x80 + n / 0x1000 % 0x40, 0x80 + n / 0x40 % 0x40, 0x80 + n % 0x40]

/-- The C string at a pointer to the characters `s`: the characters before the
first NUL. In UTF-8 the byte `0` occurs in the encoding of NUL only, so these
are the characters whose bytes precede the first zero byte. -/
def cString (s : String) : String :=
  String.mk (s.toList.takeWhile fun c => c != Char.ofNat 0)

/-- The bytes of the C string at a pointer to the characters `s`, without the
terminator: the UTF-8 encoding of the characters before the first NUL. -/
def cstringBytes (s : String) : List Nat :=
  (cString s).toList.flatMap utf8Bytes

/-- The library function `strlen`: the number of bytes before the terminator. -/
def strlen (s : String) : Nat :=
  (cstringBytes s).length

/-- The library function `strcmp`: `0` when the two C strings are equal,
otherwise negative or positive after the order of their bytes (the parser tests
the result against `0` only). -/
def strcmp (a b : String) : Int :=
  if cString a = cString b then 0
  else if cstringBytes a < cstringBytes b then -1
  else 1

/-- The function `permission_of_str`: the first row of the table whose string
`strcmp` finds equal to `str`, `INVALID_PERMISSION` when there is none. -/
def permission_of_str (str : String) : KineticProto_Command_Security_ACL_Permission :=
  match permission_table.find? fun pp => 0 == strcmp str pp.2 with
  | some pp => pp.1
  | none => .INVALID_PERMISSION

/-- The region a string is copied into: `strlen + 1` bytes, `memcpy` of the
`strlen` bytes of the C string and the terminator, with `len = strlen`. -/
def copyCString (s : String) : ByteArray :=
  { data := some (cstringBytes s ++ [0]), len := strlen s }

/-- The loop of `unpack_scopes` over a permission array `val`, for the indices
`i` still to visit: each element names a permission, stored in slot
`n_permission`; the first name that is not in the table ends the parse with
`ACL_ERROR_INVALID_FIELD`. -/
def unpack_permissions (val : json_object) :
    List Nat → KineticProto_Command_Security_ACL_Scope →
      Option (KineticACLLoadResult × KineticProto_Command_Security_ACL_Scope)
  | [], scope => some (ACL_OK, scope)
  | i :: rest, scope =>
    match json_object_array_get_idx val i with
    | none => none
    | some jperm =>
      match json_object_get_string jperm with
      | some (some str) =>
        let p := permission_of_str str
        if p = .INVALID_PERMISSION then some (ACL_ERROR_INVALID_FIELD, scope)
        else
          unpack_permissions val rest
            { scope with
              permission := some (scope.permission.getD [] ++ [p])
              n_permission := scope.n_permission + 1 }
      | _ => none

/-- The `offset` field of a scope. -/
def unpack_scope_offset (cur_scope : json_object)
    (scope : KineticProto_Command_Security_ACL_Scope) :
    Option KineticProto_Command_Security_ACL_Scope :=
  match json_object_object_get_ex cur_scope "offset" with
  | (true, val) =>
    match json_object_get_int64 val with
    | some offset => some { scope with offset := offset, has_offset := true }
    | none => none
  | (false, _) => some { scope with has_offset := false }

/-- The `value` field of a scope: copied as a C string when the field has a
string; a field holding `null` leaves the scope as it is. -/
def unpack_scope_value (cur_scope : json_object)
    (scope : KineticProto_Command_Security_ACL_Scope) :
    Option KineticProto_Command_Security_ACL_Scope :=
  match json_object_object_get_ex cur_scope "value" with
  | (true, val) =>
    match json_object_get_string val with
    | some (some str) => some { scope with value := copyCString str, has_value := true }
    | some none => some scope
    | none => none
  | (false, _) => some { scope with has_value := false }

/-- The `permission` field of a scope: a single name or an array of names. No
field leaves `n_permission = 0` and is not an error. -/
def unpack_scope_permission (cur_scope : json_object)
    (scope : KineticProto_Command_Security_ACL_Scope) :
    Option (KineticACLLoadResult × KineticProto_Command_Security_ACL_Scope) :=
  let scope := { scope with n_permission := 0 }
  match json_object_object_get_ex cur_scope "permission" with
  | (true, val) =>
    let scope := { scope with permission := some [] }
    let perm_type := json_object_get_type val
    if perm_type = json_type.json_type_string then
      match json_object_get_string val with
      | some (some str) =>
        let scope := { scope with permission := some [permission_of_str str] }
        if permission_of_str str = .INVALID_PERMISSION then
          some (ACL_ERROR_INVALID_FIELD, scope)
        else some (ACL_OK, { scope with n_permission := scope.n_permission + 1 })
      | _ => none
    else if perm_type = json_type.json_type_array then
      match json_object_array_length val with
      | some count => unpack_permissions val (List.range count) scope
      | none => none
    else some (ACL_ERROR_INVALID_FIELD, scope)
  | (false, _) => some (ACL_OK, scope)

/-- The `TlsRequired` field of a scope. -/
def unpack_scope_TlsRequired (cur_scope : json_object)
    (scope : KineticProto_Command_Security_ACL_Scope) :
    KineticProto_Command_Security_ACL_Scope :=
  match json_object_object_get_ex cur_scope "TlsRequired" with
  | (true, val) =>
    { scope with TlsRequired := json_object_get_boolean val, has_TlsRequired := true }
  | (false, _) => scope

/-- The body of the loop of `unpack_scopes` for one non-null array entry:
build the scope from its fields, in the order offset, value, permission,
TlsRequired. -/
def unpack_scope (cur_scope : json_object) :
    Option (KineticACLLoadResult × KineticProto_Command_Security_ACL_Scope) :=
  match unpack_scope_offset cur_scope {} with
  | none => none
  | some scope =>
    match unpack_scope_value cur_scope scope with
    | none => none
    | some scope =>
      match unpack_scope_permission cur_scope scope with
      | none => none
      | some (ACL_OK, scope) => some (ACL_OK, unpack_scope_TlsRequired cur_scope scope)
      | some (res, scope) => some (res, scope)

/-- The loop of `unpack_scopes` over the indices `si` still to visit: a null
entry is skipped, any other entry is unpacked and assigned to slot `n_scope`. -/
def unpack_scopes_loop (scopes : json_object) :
    List Nat → KineticProto_Command_Security_ACL →
      Option (KineticACLLoadResult × KineticProto_Command_Security_ACL)
  | [], acl => some (ACL_OK, acl)
  | si :: rest, acl =>
    match json_object_array_get_idx scopes si with
    | none => none
    | some .null => unpack_scopes_loop scopes rest acl
    | some cur_scope =>
      match unpack_scope cur_scope with
      | none => none
      | some (ACL_OK, scope) =>
        unpack_scopes_loop scopes rest
          { acl with scope := acl.scope ++ [scope], n_scope := acl.n_scope + 1 }
      | some (res, _) => some (res, acl)

/-- The function `unpack_scopes`: a fresh scope array, the loop for
`si = 0 .. scope_count - 1`, then `n_scope = scope_count`. -/
def unpack_scopes (acl : KineticProto_Command_Security_ACL) (scope_count : Nat)
    (scopes : json_object) :
    Option (KineticACLLoadResult × KineticProto_Command_Security_ACL) :=
  match unpack_scopes_loop scopes (List.range scope_count) { acl with scope := [] } with
  | none => none
  | some (ACL_OK, acl) => some (ACL_OK, { acl with n_scope := scope_count })
  | some (res, acl) => some (res, acl)

/-- The `identity` field of a record. -/
def read_next_ACL_identity (obj : json_object) (acl : KineticProto_Command_Security_ACL) :
    Option KineticProto_Command_Security_ACL :=
  match json_object_object_get_ex obj "identity" with
  | (true, val) =>
    match json_object_get_int64 val with
    | some identity => some { acl with has_identity := true, identity := identity }
    | none => none
  | (false, _) => some { acl with has_identity := false }

/-- The `key` field of a record: the key is copied as a C string and the
algorithm is set to `HmacSHA1`. -/
def read_next_ACL_key (obj : json_object) (acl : KineticProto_Command_Security_ACL) :
    Option KineticProto_Command_Security_ACL :=
  match json_object_object_get_ex obj "key" with
  | (true, val) =>
    match json_object_get_string val with
    | some (some key) =>
      some
        { acl with
          has_hmacAlgorithm := true
          hmacAlgorithm := .HmacSHA1
          key := copyCString key
          has_key := true }
    | _ => none
  | (false, _) => some acl

/-- The `HMACAlgorithm` field of a record: `true` when the field is absent or
`strcmp(hmac, "HmacSHA1")` is `0`, `false` when the parse ends with
`ACL_ERROR_INVALID_FIELD`. -/
def read_next_ACL_HMACAlgorithm (obj : json_object) : Option Bool :=
  match json_object_object_get_ex obj "HMACAlgorithm" with
  | (true, val) =>
    match json_object_get_string val with
    | some (some hmac) => some (0 == strcmp hmac "HmacSHA1")
    | _ => none
  | (false, _) => some true

/-- The part of `read_next_ACL` after the tokener call: turn a parsed object
into an ACL record. The record is `some` exactly when the result is `ACL_OK`. -/
def read_next_ACL_object (obj : json_object) :
    Option (KineticACLLoadResult × Option KineticProto_Command_Security_ACL) :=
  match json_object_object_get_ex obj "scope" with
  | (false, _) => some (ACL_ERROR_MISSING_FIELD, none)
  | (true, val) =>
    match json_object_array_length val with
    | none => none
    | some scope_count =>
      match read_next_ACL_identity obj {} with
      | none => none
      | some acl =>
        match read_next_ACL_key obj acl with
        | none => none
        | some acl =>
          match read_next_ACL_HMACAlgorithm obj with
          | none => none
          | some false => some (ACL_ERROR_INVALID_FIELD, none)
          | some true =>
            match json_object_object_get_ex obj "scope" with
            | (true, scopes) =>
              match unpack_scopes acl scope_count scopes with
              | none => none
              | some (ACL_OK, acl) => some (ACL_OK, some acl)
              | some (res, _) => some (res, none)
            | (false, _) => some (ACL_OK, some acl)

/-- The function `read_next_ACL`: parse the next object from
`&buf[offset]`, `buf_size - offset` bytes long. The result is the code, the
value left in `*new_offset` (the caller initialises it to `0`) and the record
stored in `*instance`. A null pointer from the tokener takes the `obj == NULL`
branch: `ACL_END_OF_STREAM` when the tokener's error is
`json_tokener_error_parse_eof`, `ACL_ERROR_BAD_JSON` otherwise, the parsed
document `null` included. -/
def read_next_ACL (buf : List Nat) (buf_size offset : Nat) (tokener : json_tokener) :
    Option (KineticACLLoadResult × Nat × Option KineticProto_Command_Security_ACL) :=
  match tokener ((buf.drop offset).take (buf_size - offset)) with
  | .error_parse_eof => some (ACL_END_OF_STREAM, 0, none)
  | .error_other => some (ACL_ERROR_BAD_JSON, 0, none)
  | .parsed .null _ => some (ACL_ERROR_BAD_JSON, 0, none)
  | .parsed obj char_offset =>
    match read_next_ACL_object obj with
    | none => none
    | some (res, acl) => some (res, char_offset, acl)

/-- The lines of `acl_of_string` that store a record: double the array when it
is full, store at `ACL_count`, increment `ACL_count`. -/
def acl_store (acl_group : ACL) (new_acl : KineticProto_Command_Security_ACL) : ACL :=
  let acl_group :=
    if acl_group.ACL_count = acl_group.ACL_ceil then
      { acl_group with ACL_ceil := acl_group.ACL_ceil * 2 }
    else acl_group
  { acl_group with ACLs := acl_group.ACLs ++ [new_acl], ACL_count := acl_group.ACL_count + 1 }

/-- The `while` loop of `acl_of_string`, from the state `(offset, acl_group, res)`.
`none` also covers the two ways the C loop has no result: a tokener that
reports an object without consuming a byte (the loop would not end) and one
that reports more bytes than it was given (`buf_size - offset` would wrap). -/
def acl_of_string_loop (tokener : json_tokener) (buf : List Nat) (buf_size : Nat)
    (offset : Nat) (acl_group : ACL) (res : KineticACLLoadResult) :
    Option (KineticACLLoadResult × ACL) :=
  if buf_size - offset > 0 then
    match read_next_ACL buf buf_size offset tokener with
    | none => none
    | some (ACL_OK, offset_out, some new_acl) =>
      if offset_out = 0 ∨ offset + offset_out > buf_size then none
      else
        acl_of_string_loop tokener buf buf_size (offset + offset_out)
          (acl_store acl_group new_acl) ACL_OK
    | some (ACL_OK, _, none) => none
    | some (res, _, _) => some (res, acl_group)
  else some (res, acl_group)
termination_by buf_size - offset
decreasing_by omega

/-- The function `acl_of_string`: the result code and the group written to
`*instance` (`none` when `*instance` is not written). -/
def acl_of_string (tokener : json_tokener) (buf : List Nat) (buf_size : Nat) :
    Option (KineticACLLoadResult × Option ACL) :=
  let acl_group : ACL := { ACL_ceil := 1, ACL_count := 0, ACLs := [] }
  match acl_of_string_loop tokener buf buf_size 0 acl_group ACL_ERROR_MEMORY with
  | none => none
  | some (res, acl_group) =>
    if res = ACL_END_OF_STREAM ∨ res = ACL_OK then
      if acl_group.ACL_count = 0 then some (ACL_ERROR_BAD_JSON, none)
      else some (ACL_OK, some acl_group)
    else some (res, none)


/-! ## Socket transport: `KineticSocket_Read` and `KineticSocket_Write`

The system calls are the environment. A run of one of the two functions is
driven by the results the calls return, listed in call order; a run that needs
a call for which the list has no result is `blocked` (the C function would
still be inside that call). `size_t` is 64 bits wide. -/

/-- The width of `size_t`: `count` is computed modulo this number. -/
def SIZE_T_MODULUS : Nat := 2 ^ 64

/-- The value of `EINTR` in `<errno.h>`. -/
def EINTR : Int := 4

/-- What a `read` or `write` call returns: the status, the value it leaves in
`errno`, and for a `read` the bytes it stored. -/
structure SyscallResult where
  status : Int
  errno : Int := 0
  data : List Nat := []
deriving DecidableEq, Repr

/-- One `read` or `write` call as issued: the offset of `&buffer[count]`, the
byte count asked for, what the call returned, and the bytes it moved (stored
in the buffer by a successful `read`, taken from it by a successful `write`). -/
structure SocketCall where
  offset : Nat
  requested : Nat
  status : Int
  errno : Int
  data : List Nat := []
deriving DecidableEq, Repr

/-- The outcome of a run: the value returned (`none` when the run is blocked),
the `select` statuses consumed, the `read`/`write` calls issued, in order, and
the bytes involved: for a read the buffer after the run, for a write the bytes
the kernel accepted, in order. -/
structure SocketOutcome where
  result : Option Bool
  selects : List Int
  calls : List SocketCall
  bytes : List Nat
deriving DecidableEq, Repr

/-- Put one more `select` status and one more call in front of an outcome. -/
def SocketOutcome.after (select : List Int) (call : SocketCall) (rest : SocketOutcome) :
    SocketOutcome :=
  { rest with selects := select ++ rest.selects, calls := call :: rest.calls }

/-- The `count += status` of the C code: `status` is converted to `size_t` and
the sum is taken modulo `2 ^ 64`. -/
def size_t_add (count : Nat) (status : Int) : Nat :=
  (((count : Int) + status) % (SIZE_T_MODULUS : Int)).toNat

/-- The loop of `KineticSocket_Write` from the state `count`: the body, then
the increment `count += status`, which a `continue` also runs. -/
def KineticSocket_Write_loop (buffer : List Nat) (length : Nat) :
    List SyscallResult → Nat → SocketOutcome
  | [], count =>
    if count < length then { result := none, selects := [], calls := [], bytes := [] }
    else { result := some true, selects := [], calls := [], bytes := [] }
  | r :: writes, count =>
    if count < length then
      let call : SocketCall :=
        { offset := count, requested := length - count, status := r.status, errno := r.errno }
      if r.status = -1 ∧ r.errno = EINTR then
        SocketOutcome.after [] call
          (KineticSocket_Write_loop buffer length writes (size_t_add count r.status))
      else if r.status ≤ 0 then
        { result := some false, selects := [], calls := [call], bytes := [] }
      else
        let accepted := (buffer.drop count).take r.status.toNat
        let rest := KineticSocket_Write_loop buffer length writes (size_t_add count r.status)
        { SocketOutcome.after [] { call with data := accepted } rest with
          bytes := accepted ++ rest.bytes }
    else { result := some true, selects := [], calls := [], bytes := [] }

/-- The function `KineticSocket_Write`: `writes` lists the results of the
`write` calls. -/
def KineticSocket_Write (writes : List SyscallResult) (buffer : List Nat) (length : Nat) :
    SocketOutcome :=
  KineticSocket_Write_loop buffer length writes 0

/-! ## Sending a request: `KineticOperation_SendRequest`

The helpers the send path calls are not among the sources; what they return
is the environment of a send. -/

/-- Modelled from the spec: the sentinel a request header's `sequence` holds
until the send path binds a sequence number (section 4.6, step 1). Its value is
set in a header that is not among the sources; no property below depends on it. -/
def KINETIC_SEQUENCE_NOT_YET_BOUND : Int := -2

/-- Modelled from the spec: `KineticSession_GetNextSequenceCount`, the
fetch-and-add on the session's counter (section 4.5, `nextSequence`): the value
drawn and the session afterwards. -/
def KineticSession_GetNextSequenceCount (session : KineticSession) : Int × KineticSession :=
  (session.sequence, { session with sequence := session.sequence + 1 })

/-- Modelled from the spec: `KineticCountingSemaphore_Take` on a semaphore with
`count` free slots (section 4.4): one slot is taken when there is one; with no
free slot the call blocks, which is `none` here. -/
def KineticCountingSemaphore_Take (count : Nat) : Option Nat :=
  if count = 0 then none else some (count - 1)

/-- Modelled from the spec: `KineticCountingSemaphore_Give` (section 4.4): one
slot is given back. -/
def KineticCountingSemaphore_Give (count : Nat) : Nat :=
  count + 1

/-- What the helpers of the send path return during one send:
`KineticRequest_LockOperation` (`true` when the lock is acquired),
`KineticRequest_PackCommand` (the packed length, `none` for
`KINETIC_REQUEST_PACK_FAILURE`), `KineticRequest_PopulateAuthentication`,
`KineticRequest_PackMessage`, and `KineticRequest_SendRequest` (`true` when
the bus accepts the request). -/
structure SendEnvironment where
  lockAcquired : Bool := true
  packCommand : Option Nat := some 0
  authentication : KineticStatus := KineticStatus.KINETIC_STATUS_SUCCESS
  packMessage : KineticStatus := KineticStatus.KINETIC_STATUS_SUCCESS
  busAccepts : Bool := true
deriving DecidableEq, Repr

/-- What a send leaves behind: the status returned, the operation afterwards
(with its connection's session counter and semaphore count, and its request
header), and whether `KineticRequest_SendRequest` was called. -/
structure SendResult where
  status : KineticStatus
  operation : KineticOperation
  busCalled : Bool

/-- The assignment `operation->connection->outstandingOperations = count` of
the semaphore's count. -/
def KineticOperation.setOutstanding (operation : KineticOperation) (count : Nat) :
    KineticOperation :=
  { operation with
    connection := operation.connection.map fun connection =>
      { connection with outstandingOperations := count } }

/-- The function `KineticOperation_SendRequestInLock`. The header storage
`request->message.header` is reached through `command->header` here. A failed
assertion and a `Take` that blocks are `none`. -/
def KineticOperation_SendRequestInLock (env : SendEnvironment) (operation : KineticOperation) :
    Option SendResult :=
  match operation.request, operation.connection with
  | some request, some connection =>
    let drawn := KineticSession_GetNextSequenceCount connection.pSession
    let seq_id := drawn.1
    let operation := { operation with connection := some { connection with pSession := drawn.2 } }
    match request.command.bind fun command => command.header with
    | none => none
    | some header =>
      if header.sequence ≠ KINETIC_SEQUENCE_NOT_YET_BOUND then none
      else
        let operation := operation.updateHeader fun header => { header with sequence := seq_id }
        match env.packCommand with
        | none =>
          some { status := KINETIC_STATUS_MEMORY_ERROR, operation := operation, busCalled := false }
        | some _ =>
          let status := env.authentication
          if status ≠ KINETIC_STATUS_SUCCESS then
            some { status := status, operation := operation, busCalled := false }
          else
            let status := env.packMessage
            if status ≠ KINETIC_STATUS_SUCCESS then
              some { status := status, operation := operation, busCalled := false }
            else
              match KineticCountingSemaphore_Take connection.outstandingOperations with
              | none => none
              | some count =>
                if !env.busAccepts then
                  some { status := KINETIC_STATUS_REQUEST_REJECTED
                         operation :=
                           operation.setOutstanding (KineticCountingSemaphore_Give count)
                         busCalled := true }
                else
                  some { status := KINETIC_STATUS_SUCCESS
                         operation := operation.setOutstanding count
                         busCalled := true }
  | _, _ => none

/-- The function `KineticOperation_SendRequest`: the send under the
operation's lock. -/
def KineticOperation_SendRequest (env : SendEnvironment) (operation : KineticOperation) :
    Option SendResult :=
  match operation.connection, operation.request with
  | some _, some _ =>
    if !env.lockAcquired then
      some { status := KINETIC_STATUS_CONNECTION_ERROR, operation := operation,
             busCalled := false }
    else KineticOperation_SendRequestInLock env operation
  | _, _ => none

/-! ## Completion and the builders and post-processors of the other commands -/

/-- One step of `KineticOperation_Complete`, in the order the steps are taken:
the semaphore is given, the user's callback is called with the completion data
(the status) and the client data, the operation is freed. -/
inductive CompletionEvent where
  | semaphoreGive
  | closureCall (callback : Nat) (status : KineticStatus) (clientData : Nat)
  | freeOperation
deriving DecidableEq, Repr

/-- The function `KineticOperation_Complete`: the steps taken, in order, and
the connection afterwards (the operation itself is freed). A null `connection`
is dereferenced: `none`. -/
def KineticOperation_Complete (operation : KineticOperation) (status : KineticStatus) :
    Option (List CompletionEvent × KineticConnection) :=
  match operation.connection with
  | none => none
  | some connection =>
    let connection :=
      { connection with
        outstandingOperations := KineticCountingSemaphore_Give connection.outstandingOperations }
    let called :=
      match operation.closure.callback with
      | some callback =>
        [CompletionEvent.closureCall callback status operation.closure.clientData]
      | none => []
    some ([CompletionEvent.semaphoreGive] ++ called ++ [CompletionEvent.freeOperation],
      connection)

/-- A post-processor that asserts `operation->connection != NULL` and returns
its status: the body shared by the NOOP, FLUSHALLDATA, SetPin, Erase,
LockUnlock and SetACL callbacks. -/
def statusCallback (operation : KineticOperation) (status : KineticStatus) :
    Option (KineticStatus × KineticOperation) :=
  match operation.connection with
  | some _ => some (status, operation)
  | none => none

/-- The function `KineticOperation_NoopCallback`. -/
def KineticOperation_NoopCallback (operation : KineticOperation) (status : KineticStatus) :
    Option (KineticStatus × KineticOperation) :=
  statusCallback operation status

/-- The function `KineticOperation_BuildNoop`. -/
def KineticOperation_BuildNoop (operation : KineticOperation) : Option KineticOperation :=
  if !KineticOperation_ValidateOperation operation then none
  else
    let operation := operation.setMessageType KineticProto_Command_MessageType.NOOP
    some { operation with
      callback := some KineticOperationCallback.KineticOperation_NoopCallback }

/-- The function `KineticOperation_FlushCallback`. -/
def KineticOperation_FlushCallback (operation : KineticOperation) (status : KineticStatus) :
    Option (KineticStatus × KineticOperation) :=
  statusCallback operation status

/-- The function `KineticOperation_BuildFlush`. -/
def KineticOperation_BuildFlush (operation : KineticOperation) : Option KineticOperation :=
  if !KineticOperation_ValidateOperation operation then none
  else
    let operation := operation.setMessageType KineticProto_Command_MessageType.FLUSHALLDATA
    some { operation with
      callback := some KineticOperationCallback.KineticOperation_FlushCallback }

/-- The function `KineticOperation_DeleteCallback`. -/
def KineticOperation_DeleteCallback (operation : KineticOperation) (status : KineticStatus) :
    Option (KineticStatus × KineticOperation) :=
  match operation.connection, operation.entry with
  | some _, some _ => some (status, operation)
  | _, _ => none

/-- The function `KineticOperation_BuildDelete`. -/
def KineticOperation_BuildDelete (operation : KineticOperation) (entry : KineticEntry) :
    Option KineticOperation :=
  if !KineticOperation_ValidateOperation operation then none
  else
    let operation := operation.setMessageType KineticProto_Command_MessageType.DELETE
    let operation := { operation with entry := some entry }
    let operation := KineticMessage_ConfigureKeyValue operation entry
    let operation :=
      if entry.value.array.data ≠ none then
        let value := ByteBuffer_Reset entry.value
        { operation with
          entry := some { entry with value := value }
          value := { data := value.array.data, len := value.bytesUsed } }
      else operation
    some { operation with
      callback := some KineticOperationCallback.KineticOperation_DeleteCallback }

/-- Modelled from the spec: `KineticMessage_ConfigureKeyRange`
(`kinetic_message.c`, not among the sources): attach the range body built from
the caller's range to the request. It reads the range and does not write to it. -/
def KineticMessage_ConfigureKeyRange (operation : KineticOperation) (range : KineticKeyRange) :
    KineticOperation :=
  operation.updateBody fun body =>
    { body with
      range := some
        { has_startKey := !ByteBuffer_IsNull range.startKey
          startKey := { data := range.startKey.array.data, len := range.startKey.bytesUsed }
          has_endKey := !ByteBuffer_IsNull range.endKey
          endKey := { data := range.endKey.array.data, len := range.endKey.bytesUsed }
          has_startKeyInclusive := range.startKeyInclusive
          startKeyInclusive := range.startKeyInclusive
          has_endKeyInclusive := range.endKeyInclusive
          endKeyInclusive := range.endKeyInclusive
          has_maxReturned := true
          maxReturned := range.maxReturned
          has_reverse := range.reverse
          reverse := range.reverse } }

/-- The function `KineticOperation_BuildGetKeyRange`; `range` and `buffers`
are pointers, asserted to be non-null. -/
def KineticOperation_BuildGetKeyRange (operation : KineticOperation)
    (range : Option KineticKeyRange) (buffers : Option ByteBufferArray) :
    Option KineticOperation :=
  if !KineticOperation_ValidateOperation operation then none
  else
    match range, buffers with
    | some range, some buffers =>
      let operation := operation.setMessageType KineticProto_Command_MessageType.GETKEYRANGE
      let operation := KineticMessage_ConfigureKeyRange operation range
      some { operation with
        buffers := some buffers
        callback := some KineticOperationCallback.KineticOperation_GetKeyRangeCallback }
    | _, _ => none

/-- The function `KineticOperation_GetLogCallback`. The expression
`operation->response->command->body->getLog` dereferences the response's
command and its body: a null pointer on the way is `none`. -/
def KineticOperation_GetLogCallback (operation : KineticOperation) (status : KineticStatus) :
    Option (KineticStatus × KineticOperation) :=
  match operation.connection, operation.deviceInfo with
  | some _, some _ =>
    if status = KINETIC_STATUS_SUCCESS then
      match operation.response with
      | none => none
      | some response =>
        match response.command with
        | none => none
        | some command =>
          match command.body with
          | none => none
          | some body =>
            match body.getLog with
            | none => some (KINETIC_STATUS_OPERATION_FAILED, operation)
            | some getLog =>
              some (KINETIC_STATUS_SUCCESS,
                { operation with deviceInfo := some (some (KineticLogInfo_Create getLog)) })
    else some (status, operation)
  | _, _ => none

/-- The function `KineticOperation_BuildGetLog`. The conversion
`KineticLogInfo_Type_to_KineticProto_Command_GetLog_Type` is not among the
sources and is a parameter; `info` is the caller's out-pointer. -/
def KineticOperation_BuildGetLog
    (KineticLogInfo_Type_to_KineticProto_Command_GetLog_Type : Int → Int)
    (operation : KineticOperation) (type : Int) (info : Option (Option KineticLogInfo)) :
    Option KineticOperation :=
  if !KineticOperation_ValidateOperation operation then none
  else
    let protoType := KineticLogInfo_Type_to_KineticProto_Command_GetLog_Type type
    let operation := operation.setMessageType KineticProto_Command_MessageType.GETLOG
    let operation := operation.updateBody fun body =>
      { body with
        getLog := some { body.getLog.getD {} with types := [protoType], n_types := 1 } }
    some { operation with
      deviceInfo := info
      callback := some KineticOperationCallback.KineticOperation_GetLogCallback }

mutual
/-- The function `populateP2PStatusCodes` for a response tree that is not null. -/
def populateP2PStatusCodes_tree (KineticProtoStatusCode_to_KineticStatus : Int → KineticStatus) :
    KineticP2P_Operation → KineticProto_Command_P2POperation → KineticP2P_Operation
  | .mk peer operations, .mk _ responses =>
    .mk peer
      (populateP2PStatusCodes_loop KineticProtoStatusCode_to_KineticStatus operations responses)
/-- The `for` loop of `populateP2PStatusCodes` from index `i` on: the caller's
sub-operations from `i` and the response's sub-operations from `i` (none left
when `i` is not below `n_operation`). -/
def populateP2PStatusCodes_loop (KineticProtoStatusCode_to_KineticStatus : Int → KineticStatus) :
    List KineticP2P_OperationData → List KineticProto_Command_P2POperation_Operation →
      List KineticP2P_OperationData
  | [], _ => []
  | .mk key version newKey chainedOperation _ :: rest, [] =>
    .mk key version newKey chainedOperation KINETIC_STATUS_INVALID
      :: populateP2PStatusCodes_loop KineticProtoStatusCode_to_KineticStatus rest []
  | .mk key version newKey chainedOperation _ :: rest, .mk _ p2pop status :: responses =>
    let resultStatus :=
      match status with
      | some status =>
        if status.has_code then KineticProtoStatusCode_to_KineticStatus status.code
        else KINETIC_STATUS_INVALID
      | none => KINETIC_STATUS_INVALID
    .mk key version newKey
        (populateP2PStatusCodes_chained KineticProtoStatusCode_to_KineticStatus chainedOperation
          p2pop)
        resultStatus
      :: populateP2PStatusCodes_loop KineticProtoStatusCode_to_KineticStatus rest responses
/-- The recursive call of `populateP2PStatusCodes`, made when the caller's
sub-operation has a chained operation and the response's has a nested one. -/
def populateP2PStatusCodes_chained
    (KineticProtoStatusCode_to_KineticStatus : Int → KineticStatus) :
    Option KineticP2P_Operation → Option KineticProto_Command_P2POperation →
      Option KineticP2P_Operation
  | some chained, some p2pop =>
    some (populateP2PStatusCodes_tree KineticProtoStatusCode_to_KineticStatus chained p2pop)
  | some chained, none => some chained
  | none, _ => none
end

/-- The function `populateP2PStatusCodes`: nothing is written when the response
tree is null. The conversion `KineticProtoStatusCode_to_KineticStatus` is not
among the sources and is a parameter. -/
def populateP2PStatusCodes (KineticProtoStatusCode_to_KineticStatus : Int → KineticStatus)
    (p2pOp : KineticP2P_Operation) (p2pOperation : Option KineticProto_Command_P2POperation) :
    KineticP2P_Operation :=
  match p2pOperation with
  | none => p2pOp
  | some p2pOperation =>
    populateP2PStatusCodes_tree KineticProtoStatusCode_to_KineticStatus p2pOp p2pOperation

/-- The p2p tree a response carries: `response->command->body->p2pOperation`
when none of the pointers on the way is null. -/
def KineticResponse.p2pOperation (response : Option KineticResponse) :
    Option KineticProto_Command_P2POperation :=
  match response with
  | some response =>
    match response.command with
    | some command =>
      match command.body with
      | some body => body.p2pOperation
      | none => none
    | none => none
  | none => none

/-- The function `KineticOperation_P2POperationCallback`. `destroy_p2pOp` frees
the request's tree: the pointer to it, left dangling in C, is `none` afterwards.
A null `p2pOp` that is walked, or a request without command or body, is `none`. -/
def KineticOperation_P2POperationCallback
    (KineticProtoStatusCode_to_KineticStatus : Int → KineticStatus)
    (operation : KineticOperation) (status : KineticStatus) :
    Option (KineticStatus × KineticOperation) :=
  let populated : Option (Option KineticP2P_Operation) :=
    if status = KINETIC_STATUS_SUCCESS then
      match KineticResponse.p2pOperation operation.response with
      | some p2pOperation =>
        match operation.p2pOp with
        | some p2pOp =>
          some (some (populateP2PStatusCodes KineticProtoStatusCode_to_KineticStatus p2pOp
            (some p2pOperation)))
        | none => none
      | none => some operation.p2pOp
    else some operation.p2pOp
  match populated with
  | none => none
  | some p2pOp =>
    match operation.request with
    | none => none
    | some request =>
      match request.command with
      | none => none
      | some command =>
        match command.body with
        | none => none
        | some body =>
          some (status,
            { operation with
              p2pOp := p2pOp
              request := some
                { request with
                  command := some
                    { command with body := some { body with p2pOperation := none } } } })

/-- Modelled from the spec: the timeout of a set-pin operation, 30 s
(section 4.6, step 6). -/
def KineticOperation_TimeoutSetPin : Nat := 30

/-- Modelled from the spec: the timeout of an erase operation, 180 s. -/
def KineticOperation_TimeoutErase : Nat := 180

/-- Modelled from the spec: the timeout of a lock or unlock operation, 30 s. -/
def KineticOperation_TimeoutLockUnlock : Nat := 30

/-- Modelled from the spec: the timeout of a set-ACL operation, 90 s. -/
def KineticOperation_TimeoutSetACL : Nat := 90

/-- Assignment to `request->pinAuth`. -/
def KineticOperation.setPinAuth (operation : KineticOperation) (pinAuth : Bool) :
    KineticOperation :=
  { operation with
    request := operation.request.map fun request => { request with pinAuth := pinAuth } }

/-- The function `KineticOperation_SetPinCallback`. -/
def KineticOperation_SetPinCallback (operation : KineticOperation) (status : KineticStatus) :
    Option (KineticStatus × KineticOperation) :=
  statusCallback operation status

/-- The function `KineticOperation_BuildSetPin`. -/
def KineticOperation_BuildSetPin (operation : KineticOperation) (old_pin new_pin : ByteArray)
    (lock : Bool) : Option KineticOperation :=
  if !KineticOperation_ValidateOperation operation then none
  else
    let operation := operation.setMessageType KineticProto_Command_MessageType.SECURITY
    let operation := operation.updateBody fun body =>
      let security := body.security.getD {}
      { body with
        security := some
          (if lock then
            { security with
              oldLockPIN := { data := old_pin.data, len := old_pin.len }
              has_oldLockPIN := true
              newLockPIN := { data := new_pin.data, len := new_pin.len }
              has_newLockPIN := true }
          else
            { security with
              oldErasePIN := { data := old_pin.data, len := old_pin.len }
              has_oldErasePIN := true
              newErasePIN := { data := new_pin.data, len := new_pin.len }
              has_newErasePIN := true }) }
    let operation :=
      { operation with
        callback := some KineticOperationCallback.KineticOperation_SetPinCallback }
    let operation := operation.setPinAuth false
    some { operation with timeoutSeconds := KineticOperation_TimeoutSetPin }

/-- The function `KineticOperation_EraseCallback`. -/
def KineticOperation_EraseCallback (operation : KineticOperation) (status : KineticStatus) :
    Option (KineticStatus × KineticOperation) :=
  statusCallback operation status

/-- The function `KineticOperation_BuildErase`; `pin` is a pointer. -/
def KineticOperation_BuildErase (operation : KineticOperation) (secure_erase : Bool)
    (pin : Option ByteArray) : Option KineticOperation :=
  if !KineticOperation_ValidateOperation operation then none
  else
    let operation := { operation with pin := pin }
    let operation := operation.setMessageType KineticProto_Command_MessageType.PINOP
    let operation := operation.updateBody fun body =>
      { body with
        pinOp := some
          { body.pinOp.getD {} with
            pinOpType :=
              if secure_erase then KineticProto_Command_PinOperation_PinOpType.SECURE_ERASE_PINOP
              else KineticProto_Command_PinOperation_PinOpType.ERASE_PINOP
            has_pinOpType := true } }
    let operation :=
      { operation with
        callback := some KineticOperationCallback.KineticOperation_EraseCallback }
    let operation := operation.setPinAuth true
    some { operation with timeoutSeconds := KineticOperation_TimeoutErase }

/-- The function `KineticOperation_LockUnlockCallback`. -/
def KineticOperation_LockUnlockCallback (operation : KineticOperation) (status : KineticStatus) :
    Option (KineticStatus × KineticOperation) :=
  statusCallback operation status

/-- The function `KineticOperation_BuildLockUnlock`; `pin` is a pointer. -/
def KineticOperation_BuildLockUnlock (operation : KineticOperation) (lock : Bool)
    (pin : Option ByteArray) : Option KineticOperation :=
  if !KineticOperation_ValidateOperation operation then none
  else
    let operation := { operation with pin := pin }
    let operation := operation.setMessageType KineticProto_Command_MessageType.PINOP
    let operation := operation.updateBody fun body =>
      { body with
        pinOp := some
          { body.pinOp.getD {} with
            pinOpType :=
              if lock then KineticProto_Command_PinOperation_PinOpType.LOCK_PINOP
              else KineticProto_Command_PinOperation_PinOpType.UNLOCK_PINOP
            has_pinOpType := true } }
    let operation :=
      { operation with
        callback := some KineticOperationCallback.KineticOperation_LockUnlockCallback }
    let operation := operation.setPinAuth true
    some { operation with timeoutSeconds := KineticOperation_TimeoutLockUnlock }

/-- Modelled from the spec: `KineticSession_SetClusterVersion` (not among the
sources), `session.setClusterVersion(v)` of section 4.5. -/
def KineticSession_SetClusterVersion (session : KineticSession) (cluster_version : Int) :
    KineticSession :=
  { session with clusterVersion := cluster_version }

/-- The function `KineticOperation_SetClusterVersionCallback`. -/
def KineticOperation_SetClusterVersionCallback (operation : KineticOperation)
    (status : KineticStatus) : Option (KineticStatus × KineticOperation) :=
  match operation.connection with
  | some connection =>
    if status = KINETIC_STATUS_SUCCESS then
      some (status,
        { operation with
          connection := some
            { connection with
              pSession :=
                KineticSession_SetClusterVersion connection.pSession
                  operation.pendingClusterVersion }
          pendingClusterVersion := -1 })
    else some (status, operation)
  | none => none

/-- The function `KineticOperation_BuildSetClusterVersion`. -/
def KineticOperation_BuildSetClusterVersion (operation : KineticOperation)
    (new_cluster_version : Int) : Option KineticOperation :=
  if !KineticOperation_ValidateOperation operation then none
  else
    let operation := operation.setMessageType KineticProto_Command_MessageType.SETUP
    let operation := operation.updateBody fun body =>
      { body with
        setup := some
          { body.setup.getD {} with
            newClusterVersion := new_cluster_version
            has_newClusterVersion := true } }
    some { operation with
      callback := some KineticOperationCallback.KineticOperation_SetClusterVersionCallback
      pendingClusterVersion := new_cluster_version }

/-- The function `KineticOperation_SetACLCallback`. -/
def KineticOperation_SetACLCallback (operation : KineticOperation) (status : KineticStatus) :
    Option (KineticStatus × KineticOperation) :=
  statusCallback operation status

/-- The function `KineticOperation_BuildSetACL`; `ACLs` is a pointer, which is
dereferenced. -/
def KineticOperation_BuildSetACL (operation : KineticOperation) (ACLs : Option ACL) :
    Option KineticOperation :=
  if !KineticOperation_ValidateOperation operation then none
  else
    match ACLs with
    | none => none
    | some ACLs =>
      let operation := operation.setMessageType KineticProto_Command_MessageType.SECURITY
      let operation := operation.updateBody fun body =>
        { body with
          security := some
            { body.security.getD {} with n_acl := ACLs.ACL_count, acl := some ACLs.ACLs } }
      some { operation with
        callback := some KineticOperationCallback.KineticOperation_SetACLCallback
        timeoutSeconds := KineticOperation_TimeoutSetACL }

/-- The function `KineticOperation_UpdateFirmwareCallback`: the firmware image
is freed and the value zeroed. -/
def KineticOperation_UpdateFirmwareCallback (operation : KineticOperation)
    (status : KineticStatus) : Option (KineticStatus × KineticOperation) :=
  match operation.connection with
  | some _ =>
    if operation.value.data ≠ none then
      some (status, { operation with value := { data := none, len := 0 } })
    else some (status, operation)
  | none => none

/-- The file system as `fopen` and `fread` see it: the bytes of the file a
path names, `none` when the file cannot be opened. On a file that was opened,
`fseek` succeeds, `ftell` at the end gives the length and `fread` reads all
of it. -/
abbrev FileSystem := String → Option (List Nat)

/-- The function `KineticOperation_BuildUpdateFirmware`, with the file system
and the outcome of `calloc` as its environment; `fw_path` is a pointer. -/
def KineticOperation_BuildUpdateFirmware (files : FileSystem) (calloc_succeeds : Bool)
    (operation : KineticOperation) (fw_path : Option String) :
    Option (KineticStatus × KineticOperation) :=
  if !KineticOperation_ValidateOperation operation then none
  else
    match fw_path with
    | none => some (KINETIC_STATUS_INVALID_FILE, operation)
    | some fw_path =>
      match files fw_path with
      | none => some (KINETIC_STATUS_INVALID_FILE, operation)
      | some image =>
        let len := image.length
        if len < 1 then some (KINETIC_STATUS_INVALID_FILE, operation)
        else if !calloc_succeeds then
          some (KINETIC_STATUS_MEMORY_ERROR,
            { operation with value := { operation.value with data := none } })
        else
          let operation := { operation with value := { data := some image, len := len } }
          let operation := operation.setMessageType KineticProto_Command_MessageType.SETUP
          let operation := operation.updateBody fun body =>
            { body with
              setup := some
                { body.setup.getD {} with
                  firmwareDownload := true
                  has_firmwareDownload := true } }
          some (KINETIC_STATUS_SUCCESS,
            { operation with
              callback := some KineticOperationCallback.KineticOperation_UpdateFirmwareCallback })

/-! ## The GETKEYRANGE post-processor -/

/-- Modelled from the spec: `KineticResponse_GetKeyRange` (`kinetic_response.c`,
not among the sources): the range body of the response, `none` when the
response carries none. -/
def KineticResponse_GetKeyRange (response : KineticResponse) :
    Option KineticProto_Command_Range :=
  match response.command with
  | some command =>
    match command.body with
    | some body => body.range
    | none => none
  | none => none

/-- The copy of the returned keys into the caller's buffers, buffer by buffer:
each key replaces the contents of the next buffer when it fits; the boolean is
`false` when a key does not fit its buffer or no buffer is left for it. -/
def copyKeysToBuffers : List ByteArray → List ByteBuffer → List ByteBuffer × Bool
  | [], buffers => (buffers, true)
  | _ :: _, [] => ([], false)
  | key :: keys, buffer :: buffers =>
    let copied := ByteBuffer_Append (ByteBuffer_Reset buffer) key.data key.len
    let rest := copyKeysToBuffers keys buffers
    (copied.1 :: rest.1, copied.2 && rest.2)

/-- Modelled from the spec: `Copy_KineticProto_Command_Range_to_ByteBufferArray`
(not among the sources): "copy returned keys into buffer array up to capacity;
otherwise `BUFFER_OVERRUN`" (section 4.7). The result is `false` when the keys
do not fit; `used` counts the buffers filled. -/
def Copy_KineticProto_Command_Range_to_ByteBufferArray (keyRange : KineticProto_Command_Range)
    (buffers : ByteBufferArray) : ByteBufferArray × Bool :=
  let copied := copyKeysToBuffers keyRange.keys buffers.buffers
  ({ buffers := copied.1, used := min keyRange.keys.length buffers.buffers.length }, copied.2)

/-- The function `KineticOperation_GetKeyRangeCallback`; it asserts that the
buffer array is there and has a buffer. -/
def KineticOperation_GetKeyRangeCallback (operation : KineticOperation)
    (status : KineticStatus) : Option (KineticStatus × KineticOperation) :=
  match operation.connection, operation.buffers with
  | some _, some buffers =>
    if buffers.buffers.length = 0 then none
    else if status = KINETIC_STATUS_SUCCESS then
      match operation.response with
      | none => none
      | some response =>
        match KineticResponse_GetKeyRange response with
        | some keyRange =>
          let copied := Copy_KineticProto_Command_Range_to_ByteBufferArray keyRange buffers
          if !copied.2 then
            some (KINETIC_STATUS_BUFFER_OVERRUN, { operation with buffers := some copied.1 })
          else some (status, { operation with buffers := some copied.1 })
        | none => some (status, operation)
    else some (status, operation)
  | _, _ => none

/-! ## Properties and inputs used in the statements -/

/-- The outcome claimed for the PUT post-processor: called with `SUCCESS` on an
operation whose entry is `entry`, it returns `SUCCESS`, the entry's `dbVersion`
holds the bytes `newVersion` held before and `newVersion` is empty. -/
def PutCallbackPropagates (operation : KineticOperation) (entry : KineticEntry) : Prop :=
  ∃ after entry',
    KineticOperation_PutCallback operation KINETIC_STATUS_SUCCESS
      = some (KINETIC_STATUS_SUCCESS, after) ∧
    after.entry = some entry' ∧
    entry'.dbVersion.bytes = entry.newVersion.bytes ∧
    entry'.newVersion.bytesUsed = 0

/-- An entry whose `dbVersion` buffer (capacity 2) is smaller than the version
`"v1.0"` held by its `newVersion` buffer. -/
def smallDbVersionEntry : KineticEntry :=
  { dbVersion := { array := { data := some [0, 0], len := 2 }, bytesUsed := 0 }
    newVersion := { array := { data := some [118, 49, 46, 48], len := 4 }, bytesUsed := 4 } }

/-- An operation with a connection and a response, pointing at `smallDbVersionEntry`. -/
def smallDbVersionOperation : KineticOperation :=
  { connection := some {}, response := some {}, entry := some smallDbVersionEntry }

/-- An operation that passes `KineticOperation_ValidateOperation`: connected,
with a request whose header has a sequence field. -/
def validOperation : KineticOperation :=
  { connection := some {}
    request := some { command := some { header := some { has_sequence := true } } } }

/-- An entry whose version `"v1.0"` fits its `dbVersion` buffer (capacity 8). -/
def fittingDbVersionEntry : KineticEntry :=
  { dbVersion := { array := { data := some [0, 0, 0, 0, 0, 0, 0, 0], len := 8 }, bytesUsed := 0 }
    newVersion := { array := { data := some [118, 49, 46, 48], len := 4 }, bytesUsed := 4 } }

/-- The three commands that share `build_get_command` and `get_cb`. -/
inductive GetCommand where
  | GET
  | GETNEXT
  | GETPREVIOUS
deriving DecidableEq, Repr

/-- The builder of a GET-family command. -/
def GetCommand.build : GetCommand → KineticOperation → KineticEntry → Option KineticOperation
  | .GET => KineticOperation_BuildGet
  | .GETNEXT => KineticOperation_BuildGetNext
  | .GETPREVIOUS => KineticOperation_BuildGetPrevious

/-- The post-processor the builder of a GET-family command installs. -/
def GetCommand.callback :
    GetCommand → KineticOperation → KineticStatus → Option (KineticStatus × KineticOperation)
  | .GET => get_cmd_cb
  | .GETNEXT => getnext_cmd_cb
  | .GETPREVIOUS => getprevious_cmd_cb

/-- Build a GET-family command for `entry`, attach the response the device sent
and run the post-processor with status `SUCCESS`. -/
def getRoundTrip (cmd : GetCommand) (operation : KineticOperation) (entry : KineticEntry)
    (response : KineticResponse) : Option (KineticStatus × KineticOperation) :=
  match cmd.build operation entry with
  | none => none
  | some built => cmd.callback { built with response := some response } KINETIC_STATUS_SUCCESS

/-- The outcome claimed for a GET: the post-processor returns `SUCCESS` and the
entry's value buffer holds exactly the bytes `V`. -/
def GetDelivers (cmd : GetCommand) (operation : KineticOperation) (entry : KineticEntry)
    (response : KineticResponse) (V : List Nat) : Prop :=
  ∃ after entry',
    getRoundTrip cmd operation entry response = some (KINETIC_STATUS_SUCCESS, after) ∧
    after.entry = some entry' ∧
    entry'.value.bytes = V ∧
    entry'.value.bytesUsed = V.length

/-- An entry for the key `"k"` with a one-byte tag buffer and an eight-byte
value buffer that still holds five old bytes. -/
def smallTagEntry : KineticEntry :=
  { key := { array := { data := some [107], len := 1 }, bytesUsed := 1 }
    tag := { array := { data := some [0], len := 1 }, bytesUsed := 0 }
    value := { array := { data := some [9, 9, 9, 9, 9, 9, 9, 9], len := 8 }, bytesUsed := 5 } }

/-- A response with a three-byte value and no key-value metadata. -/
def valueOnlyResponse : KineticResponse :=
  { header := { valueLength := 3 }, value := some [1, 2, 3] }

/-- A response with the three-byte value `1 2 3` whose metadata returns the key
`"k"` and the given tag. -/
def taggedResponse (tag : List Nat) : KineticResponse :=
  { header := { valueLength := 3 }
    value := some [1, 2, 3]
    command := some
      { body := some
          { keyValue := some
              { has_key := true
                key := { data := some [107], len := 1 }
                has_tag := true
                tag := { data := some tag, len := tag.length } } } } }

/-- An entry whose value buffer has room for two bytes only. -/
def smallValueEntry : KineticEntry :=
  { value := { array := { data := some [0, 0], len := 2 }, bytesUsed := 0 } }

/-- The entry of the PUT in the system test: key, tag, new version `"v1.0"`,
SHA1, a value, `force`. -/
def putTestEntry : KineticEntry :=
  { key := { array := { data := some [107, 101, 121, 0], len := 4 }, bytesUsed := 3 }
    tag := { array := { data := some [116, 0], len := 2 }, bytesUsed := 1 }
    newVersion := { array := { data := some [118, 49, 46, 48], len := 4 }, bytesUsed := 4 }
    algorithm := KineticAlgorithm.KINETIC_ALGORITHM_SHA1
    value := { array := { data := some [108, 111, 114, 101, 109], len := 5 }, bytesUsed := 5 }
    force := true }

mutual
/-- The nesting depth of a P2P operation: `1` for an operation none of whose
sub-operations is chained, one more than the deepest chained operation
otherwise. A chain of `n` operations, each chained to the next, has depth `n`. -/
def KineticP2P_Operation.depth : KineticP2P_Operation → Nat
  | .mk _ operations => 1 + KineticP2P_Operation.depthList operations
/-- The depth of the deepest operation chained to one of the sub-operations
(`0` when none is chained). -/
def KineticP2P_Operation.depthList : List KineticP2P_OperationData → Nat
  | [] => 0
  | d :: rest => max (KineticP2P_OperationData.depth d) (KineticP2P_Operation.depthList rest)
/-- The depth of the operation chained to a sub-operation (`0` when none is). -/
def KineticP2P_OperationData.depth : KineticP2P_OperationData → Nat
  | .mk _ _ _ chainedOperation _ => KineticP2P_Operation.depthChained chainedOperation
/-- The depth of a chained-operation pointer (`0` for `NULL`). -/
def KineticP2P_Operation.depthChained : Option KineticP2P_Operation → Nat
  | none => 0
  | some chained => KineticP2P_Operation.depth chained
end

mutual
/-- Every sub-operation of the tree, at every level, has a non-null key (the
assertion in the loop of `build_p2pOp`). -/
def KineticP2P_Operation.keysPresent : KineticP2P_Operation → Bool
  | .mk _ operations => KineticP2P_Operation.keysPresentList operations
/-- Every sub-operation of the list, and of the operations chained to them, has
a non-null key. -/
def KineticP2P_Operation.keysPresentList : List KineticP2P_OperationData → Bool
  | [] => true
  | d :: rest =>
    KineticP2P_OperationData.keysPresent d && KineticP2P_Operation.keysPresentList rest
/-- The sub-operation and the operation chained to it have non-null keys. -/
def KineticP2P_OperationData.keysPresent : KineticP2P_OperationData → Bool
  | .mk key _ _ chainedOperation _ =>
    !ByteBuffer_IsNull key && KineticP2P_Operation.keysPresentChained chainedOperation
/-- The chained operation, when there is one, has non-null keys throughout. -/
def KineticP2P_Operation.keysPresentChained : Option KineticP2P_Operation → Bool
  | none => true
  | some chained => KineticP2P_Operation.keysPresent chained
end

mutual
/-- The total number of sub-operations of a P2P operation, counted over all
nesting levels. -/
def KineticP2P_Operation.totalOperations : KineticP2P_Operation → Nat
  | .mk _ operations => KineticP2P_Operation.totalList operations
/-- The sub-operations of the list plus those of the operations chained to them. -/
def KineticP2P_Operation.totalList : List KineticP2P_OperationData → Nat
  | [] => 0
  | d :: rest => KineticP2P_OperationData.total d + KineticP2P_Operation.totalList rest
/-- One sub-operation plus the sub-operations of the operation chained to it. -/
def KineticP2P_OperationData.total : KineticP2P_OperationData → Nat
  | .mk _ _ _ chainedOperation _ => 1 + KineticP2P_Operation.totalChained chainedOperation
/-- The sub-operations reached through a chained-operation pointer. -/
def KineticP2P_Operation.totalChained : Option KineticP2P_Operation → Nat
  | none => 0
  | some chained => KineticP2P_Operation.totalOperations chained
end

/-- A one-byte key. -/
def p2pKey : ByteBuffer :=
  { array := { data := some [107], len := 1 }, bytesUsed := 1 }

/-- A sub-operation with a key, no version, no new key and nothing chained. -/
def p2pLeaf : KineticP2P_OperationData :=
  .mk p2pKey BYTE_BUFFER_NONE BYTE_BUFFER_NONE none KINETIC_STATUS_INVALID

/-- A sub-operation with a key, chained to `chained`. -/
def p2pChainedTo (chained : KineticP2P_Operation) : KineticP2P_OperationData :=
  .mk p2pKey BYTE_BUFFER_NONE BYTE_BUFFER_NONE (some chained) KINETIC_STATUS_INVALID

/-- A chain of `n + 1` operations: each has one sub-operation chained to the
next, the last has one plain sub-operation. -/
def p2pChain : Nat → KineticP2P_Operation
  | 0 => .mk {} [p2pLeaf]
  | n + 1 => .mk {} [p2pChainedTo (p2pChain n)]

/-- An operation whose first sub-operation is plain and whose second starts a
chain of `n + 1` further operations. -/
def p2pChainUnderSecond (n : Nat) : KineticP2P_Operation :=
  .mk {} [p2pLeaf, p2pChainedTo (p2pChain n)]

/-- An operation with `n` plain sub-operations. -/
def p2pWide (n : Nat) : KineticP2P_Operation :=
  .mk {} (List.replicate n p2pLeaf)

/-- The status `KineticOperation_BuildP2POperation` returns, `none` on abort. -/
def buildP2PStatus (operation : KineticOperation) (p2pOp : KineticP2P_Operation) :
    Option KineticStatus :=
  (KineticOperation_BuildP2POperation operation p2pOp).map Prod.fst

/-- An operation with a single sub-operation, chained to an operation with `n`
plain sub-operations: `n + 1` sub-operations in all, one at the top level. -/
def p2pWideBelow (n : Nat) : KineticP2P_Operation :=
  .mk {} [p2pChainedTo (p2pWide n)]

/-- The group `acl_of_string` starts from: one slot allocated, none used. -/
def emptyACLGroup : ACL :=
  { ACL_ceil := 1, ACL_count := 0, ACLs := [] }

/-- The buffer, read from `offset`, is a concatenation of the objects `objs` as
the tokener reads them: each call consumes one object together with the
whitespace around it (at least one byte, at most what is left) and the last
call reaches the end of the buffer. -/
def Segmented (tokener : json_tokener) (buf : List Nat) (buf_size : Nat) :
    Nat → List json_object → Prop
  | offset, [] => offset = buf_size
  | offset, obj :: rest =>
    ∃ char_offset,
      tokener ((buf.drop offset).take (buf_size - offset)) = .parsed obj char_offset ∧
      0 < char_offset ∧ offset + char_offset ≤ buf_size ∧
      Segmented tokener buf buf_size (offset + char_offset) rest

/-- The object is a valid ACL object and `record` is the record built from it. -/
def BuildsRecord (obj : json_object) (record : KineticProto_Command_Security_ACL) : Prop :=
  read_next_ACL_object obj = some (ACL_OK, some record)

/-- The object without its field `key` (a value that is not an object is left
as it is). -/
def json_object.removeField (obj : json_object) (key : String) : json_object :=
  match obj with
  | .object fields => .object (fields.filter fun field => field.1 != key)
  | other => other

/-- The ACL object of scenario S4, with the given `HMACAlgorithm` string. -/
def s4Object (hmac : String) : json_object :=
  .object
    [ ("identity", .int 1),
      ("key", .string "k"),
      ("HMACAlgorithm", .string hmac),
      ("scope", .array
        [ .object
            [ ("offset", .int 0),
              ("value", .string "v"),
              ("permission", .array [.string "READ", .string "WRITE"]),
              ("TlsRequired", .boolean true) ] ]) ]

/-- The record built from the object of scenario S4. -/
def s4Record : KineticProto_Command_Security_ACL :=
  { has_identity := true
    identity := 1
    has_key := true
    key := { data := some [107, 0], len := 1 }
    has_hmacAlgorithm := true
    hmacAlgorithm := .HmacSHA1
    n_scope := 1
    scope :=
      [ { has_offset := true
          offset := 0
          has_value := true
          value := { data := some [118, 0], len := 1 }
          n_permission := 2
          permission := some [.READ, .WRITE]
          has_TlsRequired := true
          TlsRequired := true } ] }

/-- A second ACL object: no identity, no key, one scope with a single permission. -/
def readOnlyObject : json_object :=
  .object [("scope", .array [.object [("permission", .string "READ")]])]

/-- The record built from `readOnlyObject`. -/
def readOnlyRecord : KineticProto_Command_Security_ACL :=
  { n_scope := 1, scope := [{ n_permission := 1, permission := some [.READ] }] }

/-- A stand-in for the tokener on a 20-byte document holding two objects: the
first call (20 bytes left) reads the object of scenario S4 from the first 12
bytes, the second call (8 bytes left) reads `readOnlyObject` from the rest. -/
def twoObjectTokener : json_tokener := fun bytes =>
  if bytes.length = 20 then .parsed (s4Object "HmacSHA1") 12
  else if bytes.length = 8 then .parsed readOnlyObject 8
  else .error_other

/-- The names of the permission vocabulary of section 3 (`INVALID` is not one). -/
def validPermissionNames : List String :=
  ["READ", "WRITE", "DELETE", "RANGE", "SETUP", "P2POP", "GETLOG", "SECURITY"]

/-- The permission loop of `unpack_scopes` read as a recursion over the names
of the array, in order: each valid name is stored in slot `n_permission`, the
first invalid one ends the parse with `ACL_ERROR_INVALID_FIELD`. -/
def storePermissions :
    List String → KineticProto_Command_Security_ACL_Scope →
      KineticACLLoadResult × KineticProto_Command_Security_ACL_Scope
  | [], scope => (ACL_OK, scope)
  | str :: rest, scope =>
    if permission_of_str str = .INVALID_PERMISSION then (ACL_ERROR_INVALID_FIELD, scope)
    else
      storePermissions rest
        { scope with
          permission := some (scope.permission.getD [] ++ [permission_of_str str])
          n_permission := scope.n_permission + 1 }

/-- The scope loop of `unpack_scopes` read as a recursion over the entries of
the scope array, in order. -/
def unpackScopeItems :
    List json_object → KineticProto_Command_Security_ACL →
      Option (KineticACLLoadResult × KineticProto_Command_Security_ACL)
  | [], acl => some (ACL_OK, acl)
  | entry :: rest, acl =>
    match entry with
    | .null => unpackScopeItems rest acl
    | cur_scope =>
      match unpack_scope cur_scope with
      | none => none
      | some (ACL_OK, scope) =>
        unpackScopeItems rest
          { acl with scope := acl.scope ++ [scope], n_scope := acl.n_scope + 1 }
      | some (res, _) => some (res, acl)

/-- The node is the null pointer (JSON `null`). -/
def json_object.isNull : json_object → Bool
  | .null => true
  | _ => false

/-- The node is a JSON string. -/
def json_object.isString : json_object → Bool
  | .string _ => true
  | _ => false

/-- A scope entry whose fields have the types the embedding covers: `offset`
is not a string, `value` is a string, `null` or absent, and a `permission`
array holds strings only. Any `permission` that is not an array, and any
`TlsRequired`, is covered. -/
def typedScope (cur_scope : json_object) : Bool :=
  !(json_object_object_get_ex cur_scope "offset").2.isString &&
  (match (json_object_object_get_ex cur_scope "value").2 with
    | .string _ => true
    | .null => true
    | _ => false) &&
  (match (json_object_object_get_ex cur_scope "permission").2 with
    | .array items => items.all json_object.isString
    | _ => true)

/-- An ACL object whose fields have the types the embedding covers: `scope`,
when present, is an array of typed entries, `identity` is not a string, `key`
and `HMACAlgorithm` are strings or absent. -/
def typedRecord (obj : json_object) : Bool :=
  (match json_object_object_get_ex obj "scope" with
    | (true, .array scopes) => scopes.all typedScope
    | (true, _) => false
    | (false, _) => true) &&
  !(json_object_object_get_ex obj "identity").2.isString &&
  (match json_object_object_get_ex obj "key" with
    | (true, val) => val.isString
    | (false, _) => true) &&
  (match json_object_object_get_ex obj "HMACAlgorithm" with
    | (true, val) => val.isString
    | (false, _) => true)

/-- The string of a string node. -/
def json_object.asString : json_object → Option String
  | .string s => some s
  | _ => none

/-- What the `permission` field of a typed scope entry leads to: the result
code and the scope after the field is read. -/
def permissionOutcome (cur_scope : json_object)
    (scope : KineticProto_Command_Security_ACL_Scope) :
    KineticACLLoadResult × KineticProto_Command_Security_ACL_Scope :=
  match json_object_object_get_ex cur_scope "permission" with
  | (true, .string str) =>
    if permission_of_str str = .INVALID_PERMISSION then
      (ACL_ERROR_INVALID_FIELD,
        { scope with n_permission := 0, permission := some [permission_of_str str] })
    else (ACL_OK, { scope with n_permission := 1, permission := some [permission_of_str str] })
  | (true, .array items) =>
    storePermissions (items.filterMap json_object.asString)
      { scope with n_permission := 0, permission := some [] }
  | (true, _) => (ACL_ERROR_INVALID_FIELD, { scope with n_permission := 0, permission := some [] })
  | (false, _) => (ACL_OK, { scope with n_permission := 0 })

/-- The scope of a typed entry after its `offset` and `value` fields are read. -/
def scopeBase (cur_scope : json_object) : KineticProto_Command_Security_ACL_Scope :=
  let offset := json_object_object_get_ex cur_scope "offset"
  let scope : KineticProto_Command_Security_ACL_Scope :=
    { has_offset := offset.1
      offset := if offset.1 then (json_object_get_int64 offset.2).getD 0 else 0 }
  match json_object_object_get_ex cur_scope "value" with
  | (true, .string str) => { scope with value := copyCString str, has_value := true }
  | _ => scope

/-- What a typed scope entry leads to: the result code and the scope built. -/
def scopeOutcome (cur_scope : json_object) :
    KineticACLLoadResult × KineticProto_Command_Security_ACL_Scope :=
  match permissionOutcome cur_scope (scopeBase cur_scope) with
  | (ACL_OK, scope) => (ACL_OK, unpack_scope_TlsRequired cur_scope scope)
  | other => other

/-- What a scope array of typed entries leads to: null entries are skipped,
the scopes built are stored in order, the first entry that fails ends the loop. -/
def scopesOutcome :
    List json_object → KineticProto_Command_Security_ACL →
      KineticACLLoadResult × KineticProto_Command_Security_ACL
  | [], acl => (ACL_OK, acl)
  | entry :: rest, acl =>
    match entry with
    | .null => scopesOutcome rest acl
    | cur_scope =>
      match scopeOutcome cur_scope with
      | (ACL_OK, scope) =>
        scopesOutcome rest { acl with scope := acl.scope ++ [scope], n_scope := acl.n_scope + 1 }
      | (res, _) => (res, acl)

/-- The record of a typed ACL object after its `identity` and `key` fields are
read. -/
def recordBase (obj : json_object) : KineticProto_Command_Security_ACL :=
  let identity := json_object_object_get_ex obj "identity"
  let acl : KineticProto_Command_Security_ACL :=
    { has_identity := identity.1
      identity := if identity.1 then (json_object_get_int64 identity.2).getD 0 else 0 }
  match json_object_object_get_ex obj "key" with
  | (true, .string key) =>
    { acl with
      has_hmacAlgorithm := true
      hmacAlgorithm := .HmacSHA1
      key := copyCString key
      has_key := true }
  | _ => acl

/-- What a typed ACL object leads to: the result code of `read_next_ACL` and
the record it stores. -/
def recordOutcome (obj : json_object) :
    KineticACLLoadResult × Option KineticProto_Command_Security_ACL :=
  match json_object_object_get_ex obj "scope" with
  | (true, .array scopes) =>
    match json_object_object_get_ex obj "HMACAlgorithm" with
    | (true, .string hmac) =>
      if 0 != strcmp hmac "HmacSHA1" then (ACL_ERROR_INVALID_FIELD, none)
      else
        match scopesOutcome scopes (recordBase obj) with
        | (ACL_OK, acl) => (ACL_OK, some { acl with n_scope := scopes.length })
        | (res, _) => (res, none)
    | _ =>
      match scopesOutcome scopes (recordBase obj) with
      | (ACL_OK, acl) => (ACL_OK, some { acl with n_scope := scopes.length })
      | (res, _) => (res, none)
  | _ => (ACL_ERROR_MISSING_FIELD, none)

/-- The `permission` field of the scope entry is one the parser refuses: a
string whose C string (the characters before its first NUL) is not a valid
name, an array holding such a string, or a value that is neither a string nor
an array. -/
def PermissionRejected (cur_scope : json_object) : Prop :=
  match json_object_object_get_ex cur_scope "permission" with
  | (true, .string str) => cString str ∉ validPermissionNames
  | (true, .array items) =>
    ∃ str, json_object.string str ∈ items ∧ cString str ∉ validPermissionNames
  | (true, _) => True
  | (false, _) => False

/-- A typed scope entry whose permission array names `INVALID`. -/
def invalidPermissionScope : json_object :=
  .object [("offset", .int 0), ("permission", .array [.string "READ", .string "INVALID"])]

/-- An ACL object whose only scope has an offset and no `permission` field. -/
def noPermissionObject : json_object :=
  .object [("scope", .array [.object [("offset", .int 0)]])]

/-- The record built from `noPermissionObject`: one scope, no permission. -/
def noPermissionRecord : KineticProto_Command_Security_ACL :=
  { n_scope := 1, scope := [{ has_offset := true, offset := 0 }] }

/-- An ACL object whose only scope has a permission array of 17 valid names. -/
def seventeenPermissionsObject : json_object :=
  .object
    [("scope", .array [.object [("permission", .array (List.replicate 17 (.string "READ")))]])]

/-- The record built from `seventeenPermissionsObject`: 17 permissions stored,
the last one in slot 16. -/
def seventeenPermissionsRecord : KineticProto_Command_Security_ACL :=
  { n_scope := 1
    scope := [{ n_permission := 17, permission := some (List.replicate 17 .READ) }] }

/-- A stand-in for the tokener on a document that holds the single object
`obj`: it reads `obj` and consumes all the bytes it is given. -/
def singleObjectTokener (obj : json_object) : json_tokener := fun bytes =>
  .parsed obj bytes.length

/-- The tokener reads the objects `objs` from `offset` on and then, with bytes
still left in the buffer, fails with the outcome `final`. -/
def ReadsThenFails (tokener : json_tokener) (buf : List Nat) (buf_size : Nat) :
    Nat → List json_object → json_tokener_result → Prop
  | offset, [], final =>
    offset < buf_size ∧ tokener ((buf.drop offset).take (buf_size - offset)) = final
  | offset, obj :: rest, final =>
    ∃ char_offset,
      tokener ((buf.drop offset).take (buf_size - offset)) = .parsed obj char_offset ∧
      0 < char_offset ∧ offset + char_offset ≤ buf_size ∧
      ReadsThenFails tokener buf buf_size (offset + char_offset) rest final

/-- A stand-in for the tokener on a 20-byte document: the first call reads the
object of scenario S4 from the first 12 bytes; on the 8 bytes that follow it
meets the end of the data before an object is complete and reports
`json_tokener_error_parse_eof`. -/
def eofAfterFirstTokener : json_tokener := fun bytes =>
  if bytes.length = 20 then .parsed (s4Object "HmacSHA1") 12
  else .error_parse_eof

/-- A stand-in for the tokener on a 20-byte document: the first call reads the
object of scenario S4 from the first 12 bytes; the buffer then runs out inside
the next object and the tokener fails with another error
(`json_tokener_continue` in json-c). -/
def truncatedAfterFirstTokener : json_tokener := fun bytes =>
  if bytes.length = 20 then .parsed (s4Object "HmacSHA1") 12
  else .error_other

/-- Two records carry the same identity, key and HMAC algorithm fields. -/
def SameCredentials (a b : KineticProto_Command_Security_ACL) : Prop :=
  a.has_identity = b.has_identity ∧ a.identity = b.identity ∧
  a.has_key = b.has_key ∧ a.key = b.key ∧
  a.has_hmacAlgorithm = b.has_hmacAlgorithm ∧ a.hmacAlgorithm = b.hmacAlgorithm

/-- The field names `read_next_ACL` looks up in an ACL object. -/
def recordFieldNames : List String := ["identity", "key", "HMACAlgorithm", "scope"]

/-- The field names `unpack_scopes` looks up in a scope entry. -/
def scopeFieldNames : List String := ["offset", "value", "permission", "TlsRequired"]

/-- The scope entry `extended` is `entry` itself or `entry` with one more field,
whose name is not one `unpack_scopes` looks up. -/
def ScopeExtends (entry extended : json_object) : Prop :=
  extended = entry ∨ ∃ name, name ∉ scopeFieldNames ∧ extended.removeField name = entry

/-- The object of scenario S4 with two unknown fields added: `comment` in the
record and `note` in its scope. -/
def s4ObjectWithUnknownFields : json_object :=
  .object
    [ ("comment", .string "ignored"),
      ("identity", .int 1),
      ("key", .string "k"),
      ("HMACAlgorithm", .string "HmacSHA1"),
      ("scope", .array
        [ .object
            [ ("offset", .int 0),
              ("note", .int 7),
              ("value", .string "v"),
              ("permission", .array [.string "READ", .string "WRITE"]),
              ("TlsRequired", .boolean true) ] ]) ]

/-- The result of a system call interrupted by a signal. -/
def interruptedResult : SyscallResult :=
  { status := -1, errno := EINTR }

/-- The count of the admission semaphore of an operation's connection. -/
def KineticOperation.outstanding (operation : KineticOperation) : Option Nat :=
  operation.connection.map fun connection => connection.outstandingOperations

/-- The sequence counter of the session of an operation's connection. -/
def KineticOperation.sessionSequence (operation : KineticOperation) : Option Int :=
  operation.connection.map fun connection => connection.pSession.sequence

/-- The sequence number in the header of an operation's request. -/
def KineticOperation.boundSequence (operation : KineticOperation) : Option Int :=
  (operation.request.bind fun request =>
    request.command.bind fun command => command.header).map fun header => header.sequence

/-- An operation ready to be sent: it has a connection and a request whose
header is present and holds the sentinel. -/
def ReadyToSend (operation : KineticOperation) : Prop :=
  operation.connection.isSome = true ∧
  operation.boundSequence = some KINETIC_SEQUENCE_NOT_YET_BOUND

/-- The local steps of a send succeed: the lock is acquired, the command and
the message are packed and the authentication is attached. -/
def SendEnvironment.reachesBus (env : SendEnvironment) : Prop :=
  env.lockAcquired = true ∧ env.packCommand.isSome = true ∧
  env.authentication = KINETIC_STATUS_SUCCESS ∧ env.packMessage = KINETIC_STATUS_SUCCESS

/-- An operation ready to be sent, on a connection with three free admission
slots whose session counter is at 7. -/
def readyOperation : KineticOperation :=
  { connection := some { pSession := { sequence := 7 }, outstandingOperations := 3 }
    request :=
      some { command := some { header := some { sequence := KINETIC_SEQUENCE_NOT_YET_BOUND } } } }

/-- A send that failed locally: the command could not be packed, or the
authentication or the message packing returned a status other than SUCCESS.
The status the send returns is the second component. -/
def SendEnvironment.failsLocally (env : SendEnvironment) (status : KineticStatus) : Prop :=
  (env.packCommand = none ∧ status = KINETIC_STATUS_MEMORY_ERROR) ∨
  (env.packCommand.isSome = true ∧ env.authentication ≠ KINETIC_STATUS_SUCCESS ∧
    status = env.authentication) ∨
  (env.packCommand.isSome = true ∧ env.authentication = KINETIC_STATUS_SUCCESS ∧
    env.packMessage ≠ KINETIC_STATUS_SUCCESS ∧ status = env.packMessage)

/-- A series of sends on one connection: each operation is sent on the
connection as the send before it left it (the operations of a connection share
its session and its semaphore). The results are in send order. -/
def sendSeries : KineticConnection → List (SendEnvironment × KineticOperation) →
    Option (List SendResult × KineticConnection)
  | connection, [] => some ([], connection)
  | connection, (env, operation) :: rest =>
    match KineticOperation_SendRequest env { operation with connection := some connection } with
    | none => none
    | some result =>
      match result.operation.connection with
      | none => none
      | some connection =>
        match sendSeries connection rest with
        | none => none
        | some (results, final) => some (result :: results, final)

/-- The sequence numbers the sends of a series that acquired the lock have in
their headers afterwards, in send order. -/
def drawnSequences : List (SendEnvironment × KineticOperation) → List SendResult →
    List (Option Int)
  | (env, _) :: sends, result :: results =>
    if env.lockAcquired then result.operation.boundSequence :: drawnSequences sends results
    else drawnSequences sends results
  | _, _ => []

/-- The number of sends of a series that acquire the lock. -/
def lockedSends : List (SendEnvironment × KineticOperation) → Nat
  | [] => 0
  | (env, _) :: sends => (if env.lockAcquired then 1 else 0) + lockedSends sends

/-- The consecutive numbers `start, start + 1, ...`, `n` of them. -/
def consecutiveFrom (start : Int) : Nat → List (Option Int)
  | 0 => []
  | n + 1 => some start :: consecutiveFrom (start + 1) n

/-- Three operations ready to be sent; the lock is not acquired for the second. -/
def threeSends : List (SendEnvironment × KineticOperation) :=
  [ ({}, readyOperation),
    ({ lockAcquired := false }, readyOperation),
    ({ packCommand := none }, readyOperation) ]

/-- The cluster version of the session of an operation's connection. -/
def KineticOperation.clusterVersion (operation : KineticOperation) : Option Int :=
  operation.connection.map fun connection => connection.pSession.clusterVersion

/-- The body of an operation's request, when there is one. -/
def KineticOperation.body (operation : KineticOperation) : Option KineticProto_Command_Body :=
  operation.request.bind fun request => request.command.bind fun command => command.body

/-- An operation waiting for a log: connected, with an out-pointer that holds
no log info yet, and the response given. -/
def getLogOperation (response : KineticResponse) : KineticOperation :=
  { connection := some {}, deviceInfo := some none, response := some response }

/-- A `GetLog` body as a device returns it. -/
def sampleGetLog : KineticProto_Command_GetLog :=
  { n_types := 1, types := [3] }

/-- A file system with one file, four bytes long. -/
def firmwareFiles : FileSystem := fun path =>
  if path = "firmware.bin" then some [1, 2, 3, 4] else none

/-- An operation with a connection, a completion closure naming callback 5 with
client data 9, on a connection with two free slots. -/
def closureOperation : KineticOperation :=
  { connection := some { outstandingOperations := 2 }
    closure := { callback := some 5, clientData := 9 } }

/-- An operation that fails validation: no connection, no request, no command,
no command header, or a header without a sequence field. -/
def FailsValidation (operation : KineticOperation) : Prop :=
  operation.connection = none ∨ operation.request = none ∨
  ∃ request, operation.request = some request ∧
    (request.command = none ∨
     ∃ command, request.command = some command ∧
       (command.header = none ∨
        ∃ header, command.header = some header ∧ header.has_sequence = false))

/-- An operation with a request ready for a builder but no connection. -/
def unconnectedOperation : KineticOperation :=
  { request := some { command := some { header := some { has_sequence := true } } } }

/-- The result status of a sub-operation. -/
def KineticP2P_OperationData.resultStatus : KineticP2P_OperationData → KineticStatus
  | .mk _ _ _ _ resultStatus => resultStatus

/-- The chained operation of a sub-operation. -/
def KineticP2P_OperationData.chainedOperation :
    KineticP2P_OperationData → Option KineticP2P_Operation
  | .mk _ _ _ chainedOperation _ => chainedOperation

/-- The key, version and new key of a sub-operation. -/
def KineticP2P_OperationData.buffers :
    KineticP2P_OperationData → ByteBuffer × ByteBuffer × ByteBuffer
  | .mk key version newKey _ _ => (key, version, newKey)

/-- The peer of a P2P operation. -/
def KineticP2P_Operation.peer : KineticP2P_Operation → KineticP2P_Peer
  | .mk peer _ => peer

/-- The sub-operations of a response tree. -/
def KineticProto_Command_P2POperation.operation :
    KineticProto_Command_P2POperation → List KineticProto_Command_P2POperation_Operation
  | .mk _ operation => operation

/-- The status the claim gives sub-operation `i`, from the response's
sub-operation `i` (`none` when `i` is at or beyond the response's count): the
status mapped from the code when the response sub-operation has a status with
a code, `INVALID` otherwise. -/
def expectedResultStatus (convert : Int → KineticStatus) :
    Option KineticProto_Command_P2POperation_Operation → KineticStatus
  | some (.mk _ _ (some status)) =>
    if status.has_code then convert status.code else KINETIC_STATUS_INVALID
  | _ => KINETIC_STATUS_INVALID

/-- The chained operation the claim gives sub-operation `i`: the same rule
applied to it when both the caller's sub-operation and the response's have
one, the chained operation as it was otherwise. -/
def expectedChained (convert : Int → KineticStatus) :
    Option KineticP2P_Operation → Option KineticProto_Command_P2POperation_Operation →
      Option KineticP2P_Operation
  | some chained, some (.mk _ (some p2pop) _) =>
    some (populateP2PStatusCodes convert chained (some p2pop))
  | chained, _ => chained

/-- A conversion of wire status codes used in examples: code 1 is `SUCCESS`,
code 7 is `NOT_FOUND`, every other code `INTERNAL_ERROR`. -/
def sampleStatusConversion (code : Int) : KineticStatus :=
  if code = 1 then KINETIC_STATUS_SUCCESS
  else if code = 7 then KINETIC_STATUS_NOT_FOUND
  else KINETIC_STATUS_INTERNAL_ERROR

/-- A caller's tree with three sub-operations, the first chained to a tree with
one sub-operation, the third with `SUCCESS` left in its result status. -/
def p2pCallerTree : KineticP2P_Operation :=
  .mk {}
    [ p2pChainedTo (.mk {} [p2pLeaf]), p2pLeaf,
      .mk p2pKey BYTE_BUFFER_NONE BYTE_BUFFER_NONE none KINETIC_STATUS_SUCCESS ]

/-- A response tree with two sub-operations: the first with code 1 and a nested
tree whose only sub-operation has code 7, the second without a status. -/
def p2pResponseTree : KineticProto_Command_P2POperation :=
  .mk none
    [ .mk {} (some (.mk none [.mk {} none (some { has_code := true, code := 7 })]))
        (some { has_code := true, code := 1 }),
      .mk {} none none ]

/-- An operation whose P2P request was built from `p2pCallerTree` and whose
response carries `p2pResponseTree`. -/
def p2pAnsweredOperation : KineticOperation :=
  { connection := some {}
    request := some { command := some { header := some { has_sequence := true }, body := some {} } }
    response := some { command := some { body := some { p2pOperation := some p2pResponseTree } } }
    p2pOp := some p2pCallerTree }

/-- The scalar fields of a wire sub-operation. -/
def KineticProto_Command_P2POperation_Operation.fields :
    KineticProto_Command_P2POperation_Operation → P2POperation_OperationFields
  | .mk fields _ _ => fields

/-- The nested operation of a wire sub-operation. -/
def KineticProto_Command_P2POperation_Operation.p2pop :
    KineticProto_Command_P2POperation_Operation → Option KineticProto_Command_P2POperation
  | .mk _ p2pop _ => p2pop

/-- The wire sub-operation mirrors the caller's `d`, built at `nestingLevel`:
the key with its used length, the flags for new key, version and force, and
for the chained operation the tree built from it one level deeper. -/
def MirrorsCaller (nestingLevel : Nat) (d : KineticP2P_OperationData)
    (o : KineticProto_Command_P2POperation_Operation) : Prop :=
  o.fields.has_key = true ∧
  o.fields.key = { data := d.buffers.1.array.data, len := d.buffers.1.bytesUsed } ∧
  (o.fields.force = true ↔ ByteBuffer_IsNull d.buffers.2.1 = true) ∧
  (o.fields.has_force = true ↔ ByteBuffer_IsNull d.buffers.2.1 = true) ∧
  (o.fields.has_version = true ↔ ByteBuffer_IsNull d.buffers.2.1 = false) ∧
  o.fields.version = { data := d.buffers.2.1.array.data, len := d.buffers.2.1.bytesUsed } ∧
  (o.fields.has_newKey = true ↔ ByteBuffer_IsNull d.buffers.2.2 = false) ∧
  o.fields.newKey = { data := d.buffers.2.2.array.data, len := d.buffers.2.2.bytesUsed } ∧
  build_p2pOp_chained nestingLevel d.chainedOperation = some (some o.p2pop)

/-- A caller's tree with two sub-operations: the first with a version and a new
key, chained to a tree with one plain sub-operation; the second plain. -/
def p2pVersionedTree : KineticP2P_Operation :=
  .mk {}
    [ .mk p2pKey { array := { data := some [1], len := 1 }, bytesUsed := 1 }
        { array := { data := some [9, 9], len := 2 }, bytesUsed := 2 }
        (some (.mk {} [p2pLeaf])) KINETIC_STATUS_INVALID,
      p2pLeaf ]

/-- The security message of an operation's request, when the body has one. -/
def KineticOperation.security (operation : KineticOperation) :
    Option KineticProto_Command_Security :=
  operation.body.bind fun body => body.security

/-- The security storage of the request (`request->message.security`) as a
builder finds it: the message the body points to, zero-initialised when the
body has none. -/
def KineticOperation.securityStorage (operation : KineticOperation) :
    KineticProto_Command_Security :=
  operation.security.getD {}

/-- The pin-operation message of an operation's request, when the body has one. -/
def KineticOperation.pinOp (operation : KineticOperation) :
    Option KineticProto_Command_PinOperation :=
  operation.body.bind fun body => body.pinOp

/-- The `pinAuth` flag of an operation's request. -/
def KineticOperation.pinAuth (operation : KineticOperation) : Option Bool :=
  operation.request.map fun request => request.pinAuth

/-- A pin of four bytes. -/
def samplePin : ByteArray :=
  { data := some [49, 50, 51, 52], len := 4 }

/-- Another pin of four bytes. -/
def otherPin : ByteArray :=
  { data := some [57, 56, 55, 54], len := 4 }

/-- An entry with a key and a value buffer of capacity 4 holding two bytes. -/
def usedValueEntry : KineticEntry :=
  { key := { array := { data := some [107], len := 1 }, bytesUsed := 1 }
    value := { array := { data := some [1, 2, 0, 0], len := 4 }, bytesUsed := 2 } }

/-- An entry with `metadataOnly` set whose value buffer still holds two bytes. -/
def metadataOnlyEntry : KineticEntry :=
  { usedValueEntry with metadataOnly := true }

/-- A response carrying a three-byte value and no metadata. -/
def threeByteResponse : KineticResponse :=
  { header := { valueLength := 3 }, command := some {}, value := some [7, 8, 9] }

/-- The call `operation->callback(operation, status)` of the post-processor a
builder installed. -/
def runCallback (convert : Int → KineticStatus) :
    KineticOperationCallback → KineticOperation → KineticStatus →
      Option (KineticStatus × KineticOperation)
  | .KineticOperation_NoopCallback => KineticOperation_NoopCallback
  | .KineticOperation_PutCallback => KineticOperation_PutCallback
  | .get_cmd_cb => get_cmd_cb
  | .getprevious_cmd_cb => getprevious_cmd_cb
  | .getnext_cmd_cb => getnext_cmd_cb
  | .KineticOperation_FlushCallback => KineticOperation_FlushCallback
  | .KineticOperation_DeleteCallback => KineticOperation_DeleteCallback
  | .KineticOperation_GetKeyRangeCallback => KineticOperation_GetKeyRangeCallback
  | .KineticOperation_GetLogCallback => KineticOperation_GetLogCallback
  | .KineticOperation_P2POperationCallback => KineticOperation_P2POperationCallback convert
  | .KineticOperation_SetPinCallback => KineticOperation_SetPinCallback
  | .KineticOperation_EraseCallback => KineticOperation_EraseCallback
  | .KineticOperation_LockUnlockCallback => KineticOperation_LockUnlockCallback
  | .KineticOperation_SetClusterVersionCallback => KineticOperation_SetClusterVersionCallback
  | .KineticOperation_SetACLCallback => KineticOperation_SetACLCallback
  | .KineticOperation_UpdateFirmwareCallback => KineticOperation_UpdateFirmwareCallback

/-- What a post-processor asserts or dereferences before it looks at the
status: the connection (all but the P2P one), the entry (PUT, GET family,
DELETE), a buffer array with a buffer (GETKEYRANGE), the out-pointer (GETLOG),
the body of the request (P2P). -/
def CallbackAsserts : KineticOperationCallback → KineticOperation → Prop
  | .KineticOperation_PutCallback, operation
  | .get_cmd_cb, operation
  | .getprevious_cmd_cb, operation
  | .getnext_cmd_cb, operation
  | .KineticOperation_DeleteCallback, operation =>
    operation.connection.isSome = true ∧ operation.entry.isSome = true
  | .KineticOperation_GetKeyRangeCallback, operation =>
    operation.connection.isSome = true ∧
    ∃ buffers, operation.buffers = some buffers ∧ buffers.buffers ≠ []
  | .KineticOperation_GetLogCallback, operation =>
    operation.connection.isSome = true ∧ operation.deviceInfo.isSome = true
  | .KineticOperation_P2POperationCallback, operation => operation.body.isSome = true
  | _, operation => operation.connection.isSome = true

/-- An operation every post-processor accepts: connected, with an entry, a
buffer array, an out-pointer and a request with a body. -/
def answeredOperation : KineticOperation :=
  { connection := some {}
    request := some { command := some { header := some { has_sequence := true }, body := some {} } }
    entry := some usedValueEntry
    buffers := some { buffers := [BYTE_BUFFER_NONE] }
    deviceInfo := some none }

/-- The names of the scope fields other than `permission`. -/
def otherScopeFieldNames : List String := ["offset", "value", "TlsRequired"]

/-- A scope whose permission is the single string `"WRITE"`. -/
def writeStringScope : json_object :=
  .object [("offset", .int 4), ("permission", .string "WRITE")]

/-- The same scope with the permission given as the array `["WRITE"]`. -/
def writeArrayScope : json_object :=
  .object [("offset", .int 4), ("permission", .array [.string "WRITE"])]

/-- A scope whose permission is the array `["READ", "WRITE"]`. -/
def readWriteArrayScope : json_object :=
  .object [("permission", .array [.string "READ", .string "WRITE"])]

/-- The counters of a group agree with its records: as many records as
`ACL_count` says, within the `ACL_ceil` slots allocated. -/
def ACL.Consistent (g : ACL) : Prop :=
  g.ACLs.length = g.ACL_count ∧ g.ACL_count ≤ g.ACL_ceil

/-- An ACL object whose scope array holds a null entry before a valid scope. -/
def nullScopeObject : json_object :=
  .object [("scope", .array [.null, .object [("permission", .string "READ")]])]

/-- The record `read_next_ACL` builds from `nullScopeObject`: one scope
populated, in slot 0, and `n_scope = 2`. -/
def nullScopeRecord : KineticProto_Command_Security_ACL :=
  { n_scope := 2
    scope := [{ n_permission := 1, permission := some [.READ] }] }

/-- An ACL object whose key is `ab`, a NUL and `cd`. -/
def nulKeyObject : json_object :=
  .object
    [ ("key", .string "ab\x00cd"),
      ("scope", .array [.object [("permission", .string "READ")]]) ]

/-- The record `read_next_ACL` builds from `nulKeyObject`: the key region holds
`ab` and the terminator. -/
def nulKeyRecord : KineticProto_Command_Security_ACL :=
  { has_key := true
    key := { data := some [97, 98, 0], len := 2 }
    has_hmacAlgorithm := true
    hmacAlgorithm := .HmacSHA1
    n_scope := 1
    scope := [{ n_permission := 1, permission := some [.READ] }] }

/-- A typed scope entry whose permission is `READ`, a NUL and `junk`. -/
def nulPermissionScope : json_object :=
  .object [("permission", .string "READ\x00junk")]

/-- An ACL object whose only scope is `nulPermissionScope`. -/
def nulPermissionObject : json_object :=
  .object [("scope", .array [nulPermissionScope])]

/-- The record `read_next_ACL` builds from `nulPermissionObject`: the
permission `READ` is stored. -/
def nulPermissionRecord : KineticProto_Command_Security_ACL :=
  { n_scope := 1
    scope := [{ n_permission := 1, permission := some [.READ] }] }

/-! ## Theorems -/

theorem memcpyAt_zero_take (mem src : List Nat) (n : Nat) (h : n ≤ src.length) :
    (memcpyAt mem 0 (src.take n)).take n = src.take n := by
  simp [memcpyAt, List.take_append_eq_append_take, List.length_take, Nat.min_eq_left h]

/-- C1 (as amended): for an entry whose `newVersion` buffer is supplied and
well formed, `KineticOperation_PutCallback` with status `SUCCESS` returns
`SUCCESS`, leaves `dbVersion` holding the bytes `newVersion` held and
`newVersion` empty, in the move branch always and in the copy branch when the
version fits the capacity of the `dbVersion` buffer. -/
theorem putCallback_propagates_newVersion (operation : KineticOperation)
    (connection : KineticConnection) (response : KineticResponse) (entry : KineticEntry)
    (hc : operation.connection = some connection)
    (hr : operation.response = some response)
    (he : operation.entry = some entry)
    (hnv : entry.newVersion.array.data ≠ none ∧ entry.newVersion.array.len > 0)
    (hwf : entry.newVersion.WF)
    (hfit : entry.dbVersion.array.data ≠ none ∧ entry.dbVersion.array.len > 0 →
      entry.newVersion.bytesUsed ≤ entry.dbVersion.array.len) :
    PutCallbackPropagates operation entry := by
  obtain ⟨hused, hmem⟩ := hwf
  unfold PutCallbackPropagates KineticOperation_PutCallback
  simp only [hc, he, hr]
  rw [if_pos trivial, if_pos hnv]
  by_cases hdb : entry.dbVersion.array.data ≠ none ∧ entry.dbVersion.array.len > 0
  · have hle := hfit hdb
    obtain ⟨nvmem, hnvmem⟩ := Option.ne_none_iff_exists'.mp hnv.1
    obtain ⟨dbmem, hdbmem⟩ := Option.ne_none_iff_exists'.mp hdb.1
    have hlen := hmem nvmem hnvmem
    rw [if_pos hdb]
    refine ⟨_, _, rfl, rfl, ?_, ?_⟩
    · simp only [ByteBuffer.bytes, ByteBuffer_Append, ByteBuffer_Reset, hdbmem, hnvmem,
        Nat.zero_add, Nat.not_lt.mpr hle, if_false]
      exact memcpyAt_zero_take dbmem nvmem _ (by omega)
    · simp [ByteBuffer_Reset]
  · rw [if_neg hdb]
    exact ⟨_, _, rfl, rfl, rfl, rfl⟩

/-- C1 counterexample: with a `dbVersion` buffer of capacity 2 and the
four-byte version `"v1.0"` in `newVersion`, the copy does not fit: after the
call `dbVersion` is empty and does not hold the version. -/
theorem putCallback_copy_overflow :
    (smallDbVersionEntry.newVersion.array.data ≠ none ∧
      smallDbVersionEntry.newVersion.array.len > 0) ∧
    smallDbVersionOperation.entry = some smallDbVersionEntry ∧
    smallDbVersionEntry.newVersion.bytes = [118, 49, 46, 48] ∧
    (KineticOperation_PutCallback smallDbVersionOperation KINETIC_STATUS_SUCCESS).map
        (fun r => (r.1, r.2.entry.map fun entry => entry.dbVersion.bytes))
      = some (KINETIC_STATUS_SUCCESS, some []) ∧
    ¬ PutCallbackPropagates smallDbVersionOperation smallDbVersionEntry := by
  refine ⟨by decide, rfl, rfl, rfl, ?_⟩
  rintro ⟨after, entry', h1, h2, h3, -⟩
  have h : (KineticOperation_PutCallback smallDbVersionOperation KINETIC_STATUS_SUCCESS).map
      (fun r => r.2.entry.map fun entry => entry.dbVersion.bytes) = some (some []) := rfl
  rw [h1] at h
  simp only [Option.map_some', h2, Option.some.injEq] at h
  rw [h] at h3
  revert h3
  decide

/-! ### PUT and GET -/

theorem validate_connection {operation : KineticOperation}
    (hv : KineticOperation_ValidateOperation operation = true) :
    ∃ connection, operation.connection = some connection := by
  unfold KineticOperation_ValidateOperation at hv
  cases hc : operation.connection with
  | none => simp [hc] at hv
  | some connection => exact ⟨connection, rfl⟩

theorem copy_flag_value (keyValue : KineticProto_Command_KeyValue) (entry : KineticEntry)
    (value : ByteBuffer) :
    (Copy_KineticProto_Command_KeyValue_to_KineticEntry keyValue { entry with value := value }).2
      = (Copy_KineticProto_Command_KeyValue_to_KineticEntry keyValue entry).2 := rfl

theorem copy_keeps_value (keyValue : KineticProto_Command_KeyValue) (entry : KineticEntry) :
    (Copy_KineticProto_Command_KeyValue_to_KineticEntry keyValue entry).1.value = entry.value ∧
    (Copy_KineticProto_Command_KeyValue_to_KineticEntry keyValue entry).1.metadataOnly
      = entry.metadataOnly := ⟨rfl, rfl⟩

theorem build_get_command_eq (operation : KineticOperation) (entry : KineticEntry)
    (cb : KineticOperationCallback) (command_id : KineticProto_Command_MessageType)
    (hv : KineticOperation_ValidateOperation operation = true)
    (hdata : entry.value.array.data ≠ none) :
    ∃ built, build_get_command operation entry cb command_id = some built ∧
      built.connection = operation.connection ∧
      built.entry = some { entry with value := ByteBuffer_Reset entry.value } := by
  unfold build_get_command
  simp only [hv, Bool.not_true, Bool.false_eq_true, if_false, if_pos hdata]
  exact ⟨_, rfl, rfl, rfl⟩

theorem get_cb_delivers (operation : KineticOperation) (connection : KineticConnection)
    (entry : KineticEntry) (response : KineticResponse) (V mem : List Nat)
    (hc : operation.connection = some connection)
    (he : operation.entry = some entry)
    (hr : operation.response = some response)
    (hmem : entry.value.array.data = some mem)
    (hused : entry.value.bytesUsed = 0)
    (hmeta : entry.metadataOnly = false)
    (hval : response.value = some V)
    (hlen : response.header.valueLength = V.length)
    (hfit : V.length ≤ entry.value.array.len)
    (hcopy : ∀ keyValue, KineticResponse_GetKeyValue response = some keyValue →
      (Copy_KineticProto_Command_KeyValue_to_KineticEntry keyValue entry).2 = true) :
    ∃ after entry',
      get_cb operation KINETIC_STATUS_SUCCESS = some (KINETIC_STATUS_SUCCESS, after) ∧
      after.entry = some entry' ∧ entry'.value.bytes = V ∧
      entry'.value.bytesUsed = V.length := by
  have happ :
      ((ByteBuffer_AppendArray entry.value
        { data := response.value, len := response.header.valueLength }).1).bytes = V ∧
      ((ByteBuffer_AppendArray entry.value
        { data := response.value, len := response.header.valueLength }).1).bytesUsed
          = V.length := by
    simp only [ByteBuffer_AppendArray, ByteBuffer_Append, hmem, hval, hlen, hused,
      Nat.zero_add, Nat.not_lt.mpr hfit, if_false, ByteBuffer.bytes, List.take_length]
    exact ⟨by simp [memcpyAt], trivial⟩
  have hnull : ByteBuffer_IsNull entry.value = false := by
    simp [ByteBuffer_IsNull, hmem]
  unfold get_cb
  simp only [hc, he, hr]
  rw [if_pos trivial]
  cases hkv : KineticResponse_GetKeyValue response with
  | none =>
    simp only [Bool.not_true, Bool.false_eq_true, if_false, hmeta, hnull, Bool.not_false,
      Bool.and_self, if_true]
    exact ⟨_, _, rfl, rfl, happ⟩
  | some keyValue =>
    have h2 := hcopy keyValue hkv
    have h3 := copy_keeps_value keyValue entry
    simp only [h2, Bool.not_true, Bool.false_eq_true, if_false, h3.1, h3.2, hmeta, hnull,
      Bool.not_false, Bool.and_self, if_true]
    exact ⟨_, _, rfl, rfl, happ⟩

theorem getRoundTrip_eq (cmd : GetCommand) (operation : KineticOperation)
    (entry : KineticEntry) (response : KineticResponse)
    (hv : KineticOperation_ValidateOperation operation = true)
    (hdata : entry.value.array.data ≠ none) :
    ∃ built : KineticOperation, getRoundTrip cmd operation entry response
        = get_cb { built with response := some response } KINETIC_STATUS_SUCCESS ∧
      built.connection = operation.connection ∧
      built.entry = some { entry with value := ByteBuffer_Reset entry.value } := by
  cases cmd
  · obtain ⟨built, hb, h1, h2⟩ := build_get_command_eq operation entry
      KineticOperationCallback.get_cmd_cb KineticProto_Command_MessageType.GET hv hdata
    exact ⟨built, by simp only [getRoundTrip, GetCommand.build, GetCommand.callback,
      KineticOperation_BuildGet, hb, get_cmd_cb], h1, h2⟩
  · obtain ⟨built, hb, h1, h2⟩ := build_get_command_eq operation entry
      KineticOperationCallback.getnext_cmd_cb KineticProto_Command_MessageType.GETNEXT hv hdata
    exact ⟨built, by simp only [getRoundTrip, GetCommand.build, GetCommand.callback,
      KineticOperation_BuildGetNext, hb, getnext_cmd_cb], h1, h2⟩
  · obtain ⟨built, hb, h1, h2⟩ := build_get_command_eq operation entry
      KineticOperationCallback.getprevious_cmd_cb KineticProto_Command_MessageType.GETPREVIOUS
      hv hdata
    exact ⟨built, by simp only [getRoundTrip, GetCommand.build, GetCommand.callback,
      KineticOperation_BuildGetPrevious, hb, getprevious_cmd_cb], h1, h2⟩

/-- C2 (as amended): for a valid operation, an entry with a non-null value
buffer (whatever it held) and `metadataOnly` false, and a response whose value
`V` fits the buffer's capacity and whose key-value metadata, if any, is copied
into the entry without overflow, building GET, GETNEXT or GETPREVIOUS and
running the post-processor with `SUCCESS` returns `SUCCESS` and leaves the
value buffer holding exactly the bytes `V`. -/
theorem get_delivers_value (cmd : GetCommand) (operation : KineticOperation)
    (entry : KineticEntry) (response : KineticResponse) (V : List Nat)
    (hv : KineticOperation_ValidateOperation operation = true)
    (hdata : entry.value.array.data ≠ none)
    (hmeta : entry.metadataOnly = false)
    (hval : response.value = some V)
    (hlen : response.header.valueLength = V.length)
    (hfit : V.length ≤ entry.value.array.len)
    (hcopy : ∀ keyValue, KineticResponse_GetKeyValue response = some keyValue →
      (Copy_KineticProto_Command_KeyValue_to_KineticEntry keyValue entry).2 = true) :
    GetDelivers cmd operation entry response V := by
  obtain ⟨built, hrt, hconn, hentry⟩ := getRoundTrip_eq cmd operation entry response hv hdata
  obtain ⟨connection, hc⟩ := validate_connection hv
  obtain ⟨mem, hmem⟩ := Option.ne_none_iff_exists'.mp hdata
  unfold GetDelivers
  rw [hrt]
  exact get_cb_delivers { built with response := some response } connection
    { entry with value := ByteBuffer_Reset entry.value } response V mem
    (hconn.trans hc) hentry rfl hmem rfl hmeta hval hlen hfit
    (fun keyValue hkv => (copy_flag_value keyValue entry _).trans (hcopy keyValue hkv))

/-- C2 witness: a GET into a buffer holding stale bytes, answered with the
three bytes `1 2 3` and metadata that fits the entry. -/
theorem get_delivers_value_witness :
    KineticOperation_ValidateOperation validOperation = true ∧
    smallTagEntry.value.bytes = [9, 9, 9, 9, 9] ∧
    GetDelivers GetCommand.GET validOperation smallTagEntry (taggedResponse [7]) [1, 2, 3] :=
  ⟨rfl, rfl, get_delivers_value GetCommand.GET validOperation smallTagEntry (taggedResponse [7])
    [1, 2, 3] rfl (by decide) rfl rfl rfl (by decide) (fun keyValue h => by cases h; rfl)⟩

/-- C2 counterexample: the value fits the buffer, but the returned two-byte tag
does not fit the entry's one-byte tag buffer; the post-processor returns
`BUFFER_OVERRUN` and the value is not delivered. -/
theorem get_metadata_overrun :
    KineticOperation_ValidateOperation validOperation = true ∧
    smallTagEntry.value.array.data ≠ none ∧ smallTagEntry.metadataOnly = false ∧
    (taggedResponse [7, 7]).value = some [1, 2, 3] ∧
    (taggedResponse [7, 7]).header.valueLength = 3 ∧
    3 ≤ smallTagEntry.value.array.len ∧
    (getRoundTrip GetCommand.GET validOperation smallTagEntry (taggedResponse [7, 7])).map
      Prod.fst = some KINETIC_STATUS_BUFFER_OVERRUN ∧
    ¬ GetDelivers GetCommand.GET validOperation smallTagEntry (taggedResponse [7, 7])
      [1, 2, 3] := by
  refine ⟨rfl, by decide, rfl, rfl, rfl, by decide, rfl, ?_⟩
  rintro ⟨after, entry', h, -⟩
  have hs : (getRoundTrip GetCommand.GET validOperation smallTagEntry
      (taggedResponse [7, 7])).map Prod.fst = some KINETIC_STATUS_BUFFER_OVERRUN := rfl
  rw [h] at hs
  simp at hs

/-- C1 witness: the version `"v1.0"` and a `dbVersion` buffer of capacity 8. -/
theorem putCallback_propagates_newVersion_witness :
    fittingDbVersionEntry.newVersion.bytes = [118, 49, 46, 48] ∧
    PutCallbackPropagates
      { connection := some {}, response := some {}, entry := some fittingDbVersionEntry }
      fittingDbVersionEntry :=
  ⟨rfl, putCallback_propagates_newVersion _ {} {} fittingDbVersionEntry rfl rfl rfl
    (by decide) ⟨by decide, fun mem h => by cases h; rfl⟩ (fun _ => by decide)⟩

theorem putCallback_frame (operation : KineticOperation) (connection : KineticConnection)
    (entry : KineticEntry) (status : KineticStatus)
    (hc : operation.connection = some connection)
    (he : operation.entry = some entry)
    (hr : status = KINETIC_STATUS_SUCCESS → operation.response ≠ none) :
    ∃ after entry',
      KineticOperation_PutCallback operation status = some (status, after) ∧
      after.entry = some entry' ∧
      entry'.key = entry.key ∧ entry'.tag = entry.tag ∧
      entry'.algorithm = entry.algorithm ∧ entry'.value = entry.value ∧
      entry'.metadataOnly = entry.metadataOnly ∧ entry'.force = entry.force := by
  unfold KineticOperation_PutCallback
  simp only [hc, he]
  by_cases hs : status = KINETIC_STATUS_SUCCESS
  · obtain ⟨resp, hresp⟩ := Option.ne_none_iff_exists'.mp (hr hs)
    rw [if_pos hs]
    simp only [hresp]
    by_cases hnv : entry.newVersion.array.data ≠ none ∧ entry.newVersion.array.len > 0
    · rw [if_pos hnv]
      by_cases hdb : entry.dbVersion.array.data ≠ none ∧ entry.dbVersion.array.len > 0
      · rw [if_pos hdb]
        exact ⟨_, _, rfl, rfl, rfl, rfl, rfl, rfl, rfl, rfl⟩
      · rw [if_neg hdb]
        exact ⟨_, _, rfl, rfl, rfl, rfl, rfl, rfl, rfl, rfl⟩
    · rw [if_neg hnv]
      exact ⟨_, _, rfl, he, rfl, rfl, rfl, rfl, rfl, rfl⟩
  · rw [if_neg hs]
    exact ⟨_, _, rfl, he, rfl, rfl, rfl, rfl, rfl, rfl⟩

theorem buildPut_success (operation built : KineticOperation) (entry : KineticEntry)
    (hb : KineticOperation_BuildPut operation entry = some (KINETIC_STATUS_SUCCESS, built)) :
    built.entry = some entry ∧ built.connection = operation.connection ∧
    KineticOperation_ValidateOperation operation = true := by
  unfold KineticOperation_BuildPut at hb
  by_cases hv : KineticOperation_ValidateOperation operation = true
  · by_cases hsz : entry.value.bytesUsed > KINETIC_OBJ_SIZE
    · simp [hv, hsz] at hb
    · simp only [hv, Bool.not_true, Bool.false_eq_true, if_false, hsz, Option.some.injEq,
        Prod.mk.injEq, true_and] at hb
      subst hb
      exact ⟨rfl, rfl, hv⟩
  · simp [hv] at hb

/-- C3: when `KineticOperation_BuildPut` accepts an entry, running
`KineticOperation_PutCallback` on the built operation, with any status and any
response attached (one being attached when the status is `SUCCESS`), returns
that status and leaves the entry's key, tag, algorithm and value buffer
(region, capacity and `bytesUsed`) as they were; `BuildPut` itself does not
write to the entry. -/
theorem put_frame (operation built : KineticOperation) (entry : KineticEntry)
    (status : KineticStatus) (response : Option KineticResponse)
    (hb : KineticOperation_BuildPut operation entry = some (KINETIC_STATUS_SUCCESS, built))
    (hr : status = KINETIC_STATUS_SUCCESS → response ≠ none) :
    built.entry = some entry ∧
    ∃ after entry',
      KineticOperation_PutCallback { built with response := response } status
        = some (status, after) ∧
      after.entry = some entry' ∧
      entry'.key = entry.key ∧ entry'.tag = entry.tag ∧
      entry'.algorithm = entry.algorithm ∧ entry'.value = entry.value ∧
      entry'.metadataOnly = entry.metadataOnly ∧ entry'.force = entry.force := by
  obtain ⟨he, hconn, hv⟩ := buildPut_success operation built entry hb
  obtain ⟨connection, hc⟩ := validate_connection hv
  exact ⟨he, putCallback_frame { built with response := response } connection entry status
    (hconn.trans hc) he hr⟩

/-- C3 witness: the PUT of the system test, answered with `SUCCESS`. -/
theorem put_frame_witness :
    ∃ built,
      KineticOperation_BuildPut validOperation putTestEntry
        = some (KINETIC_STATUS_SUCCESS, built) ∧
      ∃ after entry',
        KineticOperation_PutCallback { built with response := some {} } KINETIC_STATUS_SUCCESS
          = some (KINETIC_STATUS_SUCCESS, after) ∧
        after.entry = some entry' ∧
        entry'.key = putTestEntry.key ∧ entry'.tag = putTestEntry.tag ∧
        entry'.algorithm = putTestEntry.algorithm ∧ entry'.value = putTestEntry.value ∧
        entry'.metadataOnly = putTestEntry.metadataOnly ∧ entry'.force = putTestEntry.force :=
  ⟨_, rfl, (put_frame validOperation _ putTestEntry KINETIC_STATUS_SUCCESS (some {}) rfl
    (fun _ => by simp)).2⟩

/-- C4: on an operation that passes validation, `KineticOperation_BuildPut`
returns `BUFFER_OVERRUN` exactly when the entry's `value.bytesUsed` exceeds
`KINETIC_OBJ_SIZE` = 1 MiB = 1048576 (so exactly 1 MiB is accepted); on
rejection the operation is returned unmodified; otherwise the result is
`SUCCESS`, the operation points at the entry, its value is the entry's value
region with length `bytesUsed`, and the PUT post-processor is installed. -/
theorem buildPut_overrun_iff (operation : KineticOperation) (entry : KineticEntry)
    (hv : KineticOperation_ValidateOperation operation = true) :
    KINETIC_OBJ_SIZE = 1048576 ∧
    ∃ status built,
      KineticOperation_BuildPut operation entry = some (status, built) ∧
      (status = KINETIC_STATUS_BUFFER_OVERRUN ↔ entry.value.bytesUsed > 1048576) ∧
      (entry.value.bytesUsed > 1048576 → built = operation) ∧
      (entry.value.bytesUsed ≤ 1048576 →
        status = KINETIC_STATUS_SUCCESS ∧
        built.entry = some entry ∧
        built.value = { data := entry.value.array.data, len := entry.value.bytesUsed } ∧
        built.callback = some KineticOperationCallback.KineticOperation_PutCallback) := by
  refine ⟨rfl, ?_⟩
  unfold KineticOperation_BuildPut
  simp only [hv, Bool.not_true, Bool.false_eq_true, if_false]
  have hsize : KINETIC_OBJ_SIZE = 1048576 := rfl
  by_cases hsz : entry.value.bytesUsed > 1048576
  · rw [if_pos (by rw [hsize]; exact hsz)]
    exact ⟨_, _, rfl, Iff.intro (fun _ => hsz) (fun _ => rfl), fun _ => rfl,
      fun h => absurd hsz (by omega)⟩
  · rw [if_neg (by rw [hsize]; exact hsz)]
    exact ⟨_, _, rfl, Iff.intro (fun h => by cases h) (fun h => absurd h hsz),
      fun h => absurd h hsz, fun _ => ⟨rfl, rfl, rfl, rfl⟩⟩

/-- C4 witness: the PUT of the system test on a valid operation. -/
theorem buildPut_overrun_iff_witness :
    KineticOperation_ValidateOperation validOperation = true ∧
    ∃ status built,
      KineticOperation_BuildPut validOperation putTestEntry = some (status, built) ∧
      (status = KINETIC_STATUS_BUFFER_OVERRUN ↔ putTestEntry.value.bytesUsed > 1048576) ∧
      (putTestEntry.value.bytesUsed > 1048576 → built = validOperation) ∧
      (putTestEntry.value.bytesUsed ≤ 1048576 →
        status = KINETIC_STATUS_SUCCESS ∧
        built.entry = some putTestEntry ∧
        built.value =
          { data := putTestEntry.value.array.data, len := putTestEntry.value.bytesUsed } ∧
        built.callback = some KineticOperationCallback.KineticOperation_PutCallback) :=
  ⟨rfl, (buildPut_overrun_iff validOperation putTestEntry rfl).2⟩

/-- C5 (the code at the failing input): a GET whose response carries three
bytes for a value buffer with room for two. The post-processor returns
`SUCCESS`, not `BUFFER_OVERRUN`, and the value buffer is left empty. -/
theorem get_cb_value_overrun_returns_success :
    valueOnlyResponse.header.valueLength
      > smallValueEntry.value.array.len - smallValueEntry.value.bytesUsed ∧
    (getRoundTrip GetCommand.GET validOperation smallValueEntry valueOnlyResponse).map
        (fun r => (r.1, r.2.entry.map fun entry => entry.value))
      = some (KINETIC_STATUS_SUCCESS,
          some { array := { data := some [0, 0], len := 2 }, bytesUsed := 0 }) :=
  ⟨by decide, rfl⟩

/-! ### Peer-to-peer operations -/

theorem p2p_depth_pos (p2pOp : KineticP2P_Operation) : 1 ≤ p2pOp.depth := by
  cases p2pOp
  simp only [KineticP2P_Operation.depth]
  omega

mutual
theorem build_p2pOp_none_iff (nestingLevel : Nat) :
    (p2pOp : KineticP2P_Operation) → p2pOp.keysPresent = true →
      ∃ r, build_p2pOp nestingLevel p2pOp = some r ∧
        (r = none ↔ nestingLevel + p2pOp.depth > KINETIC_P2P_MAX_NESTING)
  | .mk peer operations, hk => by
    unfold build_p2pOp
    by_cases hn : nestingLevel ≥ KINETIC_P2P_MAX_NESTING
    · rw [if_pos hn]
      refine ⟨none, rfl, Iff.intro (fun _ => ?_) (fun _ => rfl)⟩
      simp only [KineticP2P_Operation.depth]
      omega
    · rw [if_neg hn]
      simp only [KineticP2P_Operation.keysPresent] at hk
      obtain ⟨r, hr, hiff⟩ :=
        build_p2pOp_loop_none_iff nestingLevel operations hk (by omega)
      rw [hr]
      simp only [KineticP2P_Operation.depth]
      cases r with
      | none =>
        exact ⟨none, rfl, Iff.intro (fun _ => by have := hiff.mp rfl; omega) (fun _ => rfl)⟩
      | some protoOps =>
        refine ⟨_, rfl, Iff.intro (fun h => by cases h) (fun h => ?_)⟩
        have := hiff.mpr (by omega)
        cases this
theorem build_p2pOp_loop_none_iff (nestingLevel : Nat) :
    (operations : List KineticP2P_OperationData) →
      KineticP2P_Operation.keysPresentList operations = true →
      nestingLevel < KINETIC_P2P_MAX_NESTING →
      ∃ r, build_p2pOp_loop nestingLevel operations = some r ∧
        (r = none ↔
          nestingLevel + 1 + KineticP2P_Operation.depthList operations > KINETIC_P2P_MAX_NESTING)
  | [], _, hn => by
    refine ⟨some [], by simp only [build_p2pOp_loop], Iff.intro (fun h => by cases h) ?_⟩
    intro h
    simp only [KineticP2P_Operation.depthList] at h
    omega
  | d :: rest, hk, hn => by
    simp only [KineticP2P_Operation.keysPresentList, Bool.and_eq_true] at hk
    obtain ⟨r1, hr1, hiff1⟩ := build_p2pOp_operation_none_iff nestingLevel d hk.1
    obtain ⟨r2, hr2, hiff2⟩ := build_p2pOp_loop_none_iff nestingLevel rest hk.2 hn
    unfold build_p2pOp_loop
    rw [hr1]
    simp only [KineticP2P_Operation.depthList]
    cases r1 with
    | none =>
      refine ⟨none, rfl, Iff.intro (fun _ => ?_) (fun _ => rfl)⟩
      have := (hiff1.mp rfl).2
      omega
    | some o =>
      have h1 : ¬ (KineticP2P_OperationData.depth d > 0 ∧
          nestingLevel + 1 + KineticP2P_OperationData.depth d > KINETIC_P2P_MAX_NESTING) :=
        fun h => by have := hiff1.mpr h; cases this
      rw [hr2]
      cases r2 with
      | none =>
        refine ⟨none, rfl, Iff.intro (fun _ => ?_) (fun _ => rfl)⟩
        have := hiff2.mp rfl
        omega
      | some os =>
        refine ⟨_, rfl, Iff.intro (fun h => by cases h) (fun h => ?_)⟩
        have h2 : ¬ (nestingLevel + 1 + KineticP2P_Operation.depthList rest
            > KINETIC_P2P_MAX_NESTING) := fun h => by have := hiff2.mpr h; cases this
        omega
theorem build_p2pOp_operation_none_iff (nestingLevel : Nat) :
    (d : KineticP2P_OperationData) → KineticP2P_OperationData.keysPresent d = true →
      ∃ r, build_p2pOp_operation nestingLevel d = some r ∧
        (r = none ↔ KineticP2P_OperationData.depth d > 0 ∧
          nestingLevel + 1 + KineticP2P_OperationData.depth d > KINETIC_P2P_MAX_NESTING)
  | .mk key version newKey chainedOperation resultStatus, hk => by
    simp only [KineticP2P_OperationData.keysPresent, Bool.and_eq_true, Bool.not_eq_true'] at hk
    obtain ⟨r, hr, hiff⟩ := build_p2pOp_chained_none_iff nestingLevel chainedOperation hk.2
    unfold build_p2pOp_operation
    simp only [hk.1, Bool.false_eq_true, if_false, hr, KineticP2P_OperationData.depth]
    cases r with
    | none => exact ⟨none, rfl, Iff.intro (fun _ => hiff.mp rfl) (fun _ => rfl)⟩
    | some p2pop =>
      refine ⟨_, rfl, Iff.intro (fun h => by cases h) (fun h => ?_)⟩
      have := hiff.mpr h
      cases this
theorem build_p2pOp_chained_none_iff (nestingLevel : Nat) :
    (chainedOperation : Option KineticP2P_Operation) →
      KineticP2P_Operation.keysPresentChained chainedOperation = true →
      ∃ r, build_p2pOp_chained nestingLevel chainedOperation = some r ∧
        (r = none ↔ KineticP2P_Operation.depthChained chainedOperation > 0 ∧
          nestingLevel + 1 + KineticP2P_Operation.depthChained chainedOperation
            > KINETIC_P2P_MAX_NESTING)
  | none, _ => by
    refine ⟨some none, by simp only [build_p2pOp_chained], Iff.intro (fun h => by cases h) ?_⟩
    intro h
    simp only [KineticP2P_Operation.depthChained] at h
    omega
  | some chained, hk => by
    simp only [KineticP2P_Operation.keysPresentChained] at hk
    obtain ⟨r, hr, hiff⟩ := build_p2pOp_none_iff (nestingLevel + 1) chained hk
    have hpos := p2p_depth_pos chained
    unfold build_p2pOp_chained
    simp only [hr, KineticP2P_Operation.depthChained]
    cases r with
    | none =>
      refine ⟨none, rfl, Iff.intro (fun _ => ⟨by omega, ?_⟩) (fun _ => rfl)⟩
      have := hiff.mp rfl
      omega
    | some p =>
      refine ⟨_, rfl, Iff.intro (fun h => by cases h) (fun h => ?_)⟩
      have := hiff.mpr (by omega)
      cases this
end

theorem buildP2PStatus_eq (operation : KineticOperation) (p2pOp : KineticP2P_Operation)
    (hv : KineticOperation_ValidateOperation operation = true)
    (hk : p2pOp.keysPresent = true) :
    buildP2PStatus operation p2pOp = some
      (if p2pOp.depth > KINETIC_P2P_MAX_NESTING then KINETIC_STATUS_OPERATION_INVALID
       else if p2pOp.numOperations ≥ KINETIC_P2P_OPERATION_LIMIT then
         KINETIC_STATUS_BUFFER_OVERRUN
       else KINETIC_STATUS_SUCCESS) := by
  obtain ⟨r, hr, hiff⟩ := build_p2pOp_none_iff 0 p2pOp hk
  rw [Nat.zero_add] at hiff
  unfold buildP2PStatus KineticOperation_BuildP2POperation
  simp only [hv, Bool.not_true, Bool.false_eq_true, if_false, hr]
  cases r with
  | none =>
    rw [if_pos (hiff.mp rfl)]
    rfl
  | some built =>
    have hd : ¬ p2pOp.depth > KINETIC_P2P_MAX_NESTING :=
      fun h => by have := hiff.mpr h; cases this
    rw [if_neg hd]
    by_cases hl : p2pOp.numOperations ≥ KINETIC_P2P_OPERATION_LIMIT
    · simp only [Option.isNone_some, Bool.false_eq_true, if_false, if_pos hl, Option.map_some']
    · simp only [Option.isNone_some, Bool.false_eq_true, if_false, if_neg hl, Option.map_some']

theorem p2p_replicate_leaf (n : Nat) :
    KineticP2P_Operation.depthList (List.replicate n p2pLeaf) = 0 ∧
    KineticP2P_Operation.keysPresentList (List.replicate n p2pLeaf) = true ∧
    KineticP2P_Operation.totalList (List.replicate n p2pLeaf) = n := by
  induction n with
  | zero => exact ⟨rfl, rfl, rfl⟩
  | succ n ih =>
    obtain ⟨h1, h2, h3⟩ := ih
    simp only [List.replicate_succ, KineticP2P_Operation.depthList,
      KineticP2P_Operation.keysPresentList, KineticP2P_Operation.totalList, h1, h2, h3]
    refine ⟨?_, ?_, ?_⟩
    · rfl
    · rfl
    · simp only [p2pLeaf, KineticP2P_OperationData.total, KineticP2P_Operation.totalChained]
      omega

theorem p2pWide_facts (n : Nat) :
    (p2pWide n).depth = 1 ∧ (p2pWide n).keysPresent = true ∧
    (p2pWide n).totalOperations = n ∧ (p2pWide n).numOperations = n := by
  obtain ⟨h1, h2, h3⟩ := p2p_replicate_leaf n
  simp only [p2pWide, KineticP2P_Operation.depth, KineticP2P_Operation.keysPresent,
    KineticP2P_Operation.totalOperations, KineticP2P_Operation.numOperations,
    KineticP2P_Operation.operations, h1, h2, h3, List.length_replicate, and_self]

theorem p2pWideBelow_facts (n : Nat) :
    (p2pWideBelow n).depth = 2 ∧ (p2pWideBelow n).keysPresent = true ∧
    (p2pWideBelow n).totalOperations = n + 1 ∧ (p2pWideBelow n).numOperations = 1 := by
  obtain ⟨h1, h2, h3, -⟩ := p2pWide_facts n
  have d : (p2pWideBelow n).depth = 1 + max (p2pWide n).depth 0 := rfl
  have k : (p2pWideBelow n).keysPresent
      = ((!ByteBuffer_IsNull p2pKey && (p2pWide n).keysPresent) && true) := rfl
  have c : (p2pWideBelow n).totalOperations = 1 + (p2pWide n).totalOperations + 0 := rfl
  rw [d, k, c, h1, h2, h3]
  exact ⟨rfl, rfl, by omega, rfl⟩

/-- C6: on a valid operation and a P2P tree all of whose sub-operations have
keys, `KineticOperation_BuildP2POperation` returns `OPERATION_INVALID` exactly
when the nesting depth of the tree exceeds `KINETIC_P2P_MAX_NESTING` = 4,
wherever in the tree the over-deep chain hangs, and returns `SUCCESS` when the
depth is at most 4 and `numOperations` is under the limit. A chain of depth 5
is rejected, also under the second sub-operation; a chain of depth 4 is built. -/
theorem buildP2P_invalid_iff_too_deep (operation : KineticOperation)
    (p2pOp : KineticP2P_Operation)
    (hv : KineticOperation_ValidateOperation operation = true)
    (hk : p2pOp.keysPresent = true) :
    KINETIC_P2P_MAX_NESTING = 4 ∧
    (∃ status, buildP2PStatus operation p2pOp = some status ∧
      (status = KINETIC_STATUS_OPERATION_INVALID ↔ p2pOp.depth > 4) ∧
      (p2pOp.depth ≤ 4 → p2pOp.numOperations < KINETIC_P2P_OPERATION_LIMIT →
        status = KINETIC_STATUS_SUCCESS)) ∧
    ((p2pChain 4).depth = 5 ∧
      buildP2PStatus validOperation (p2pChain 4) = some KINETIC_STATUS_OPERATION_INVALID) ∧
    ((p2pChain 3).depth = 4 ∧
      buildP2PStatus validOperation (p2pChain 3) = some KINETIC_STATUS_SUCCESS) ∧
    ((p2pChainUnderSecond 3).depth = 5 ∧
      buildP2PStatus validOperation (p2pChainUnderSecond 3)
        = some KINETIC_STATUS_OPERATION_INVALID) := by
  refine ⟨rfl, ?_, ⟨rfl, rfl⟩, ⟨rfl, rfl⟩, ⟨rfl, rfl⟩⟩
  have hmax : KINETIC_P2P_MAX_NESTING = 4 := rfl
  rw [buildP2PStatus_eq operation p2pOp hv hk, hmax]
  by_cases hd : p2pOp.depth > 4
  · rw [if_pos hd]
    exact ⟨_, rfl, Iff.intro (fun _ => hd) (fun _ => rfl), fun h => absurd hd (by omega)⟩
  · rw [if_neg hd]
    by_cases hl : p2pOp.numOperations ≥ KINETIC_P2P_OPERATION_LIMIT
    · rw [if_pos hl]
      exact ⟨_, rfl, Iff.intro (fun h => by cases h) (fun h => absurd h hd),
        fun _ h => absurd hl (by omega)⟩
    · rw [if_neg hl]
      exact ⟨_, rfl, Iff.intro (fun h => by cases h) (fun h => absurd h hd), fun _ _ => rfl⟩

/-- C6 witness: a tree whose second sub-operation starts a chain that reaches
depth 5. -/
theorem buildP2P_invalid_iff_too_deep_witness :
    KineticOperation_ValidateOperation validOperation = true ∧
    (p2pChainUnderSecond 3).keysPresent = true ∧
    ∃ status, buildP2PStatus validOperation (p2pChainUnderSecond 3) = some status ∧
      (status = KINETIC_STATUS_OPERATION_INVALID ↔ (p2pChainUnderSecond 3).depth > 4) ∧
      ((p2pChainUnderSecond 3).depth ≤ 4 →
        (p2pChainUnderSecond 3).numOperations < KINETIC_P2P_OPERATION_LIMIT →
        status = KINETIC_STATUS_SUCCESS) :=
  ⟨rfl, rfl, (buildP2P_invalid_iff_too_deep validOperation (p2pChainUnderSecond 3) rfl rfl).2.1⟩

/-- C7 (as amended): on a valid operation and a P2P tree all of whose
sub-operations have keys, `KineticOperation_BuildP2POperation` returns
`SUCCESS` when the nesting depth is at most 4 and the number of sub-operations
at the top level (`numOperations`) is below `KINETIC_P2P_OPERATION_LIMIT` =
2000, and does not return `SUCCESS` when `numOperations` exceeds 2000. The
sub-operations of chained operations are not counted. -/
theorem buildP2P_success_below_limit (operation : KineticOperation)
    (p2pOp : KineticP2P_Operation)
    (hv : KineticOperation_ValidateOperation operation = true)
    (hk : p2pOp.keysPresent = true) :
    KINETIC_P2P_OPERATION_LIMIT = 2000 ∧
    (p2pOp.depth ≤ 4 → p2pOp.numOperations < 2000 →
      buildP2PStatus operation p2pOp = some KINETIC_STATUS_SUCCESS) ∧
    (p2pOp.numOperations > 2000 →
      ∃ status, buildP2PStatus operation p2pOp = some status ∧
        status ≠ KINETIC_STATUS_SUCCESS) := by
  have hmax : KINETIC_P2P_MAX_NESTING = 4 := rfl
  have hlim : KINETIC_P2P_OPERATION_LIMIT = 2000 := rfl
  rw [buildP2PStatus_eq operation p2pOp hv hk, hmax, hlim]
  refine ⟨rfl, fun hd hn => ?_, fun hn => ?_⟩
  · rw [if_neg (by omega), if_neg (by omega)]
  · by_cases hd : p2pOp.depth > 4
    · rw [if_pos hd]
      exact ⟨_, rfl, by decide⟩
    · rw [if_neg hd, if_pos (by omega)]
      exact ⟨_, rfl, by decide⟩

/-- C7 witness: 1999 plain sub-operations are accepted. -/
theorem buildP2P_success_below_limit_witness :
    (p2pWide 1999).depth ≤ 4 ∧ (p2pWide 1999).numOperations < 2000 ∧
    buildP2PStatus validOperation (p2pWide 1999) = some KINETIC_STATUS_SUCCESS :=
  ⟨by rw [(p2pWide_facts 1999).1]; decide, by rw [(p2pWide_facts 1999).2.2.2]; decide,
    (buildP2P_success_below_limit validOperation (p2pWide 1999) rfl
      (p2pWide_facts 1999).2.1).2.1
      (by rw [(p2pWide_facts 1999).1]; decide)
      (by rw [(p2pWide_facts 1999).2.2.2]; decide)⟩

/-- C7 counterexample: an operation of depth 1 with exactly 2000 sub-operations
is refused with `BUFFER_OVERRUN`, and an operation of depth 2 with 2001
sub-operations in all (one at the top level, 2000 below it) is accepted. -/
theorem buildP2P_limit_counts_top_level_only :
    ((p2pWide 2000).depth ≤ 4 ∧ (p2pWide 2000).totalOperations = 2000 ∧
      buildP2PStatus validOperation (p2pWide 2000) = some KINETIC_STATUS_BUFFER_OVERRUN) ∧
    ((p2pWideBelow 2000).depth ≤ 4 ∧ (p2pWideBelow 2000).totalOperations = 2001 ∧
      buildP2PStatus validOperation (p2pWideBelow 2000) = some KINETIC_STATUS_SUCCESS) := by
  obtain ⟨a1, a2, a3, a4⟩ := p2pWide_facts 2000
  obtain ⟨b1, b2, b3, b4⟩ := p2pWideBelow_facts 2000
  have hmax : KINETIC_P2P_MAX_NESTING = 4 := rfl
  have hlim : KINETIC_P2P_OPERATION_LIMIT = 2000 := rfl
  refine ⟨⟨by rw [a1]; decide, a3, ?_⟩, ⟨by rw [b1]; decide, b3, ?_⟩⟩
  · rw [buildP2PStatus_eq validOperation _ rfl a2, a1, a4, hmax, hlim]
    rfl
  · rw [buildP2PStatus_eq validOperation _ rfl b2, b1, b4, hmax, hlim]
    rfl

/-! ### ACL documents -/

theorem takeWhile_of_all (p : Char → Bool) (l : List Char) (h : l.all p = true) :
    l.takeWhile p = l := by
  induction l with
  | nil => rfl
  | cons c cs ih =>
    simp only [List.all_cons, Bool.and_eq_true] at h
    rw [List.takeWhile_cons, h.1, ih h.2]
    rfl

theorem all_takeWhile (p : Char → Bool) (l : List Char) : (l.takeWhile p).all p = true := by
  induction l with
  | nil => rfl
  | cons c cs ih =>
    rw [List.takeWhile_cons]
    cases hp : p c with
    | true =>
      show (c :: List.takeWhile p cs).all p = true
      simp only [List.all_cons, hp, ih, Bool.and_self]
    | false => rfl

theorem cString_of_no_nul (s : String) (h : s.toList.all (fun c => c != Char.ofNat 0) = true) :
    cString s = s := by
  cases s with
  | mk data =>
    unfold cString
    simp only [String.toList] at h ⊢
    rw [takeWhile_of_all _ data h]

theorem cString_idem (s : String) : cString (cString s) = cString s :=
  cString_of_no_nul (cString s) (all_takeWhile _ s.toList)

theorem strcmp_zero_iff (a b : String) : (0 == strcmp a b) = true ↔ cString a = cString b := by
  unfold strcmp
  by_cases h : cString a = cString b
  · simp [h]
  · rw [if_neg h]
    by_cases hlt : cstringBytes a < cstringBytes b
    · rw [if_pos hlt]
      simp only [h, iff_false]
      decide
    · rw [if_neg hlt]
      simp only [h, iff_false]
      decide

theorem strcmp_literal (a b : String) (hb : cString b = b) :
    (0 == strcmp a b) = (b == cString a) := by
  cases h : (0 == strcmp a b) with
  | true =>
    have := (strcmp_zero_iff a b).mp h
    rw [hb] at this
    simp [this]
  | false =>
    have hne : ¬ cString a = cString b := fun e => by
      rw [(strcmp_zero_iff a b).mpr e] at h
      exact absurd h (by decide)
    rw [hb] at hne
    symm
    simpa using fun e => hne e.symm

theorem strcmp_cString (a b : String) : strcmp (cString a) b = strcmp a b := by
  unfold strcmp cstringBytes
  rw [cString_idem]

theorem read_next_ACL_object_null :
    read_next_ACL_object json_object.null = some (ACL_ERROR_MISSING_FIELD, none) := rfl

theorem read_next_ACL_parsed (tokener : json_tokener) (buf : List Nat)
    (buf_size offset char_offset : Nat) (obj : json_object)
    (htok : tokener ((buf.drop offset).take (buf_size - offset)) = .parsed obj char_offset)
    (hobj : obj ≠ json_object.null) :
    read_next_ACL buf buf_size offset tokener
      = match read_next_ACL_object obj with
        | none => none
        | some (res, acl) => some (res, char_offset, acl) := by
  unfold read_next_ACL
  rw [htok]
  cases obj with
  | null => exact absurd rfl hobj
  | _ => rfl

theorem read_next_ACL_built (tokener : json_tokener) (buf : List Nat)
    (buf_size offset char_offset : Nat) (obj : json_object)
    (record : KineticProto_Command_Security_ACL)
    (htok : tokener ((buf.drop offset).take (buf_size - offset)) = .parsed obj char_offset)
    (hobj : read_next_ACL_object obj = some (ACL_OK, some record)) :
    read_next_ACL buf buf_size offset tokener = some (ACL_OK, char_offset, some record) := by
  have hne : obj ≠ json_object.null := by
    intro h
    rw [h, read_next_ACL_object_null] at hobj
    simp at hobj
  rw [read_next_ACL_parsed tokener buf buf_size offset char_offset obj htok hne, hobj]

theorem acl_store_count (acl_group : ACL) (new_acl : KineticProto_Command_Security_ACL) :
    (acl_store acl_group new_acl).ACL_count = acl_group.ACL_count + 1 ∧
    (acl_store acl_group new_acl).ACLs = acl_group.ACLs ++ [new_acl] := by
  unfold acl_store
  by_cases h : acl_group.ACL_count = acl_group.ACL_ceil
  · simp only [if_pos h, and_self]
  · simp only [if_neg h, and_self]

theorem acl_store_ceil (acl_group : ACL) (new_acl : KineticProto_Command_Security_ACL)
    (hpos : 1 ≤ acl_group.ACL_ceil) (hle : acl_group.ACL_count ≤ acl_group.ACL_ceil) :
    1 ≤ (acl_store acl_group new_acl).ACL_ceil ∧
    (acl_store acl_group new_acl).ACL_count ≤ (acl_store acl_group new_acl).ACL_ceil := by
  unfold acl_store
  by_cases h : acl_group.ACL_count = acl_group.ACL_ceil
  · simp only [if_pos h]
    constructor <;> omega
  · simp only [if_neg h]
    constructor <;> omega

theorem acl_store_foldl (records : List KineticProto_Command_Security_ACL) :
    ∀ acl_group : ACL, 1 ≤ acl_group.ACL_ceil → acl_group.ACL_count ≤ acl_group.ACL_ceil →
      (records.foldl acl_store acl_group).ACL_count = acl_group.ACL_count + records.length ∧
      (records.foldl acl_store acl_group).ACLs = acl_group.ACLs ++ records ∧
      (records.foldl acl_store acl_group).ACL_count
        ≤ (records.foldl acl_store acl_group).ACL_ceil := by
  induction records with
  | nil => intro acl_group _ hle; exact ⟨rfl, by simp, hle⟩
  | cons record rest ih =>
    intro acl_group hpos hle
    obtain ⟨h1, h2⟩ := acl_store_count acl_group record
    obtain ⟨h3, h4⟩ := acl_store_ceil acl_group record hpos hle
    obtain ⟨i1, i2, i3⟩ := ih (acl_store acl_group record) h3 h4
    simp only [List.foldl_cons, List.length_cons]
    refine ⟨by omega, ?_, i3⟩
    rw [i2, h2, List.append_assoc, List.singleton_append]

theorem acl_of_string_loop_segmented (tokener : json_tokener) (buf : List Nat) (buf_size : Nat)
    (objs : List json_object) :
    ∀ (records : List KineticProto_Command_Security_ACL) (offset : Nat) (acl_group : ACL)
      (res : KineticACLLoadResult),
      Segmented tokener buf buf_size offset objs →
      List.Forall₂ BuildsRecord objs records →
      acl_of_string_loop tokener buf buf_size offset acl_group res
        = some (if objs.isEmpty then res else ACL_OK, records.foldl acl_store acl_group) := by
  induction objs with
  | nil =>
    intro records offset acl_group res hseg hrec
    cases hrec
    simp only [Segmented] at hseg
    unfold acl_of_string_loop
    simp [hseg]
  | cons obj rest ih =>
    intro records offset acl_group res hseg hrec
    cases hrec with
    | cons hobj hrest =>
      rename_i record records
      obtain ⟨char_offset, htok, hpos, hle, hseg'⟩ := hseg
      unfold BuildsRecord at hobj
      have hread : read_next_ACL buf buf_size offset tokener
          = some (ACL_OK, char_offset, some record) :=
        read_next_ACL_built tokener buf buf_size offset char_offset obj record htok hobj
      unfold acl_of_string_loop
      rw [if_pos (by omega)]
      simp only [hread]
      rw [if_neg (by omega)]
      rw [ih records (offset + char_offset) (acl_store acl_group record) ACL_OK hseg' hrest]
      simp

theorem acl_of_string_single (obj : json_object) (record : KineticProto_Command_Security_ACL)
    (n : Nat) (hobj : read_next_ACL_object obj = some (ACL_OK, some record)) :
    acl_of_string (singleObjectTokener obj) (List.replicate (n + 1) 32) (n + 1)
      = some (ACL_OK, some { ACL_ceil := 1, ACL_count := 1, ACLs := [record] }) := by
  have hseg : Segmented (singleObjectTokener obj) (List.replicate (n + 1) 32) (n + 1) 0 [obj] :=
    ⟨n + 1, by simp [singleObjectTokener], by omega, by omega, by simp [Segmented]⟩
  have hloop := acl_of_string_loop_segmented (singleObjectTokener obj)
    (List.replicate (n + 1) 32) (n + 1) [obj] [record] 0
    { ACL_ceil := 1, ACL_count := 0, ACLs := [] } ACL_ERROR_MEMORY hseg
    (List.Forall₂.cons hobj List.Forall₂.nil)
  simp only [acl_of_string, hloop]
  rfl

/-- C8: when the buffer is a concatenation of `n ≥ 1` valid ACL objects as the
tokener reads them, `acl_of_string` returns `ACL_OK` and stores a group with
`ACL_count = n` whose records are, in input order, the records built from the
objects; the group is the result of storing the records one by one, and after
each of these stores `ACL_count` is the number of records stored and is at
most `ACL_ceil`. -/
theorem acl_of_string_reads_all (tokener : json_tokener) (buf : List Nat) (buf_size : Nat)
    (objs : List json_object) (records : List KineticProto_Command_Security_ACL)
    (hseg : Segmented tokener buf buf_size 0 objs)
    (hne : objs ≠ [])
    (hrec : List.Forall₂ BuildsRecord objs records) :
    ∃ acl_group,
      acl_of_string tokener buf buf_size = some (ACL_OK, some acl_group) ∧
      acl_group.ACL_count = objs.length ∧
      acl_group.ACLs = records ∧
      acl_group = records.foldl acl_store emptyACLGroup ∧
      ∀ k, k ≤ records.length →
        ((records.take k).foldl acl_store emptyACLGroup).ACL_count = k ∧
        ((records.take k).foldl acl_store emptyACLGroup).ACLs = records.take k ∧
        ((records.take k).foldl acl_store emptyACLGroup).ACL_count
          ≤ ((records.take k).foldl acl_store emptyACLGroup).ACL_ceil := by
  have hloop := acl_of_string_loop_segmented tokener buf buf_size objs records 0
    emptyACLGroup ACL_ERROR_MEMORY hseg hrec
  have hempty : objs.isEmpty = false := by
    cases objs with
    | nil => exact absurd rfl hne
    | cons _ _ => rfl
  have hlen : objs.length = records.length := hrec.length_eq
  have hfold : ∀ rs : List KineticProto_Command_Security_ACL,
      (rs.foldl acl_store emptyACLGroup).ACL_count = rs.length ∧
      (rs.foldl acl_store emptyACLGroup).ACLs = rs ∧
      (rs.foldl acl_store emptyACLGroup).ACL_count
        ≤ (rs.foldl acl_store emptyACLGroup).ACL_ceil := by
    intro rs
    obtain ⟨h1, h2, h3⟩ := acl_store_foldl rs emptyACLGroup (Nat.le_refl 1) (Nat.zero_le 1)
    refine ⟨?_, ?_, h3⟩
    · rw [h1]
      exact Nat.zero_add _
    · rw [h2]
      rfl
  obtain ⟨f1, f2, -⟩ := hfold records
  have hpos : (records.foldl acl_store emptyACLGroup).ACL_count ≠ 0 := by
    rw [f1, ← hlen]
    cases objs with
    | nil => exact absurd rfl hne
    | cons _ _ => simp
  refine ⟨records.foldl acl_store emptyACLGroup, ?_, by rw [f1, hlen], f2, rfl, ?_⟩
  · unfold acl_of_string
    have hloop' : acl_of_string_loop tokener buf buf_size 0
        { ACL_ceil := 1, ACL_count := 0, ACLs := [] } ACL_ERROR_MEMORY
        = some (ACL_OK, records.foldl acl_store emptyACLGroup) := by
      rw [hempty] at hloop
      exact hloop
    simp only [hloop', or_true, if_true, if_neg hpos]
  · intro k hk
    obtain ⟨g1, g2, g3⟩ := hfold (records.take k)
    refine ⟨?_, g2, g3⟩
    rw [g1, List.length_take]
    omega

/-- C8 witness: a document of two objects yields the two records, in order. -/
theorem acl_of_string_reads_all_witness :
    ∃ acl_group,
      acl_of_string twoObjectTokener (List.replicate 20 32) 20 = some (ACL_OK, some acl_group) ∧
      acl_group.ACL_count = 2 ∧
      acl_group.ACLs = [s4Record, readOnlyRecord] := by
  obtain ⟨acl_group, h1, h2, h3, -⟩ :=
    acl_of_string_reads_all twoObjectTokener (List.replicate 20 32) 20
      [s4Object "HmacSHA1", readOnlyObject] [s4Record, readOnlyRecord]
      ⟨12, rfl, by decide, by decide, 8, rfl, by decide, by decide, rfl⟩
      (by simp)
      (List.Forall₂.cons rfl (List.Forall₂.cons rfl List.Forall₂.nil))
  exact ⟨acl_group, h1, h2, h3⟩

/-- C9 (the code at the failing input): for the empty buffer (`buf_size = 0`)
the loop of `acl_of_string` is not entered, the result code keeps its initial
value and `acl_of_string` returns `ACL_ERROR_MEMORY`, not `ACL_ERROR_BAD_JSON`;
a non-empty buffer whose first read reports end of stream does yield
`ACL_ERROR_BAD_JSON`. -/
theorem acl_of_string_empty_buffer (tokener : json_tokener) (buf : List Nat) :
    acl_of_string tokener buf 0 = some (ACL_ERROR_MEMORY, none) ∧
    acl_of_string (fun _ => json_tokener_result.error_parse_eof) [0] 1
      = some (ACL_ERROR_BAD_JSON, none) := by
  constructor
  · simp [acl_of_string, acl_of_string_loop]
  · simp [acl_of_string, acl_of_string_loop, read_next_ACL]

theorem get_ex_removeField (fields : List (String × json_object)) (removed key : String)
    (hne : key ≠ removed) :
    json_object_object_get_ex ((json_object.object fields).removeField removed) key
      = json_object_object_get_ex (json_object.object fields) key := by
  have hl : ∀ fs : List (String × json_object),
      (fs.filter fun field => field.1 != removed).lookup key = fs.lookup key := by
    intro fs
    induction fs with
    | nil => rfl
    | cons field rest ih =>
      obtain ⟨name, val⟩ := field
      by_cases hname : name = removed
      · subst hname
        have hk : (key == name) = false := by simpa using hne
        simp only [List.filter, bne_self_eq_false, List.lookup, hk, ih]
      · have hb : (name != removed) = true := by simpa using hname
        simp only [List.filter, hb, List.lookup, ih]
  simp only [json_object.removeField, json_object_object_get_ex, hl]

theorem get_ex_removeField_self (fields : List (String × json_object)) (removed : String) :
    json_object_object_get_ex ((json_object.object fields).removeField removed) removed
      = (false, json_object.null) := by
  have hl : ∀ fs : List (String × json_object),
      (fs.filter fun field => field.1 != removed).lookup removed = none := by
    intro fs
    induction fs with
    | nil => rfl
    | cons field rest ih =>
      obtain ⟨name, val⟩ := field
      by_cases hname : name = removed
      · subst hname
        simp only [List.filter, bne_self_eq_false, ih]
      · have hb : (name != removed) = true := by simpa using hname
        have hk : (removed == name) = false := by simpa using fun h => hname h.symm
        simp only [List.filter, hb, List.lookup, hk, ih]
  simp only [json_object.removeField, json_object_object_get_ex, hl]

/-- C10 (as amended): let an ACL object have a `scope` array, an `identity`
that is not a string, and a `key` that is absent or a string. The
`HMACAlgorithm` field is compared as a C string, that is up to its first NUL.
If the C string of the field is other than `"HmacSHA1"`, `read_next_ACL`
returns `ACL_ERROR_INVALID_FIELD` and stores no record. If it is `"HmacSHA1"`,
the check passes and the object is read exactly like the same object without
the field; if the field is absent, the check passes. -/
theorem hmacAlgorithm_only_HmacSHA1 (tokener : json_tokener) (buf : List Nat)
    (buf_size offset char_offset : Nat) (fields : List (String × json_object))
    (scopes : List json_object)
    (htok : tokener ((buf.drop offset).take (buf_size - offset))
      = .parsed (.object fields) char_offset)
    (hscope : fields.lookup "scope" = some (.array scopes))
    (hidentity : ∀ s, fields.lookup "identity" ≠ some (.string s))
    (hkey : fields.lookup "key" = none ∨ ∃ key, fields.lookup "key" = some (.string key)) :
    (∀ hmac, fields.lookup "HMACAlgorithm" = some (.string hmac) →
      cString hmac ≠ "HmacSHA1" →
      read_next_ACL buf buf_size offset tokener
        = some (ACL_ERROR_INVALID_FIELD, char_offset, none)) ∧
    (∀ hmac, fields.lookup "HMACAlgorithm" = some (.string hmac) →
      cString hmac = "HmacSHA1" →
      read_next_ACL_HMACAlgorithm (.object fields) = some true ∧
      read_next_ACL_object (.object fields)
        = read_next_ACL_object ((json_object.object fields).removeField "HMACAlgorithm")) ∧
    (fields.lookup "HMACAlgorithm" = none →
      read_next_ACL_HMACAlgorithm (.object fields) = some true) := by
  have hs : json_object_object_get_ex (.object fields) "scope" = (true, .array scopes) := by
    simp only [json_object_object_get_ex, hscope]
  have hid : ∃ acl, read_next_ACL_identity (.object fields) {} = some acl := by
    cases hi : fields.lookup "identity" with
    | none =>
      simp only [read_next_ACL_identity, json_object_object_get_ex, hi]
      exact ⟨_, rfl⟩
    | some val =>
      cases val with
      | string s => exact absurd hi (hidentity s)
      | null =>
        simp only [read_next_ACL_identity, json_object_object_get_ex, hi, json_object_get_int64]
        exact ⟨_, rfl⟩
      | boolean b =>
        simp only [read_next_ACL_identity, json_object_object_get_ex, hi, json_object_get_int64]
        exact ⟨_, rfl⟩
      | int i =>
        simp only [read_next_ACL_identity, json_object_object_get_ex, hi, json_object_get_int64]
        exact ⟨_, rfl⟩
      | array items =>
        simp only [read_next_ACL_identity, json_object_object_get_ex, hi, json_object_get_int64]
        exact ⟨_, rfl⟩
      | object fs =>
        simp only [read_next_ACL_identity, json_object_object_get_ex, hi, json_object_get_int64]
        exact ⟨_, rfl⟩
  obtain ⟨acl1, hacl1⟩ := hid
  have hk : ∃ acl, read_next_ACL_key (.object fields) acl1 = some acl := by
    rcases hkey with hnone | ⟨key, hsome⟩
    · simp only [read_next_ACL_key, json_object_object_get_ex, hnone]
      exact ⟨_, rfl⟩
    · simp only [read_next_ACL_key, json_object_object_get_ex, hsome, json_object_get_string]
      exact ⟨_, rfl⟩
  obtain ⟨acl2, hacl2⟩ := hk
  have hcheck : ∀ hmac, fields.lookup "HMACAlgorithm" = some (.string hmac) →
      read_next_ACL_HMACAlgorithm (.object fields)
        = some ("HmacSHA1" == cString hmac) := by
    intro hmac hfield
    simp only [read_next_ACL_HMACAlgorithm, json_object_object_get_ex, hfield,
      json_object_get_string, strcmp_literal hmac "HmacSHA1" rfl]
  refine ⟨fun hmac hfield hne => ?_, fun hmac hfield heq => ⟨?_, ?_⟩, fun hfield => ?_⟩
  · have hh : read_next_ACL_HMACAlgorithm (.object fields) = some false := by
      rw [hcheck hmac hfield]
      simpa using fun e => hne e.symm
    rw [read_next_ACL_parsed tokener buf buf_size offset char_offset _ htok
      (fun h => json_object.noConfusion h)]
    simp only [read_next_ACL_object, hs, json_object_array_length, hacl1, hacl2, hh]
  · rw [hcheck hmac hfield, heq]
    rfl
  · have hh : read_next_ACL_HMACAlgorithm (.object fields) = some true := by
      rw [hcheck hmac hfield, heq]
      rfl
    have hh' : read_next_ACL_HMACAlgorithm
        ((json_object.object fields).removeField "HMACAlgorithm") = some true := by
      simp only [read_next_ACL_HMACAlgorithm, get_ex_removeField_self]
    have e1 := get_ex_removeField fields "HMACAlgorithm" "scope" (by decide)
    have e2 := get_ex_removeField fields "HMACAlgorithm" "identity" (by decide)
    have e3 := get_ex_removeField fields "HMACAlgorithm" "key" (by decide)
    simp only [read_next_ACL_object, read_next_ACL_identity, read_next_ACL_key, hh, hh',
      e1, e2, e3]
  · simp only [read_next_ACL_HMACAlgorithm, json_object_object_get_ex, hfield]

/-- C10 counterexample: the object of scenario S4 with the `HMACAlgorithm`
string `"HmacSHA1"` followed by a NUL and `x`. The string is not `"HmacSHA1"`,
yet `strcmp` finds it equal: the check passes, `read_next_ACL` builds the record
of scenario S4 and `acl_of_string` returns `ACL_OK`. -/
theorem hmacAlgorithm_nul_suffix_accepted :
    "HmacSHA1\x00x" ≠ "HmacSHA1" ∧
    read_next_ACL_HMACAlgorithm (s4Object "HmacSHA1\x00x") = some true ∧
    read_next_ACL_object (s4Object "HmacSHA1\x00x") = some (ACL_OK, some s4Record) ∧
    acl_of_string (singleObjectTokener (s4Object "HmacSHA1\x00x")) (List.replicate 12 32) 12
      = some (ACL_OK, some { ACL_ceil := 1, ACL_count := 1, ACLs := [s4Record] }) :=
  ⟨by decide, rfl, rfl, acl_of_string_single _ s4Record 11 rfl⟩

/-- C10 witness: the object of scenario S4 with `"HmacSHA2"` in place of
`"HmacSHA1"` is refused with `ACL_ERROR_INVALID_FIELD`. -/
theorem hmacAlgorithm_only_HmacSHA1_witness :
    read_next_ACL (List.replicate 12 32) 12 0
        (fun _ => json_tokener_result.parsed (s4Object "HmacSHA2") 12)
      = some (ACL_ERROR_INVALID_FIELD, 12, none) :=
  (hmacAlgorithm_only_HmacSHA1
    (fun _ => json_tokener_result.parsed (s4Object "HmacSHA2") 12) (List.replicate 12 32)
    12 0 12 _ _ rfl rfl (fun s h => by simp [List.lookup] at h)
    (Or.inr ⟨"k", rfl⟩)).1 "HmacSHA2" rfl (by decide)

theorem acl_of_string_loop_error (tokener : json_tokener) (buf : List Nat) (buf_size : Nat)
    (offset : Nat) (acl_group : ACL) (res0 res : KineticACLLoadResult) (offset_out : Nat)
    (acl : Option KineticProto_Command_Security_ACL)
    (hsize : offset < buf_size)
    (hread : read_next_ACL buf buf_size offset tokener = some (res, offset_out, acl))
    (hres : res ≠ ACL_OK) :
    acl_of_string_loop tokener buf buf_size offset acl_group res0 = some (res, acl_group) := by
  unfold acl_of_string_loop
  have hpos : buf_size - offset > 0 := by omega
  rw [if_pos hpos, hread]
  cases res with
  | ACL_OK => exact absurd rfl hres
  | _ => rfl

theorem acl_of_string_first_error (tokener : json_tokener) (buf : List Nat) (buf_size : Nat)
    (res : KineticACLLoadResult) (offset_out : Nat)
    (acl : Option KineticProto_Command_Security_ACL)
    (hsize : 0 < buf_size)
    (hread : read_next_ACL buf buf_size 0 tokener = some (res, offset_out, acl))
    (hres : res ≠ ACL_OK) :
    acl_of_string tokener buf buf_size
      = some (if res = ACL_END_OF_STREAM then ACL_ERROR_BAD_JSON else res, none) := by
  have hloop := acl_of_string_loop_error tokener buf buf_size 0
    { ACL_ceil := 1, ACL_count := 0, ACLs := [] } ACL_ERROR_MEMORY res offset_out acl hsize
    hread hres
  simp only [acl_of_string, hloop]
  cases res with
  | ACL_OK => exact absurd rfl hres
  | _ => rfl

theorem read_next_ACL_null_document (tokener : json_tokener) (buf : List Nat)
    (buf_size offset char_offset : Nat)
    (htok : tokener ((buf.drop offset).take (buf_size - offset))
      = .parsed json_object.null char_offset) :
    read_next_ACL buf buf_size offset tokener = some (ACL_ERROR_BAD_JSON, 0, none) := by
  unfold read_next_ACL
  rw [htok]

/-- C11: when the object the tokener returns has no `scope` field, whatever
else it holds, `read_next_ACL` returns `ACL_ERROR_MISSING_FIELD` and stores no
record; when that object is the first of a document, `acl_of_string` returns
`ACL_ERROR_MISSING_FIELD` and does not write `*instance`. The value the
tokener returns is any value other than the null pointer (the document `null`
is refused as `ACL_ERROR_BAD_JSON` before any field is looked up). -/
theorem missing_scope_is_missing_field (tokener : json_tokener) (buf : List Nat)
    (buf_size offset char_offset : Nat) (obj : json_object)
    (htok : tokener ((buf.drop offset).take (buf_size - offset)) = .parsed obj char_offset)
    (hnonnull : obj.isNull = false)
    (hscope : (json_object_object_get_ex obj "scope").1 = false) :
    read_next_ACL buf buf_size offset tokener
      = some (ACL_ERROR_MISSING_FIELD, char_offset, none) ∧
    (offset = 0 → 0 < buf_size →
      acl_of_string tokener buf buf_size = some (ACL_ERROR_MISSING_FIELD, none)) := by
  have hobj : read_next_ACL_object obj = some (ACL_ERROR_MISSING_FIELD, none) := by
    unfold read_next_ACL_object
    cases hg : json_object_object_get_ex obj "scope" with
    | mk found val =>
      rw [hg] at hscope
      simp only at hscope
      subst hscope
      rfl
  have hne : obj ≠ json_object.null := by
    intro h
    rw [h] at hnonnull
    exact absurd hnonnull (by decide)
  have hread : read_next_ACL buf buf_size offset tokener
      = some (ACL_ERROR_MISSING_FIELD, char_offset, none) := by
    rw [read_next_ACL_parsed tokener buf buf_size offset char_offset obj htok hne, hobj]
  refine ⟨hread, fun h0 hsize => ?_⟩
  subst h0
  rw [acl_of_string_first_error tokener buf buf_size _ _ _ hsize hread (by decide)]
  rfl

/-- C11 witness: the object of scenario S4 with its `scope` removed. -/
theorem missing_scope_is_missing_field_witness :
    acl_of_string
        (fun _ => json_tokener_result.parsed
          ((s4Object "HmacSHA1").removeField "scope") 12)
        (List.replicate 12 32) 12
      = some (ACL_ERROR_MISSING_FIELD, none) :=
  (missing_scope_is_missing_field
    (fun _ => json_tokener_result.parsed ((s4Object "HmacSHA1").removeField "scope") 12)
    (List.replicate 12 32) 12 0 12 _ rfl rfl rfl).2 rfl (by decide)

/-! ### ACL documents: the loops as list recursions -/

theorem permission_of_str_cases (name : String) :
    permission_of_str name
      = match permission_table.find? fun pp => pp.2 == cString name with
        | some pp => pp.1
        | none => .INVALID_PERMISSION := by
  unfold permission_of_str permission_table
  simp only [List.find?, strcmp_literal name "INVALID" rfl, strcmp_literal name "READ" rfl,
    strcmp_literal name "WRITE" rfl, strcmp_literal name "DELETE" rfl,
    strcmp_literal name "RANGE" rfl, strcmp_literal name "SETUP" rfl,
    strcmp_literal name "P2POP" rfl, strcmp_literal name "GETLOG" rfl,
    strcmp_literal name "SECURITY" rfl]

theorem permission_of_str_cString (name : String) :
    permission_of_str (cString name) = permission_of_str name := by
  rw [permission_of_str_cases, permission_of_str_cases name, cString_idem]

theorem permission_of_str_invalid_iff (name : String) :
    permission_of_str name = .INVALID_PERMISSION ↔ cString name ∉ validPermissionNames := by
  rw [permission_of_str_cases]
  generalize cString name = str
  unfold permission_table validPermissionNames
  simp only [List.find?, List.mem_cons, List.mem_singleton, List.not_mem_nil, or_false, not_or]
  by_cases h0 : "INVALID" = str
  · subst h0; simp
  by_cases h1 : "READ" = str
  · subst h1; simp
  by_cases h2 : "WRITE" = str
  · subst h2; simp
  by_cases h3 : "DELETE" = str
  · subst h3; simp
  by_cases h4 : "RANGE" = str
  · subst h4; simp
  by_cases h5 : "SETUP" = str
  · subst h5; simp
  by_cases h6 : "P2POP" = str
  · subst h6; simp
  by_cases h7 : "GETLOG" = str
  · subst h7; simp
  by_cases h8 : "SECURITY" = str
  · subst h8; simp
  have e0 : ("INVALID" == str) = false := by simpa using h0
  have e1 : ("READ" == str) = false := by simpa using h1
  have e2 : ("WRITE" == str) = false := by simpa using h2
  have e3 : ("DELETE" == str) = false := by simpa using h3
  have e4 : ("RANGE" == str) = false := by simpa using h4
  have e5 : ("SETUP" == str) = false := by simpa using h5
  have e6 : ("P2POP" == str) = false := by simpa using h6
  have e7 : ("GETLOG" == str) = false := by simpa using h7
  have e8 : ("SECURITY" == str) = false := by simpa using h8
  simp only [e0, e1, e2, e3, e4, e5, e6, e7, e8, true_iff]
  exact ⟨Ne.symm h1, Ne.symm h2, Ne.symm h3, Ne.symm h4, Ne.symm h5, Ne.symm h6, Ne.symm h7,
    Ne.symm h8⟩

theorem array_get_idx_append (pre post : List json_object) (item : json_object) :
    json_object_array_get_idx (.array (pre ++ item :: post)) pre.length = some item := by
  have h : (pre ++ item :: post)[pre.length]? = some item := by
    rw [List.getElem?_append_right (Nat.le_refl _)]
    simp
  simp [json_object_array_get_idx, List.getD, h]

theorem unpack_permissions_strings (strs : List String) :
    ∀ (pre post : List json_object) (rest : List Nat)
      (scope : KineticProto_Command_Security_ACL_Scope),
      unpack_permissions (.array (pre ++ strs.map json_object.string ++ post))
          (List.range' pre.length strs.length ++ rest) scope
        = match storePermissions strs scope with
          | (ACL_OK, scope') =>
            unpack_permissions (.array (pre ++ strs.map json_object.string ++ post)) rest scope'
          | other => some other := by
  induction strs with
  | nil =>
    intro pre post rest scope
    simp [storePermissions]
  | cons str strs ih =>
    intro pre post rest scope
    have hidx : json_object_array_get_idx
        (.array (pre ++ (str :: strs).map json_object.string ++ post)) pre.length
        = some (.string str) := by
      rw [List.map_cons, List.append_assoc, List.cons_append]
      exact array_get_idx_append pre _ _
    have hre : pre ++ (str :: strs).map json_object.string ++ post
        = (pre ++ [json_object.string str]) ++ strs.map json_object.string ++ post := by
      simp
    have hlen : (pre ++ [json_object.string str]).length = pre.length + 1 := by simp
    simp only [List.length_cons, List.range'_succ, List.cons_append, unpack_permissions, hidx,
      json_object_get_string, storePermissions]
    by_cases hp : permission_of_str str = .INVALID_PERMISSION
    · simp only [hp, if_true]
    · simp only [hp, if_false]
      rw [hre, ← hlen]
      exact ih (pre ++ [json_object.string str]) post rest _

theorem unpack_scopes_loop_items (items : List json_object) :
    ∀ (pre : List json_object) (acl : KineticProto_Command_Security_ACL),
      unpack_scopes_loop (.array (pre ++ items)) (List.range' pre.length items.length) acl
        = unpackScopeItems items acl := by
  induction items with
  | nil =>
    intro pre acl
    simp [unpack_scopes_loop, unpackScopeItems]
  | cons entry items ih =>
    intro pre acl
    have hidx := array_get_idx_append pre items entry
    have hre : pre ++ entry :: items = (pre ++ [entry]) ++ items := by simp
    have hlen : (pre ++ [entry]).length = pre.length + 1 := by simp
    simp only [List.length_cons, List.range'_succ, unpack_scopes_loop, hidx, unpackScopeItems]
    rw [hre, ← hlen]
    cases entry with
    | null => exact ih _ _
    | boolean b =>
      simp only
      cases unpack_scope (.boolean b) with
      | none => rfl
      | some r => obtain ⟨res, scope⟩ := r; cases res <;> first | exact ih _ _ | rfl
    | int i =>
      simp only
      cases unpack_scope (.int i) with
      | none => rfl
      | some r => obtain ⟨res, scope⟩ := r; cases res <;> first | exact ih _ _ | rfl
    | string s =>
      simp only
      cases unpack_scope (.string s) with
      | none => rfl
      | some r => obtain ⟨res, scope⟩ := r; cases res <;> first | exact ih _ _ | rfl
    | array xs =>
      simp only
      cases unpack_scope (.array xs) with
      | none => rfl
      | some r => obtain ⟨res, scope⟩ := r; cases res <;> first | exact ih _ _ | rfl
    | object fs =>
      simp only
      cases unpack_scope (.object fs) with
      | none => rfl
      | some r => obtain ⟨res, scope⟩ := r; cases res <;> first | exact ih _ _ | rfl

theorem all_isString_eq_map (items : List json_object)
    (h : items.all json_object.isString = true) :
    items = (items.filterMap json_object.asString).map json_object.string := by
  induction items with
  | nil => rfl
  | cons item items ih =>
    simp only [List.all_cons, Bool.and_eq_true] at h
    cases item with
    | string s =>
      simp only [List.filterMap_cons, json_object.asString, List.map_cons]
      rw [← ih h.2]
    | null => exact absurd h.1 (by simp [json_object.isString])
    | boolean b => exact absurd h.1 (by simp [json_object.isString])
    | int i => exact absurd h.1 (by simp [json_object.isString])
    | array xs => exact absurd h.1 (by simp [json_object.isString])
    | object fs => exact absurd h.1 (by simp [json_object.isString])

theorem storePermissions_code (strs : List String) :
    ∀ scope : KineticProto_Command_Security_ACL_Scope,
      ((storePermissions strs scope).1 = ACL_ERROR_INVALID_FIELD ∧
        ∃ str, str ∈ strs ∧ cString str ∉ validPermissionNames) ∨
      ((storePermissions strs scope).1 = ACL_OK ∧
        (∀ str, str ∈ strs → cString str ∈ validPermissionNames) ∧
        (storePermissions strs scope).2 =
          { scope with
            n_permission := scope.n_permission + strs.length
            permission :=
              if strs = [] then scope.permission
              else some (scope.permission.getD [] ++ strs.map permission_of_str) }) := by
  induction strs with
  | nil =>
    intro scope
    exact Or.inr ⟨rfl, fun _ h => absurd h (List.not_mem_nil _), by simp [storePermissions]⟩
  | cons str strs ih =>
    intro scope
    by_cases hp : permission_of_str str = .INVALID_PERMISSION
    · refine Or.inl ⟨by simp only [storePermissions, hp, if_true], str, by simp, ?_⟩
      exact (permission_of_str_invalid_iff str).mp hp
    · have hvalid : cString str ∈ validPermissionNames := by
        by_contra hn
        exact hp ((permission_of_str_invalid_iff str).mpr hn)
      simp only [storePermissions, hp, if_false]
      rcases ih { scope with
          permission := some (scope.permission.getD [] ++ [permission_of_str str])
          n_permission := scope.n_permission + 1 } with ⟨h1, s, hs, hbad⟩ | ⟨h1, h2, h3⟩
      · exact Or.inl ⟨h1, s, List.mem_cons_of_mem _ hs, hbad⟩
      · refine Or.inr ⟨h1, ?_, ?_⟩
        · intro s hs
          rcases List.mem_cons.mp hs with rfl | hs'
          · exact hvalid
          · exact h2 s hs'
        · rw [h3]
          cases strs with
          | nil => simp
          | cons s2 rest =>
            simp only [List.length_cons, Option.getD_some, List.map_cons, List.append_assoc,
              List.singleton_append, if_false, reduceCtorEq]
            congr 1
            omega

theorem unpack_scope_permission_typed (cur_scope : json_object)
    (scope : KineticProto_Command_Security_ACL_Scope)
    (h : (match (json_object_object_get_ex cur_scope "permission").2 with
      | .array items => items.all json_object.isString
      | _ => true) = true) :
    unpack_scope_permission cur_scope scope = some (permissionOutcome cur_scope scope) := by
  unfold unpack_scope_permission permissionOutcome
  cases hg : json_object_object_get_ex cur_scope "permission" with
  | mk found val =>
    rw [hg] at h
    cases found with
    | false => rfl
    | true =>
      cases val with
      | null => rfl
      | boolean b => rfl
      | int i => rfl
      | object fs => rfl
      | string str =>
        simp only [json_object_get_type, if_true, json_object_get_string]
        by_cases hp : permission_of_str str = .INVALID_PERMISSION
        · simp only [hp, if_true]
        · simp only [hp, if_false]
      | array items =>
        simp only at h
        have hitems := all_isString_eq_map items h
        simp only [json_object_get_type, json_object_array_length, reduceCtorEq, if_false,
          if_true]
        have hloop := unpack_permissions_strings (items.filterMap json_object.asString) [] []
          [] { scope with n_permission := 0, permission := some [] }
        simp only [List.nil_append, List.append_nil, List.length_nil, List.length_map,
          ← hitems] at hloop
        have hlen : items.length = (items.filterMap json_object.asString).length := by
          conv_lhs => rw [hitems]
          simp
        rw [List.range_eq_range', hlen, hloop]
        rcases storePermissions_code (items.filterMap json_object.asString)
          { scope with n_permission := 0, permission := some [] } with ⟨h1, -⟩ | ⟨h1, -, -⟩
        · cases hs : storePermissions (items.filterMap json_object.asString)
            { scope with n_permission := 0, permission := some [] } with
          | mk res sc =>
            rw [hs] at h1
            simp only at h1
            subst h1
            rfl
        · cases hs : storePermissions (items.filterMap json_object.asString)
            { scope with n_permission := 0, permission := some [] } with
          | mk res sc =>
            rw [hs] at h1
            simp only at h1
            subst h1
            simp [unpack_permissions]

theorem unpack_scope_typed (cur_scope : json_object) (h : typedScope cur_scope = true) :
    unpack_scope cur_scope = some (scopeOutcome cur_scope) := by
  simp only [typedScope, Bool.and_eq_true, Bool.not_eq_true'] at h
  obtain ⟨⟨hoff, hval⟩, hperm⟩ := h
  have h1 : unpack_scope_offset cur_scope {} = some
      { has_offset := (json_object_object_get_ex cur_scope "offset").1
        offset := if (json_object_object_get_ex cur_scope "offset").1 then
          (json_object_get_int64 (json_object_object_get_ex cur_scope "offset").2).getD 0
          else 0 } := by
    unfold unpack_scope_offset
    cases hg : json_object_object_get_ex cur_scope "offset" with
    | mk found val =>
      rw [hg] at hoff
      cases found with
      | false => rfl
      | true =>
        cases val with
        | string s => exact absurd hoff (by simp [json_object.isString])
        | null => rfl
        | boolean b => rfl
        | int i => rfl
        | array xs => rfl
        | object fs => rfl
  have h2 : ∀ scope : KineticProto_Command_Security_ACL_Scope, scope.has_value = false →
      unpack_scope_value cur_scope scope = some
        (match json_object_object_get_ex cur_scope "value" with
          | (true, .string str) => { scope with value := copyCString str, has_value := true }
          | _ => scope) := by
    intro scope hs
    unfold unpack_scope_value
    cases hg : json_object_object_get_ex cur_scope "value" with
    | mk found val =>
      rw [hg] at hval
      cases found with
      | false =>
        simp only
        congr 1
        cases scope
        simp only at hs
        subst hs
        rfl
      | true =>
        cases val with
        | string s => rfl
        | null => rfl
        | boolean b => exact absurd hval (by simp)
        | int i => exact absurd hval (by simp)
        | array xs => exact absurd hval (by simp)
        | object fs => exact absurd hval (by simp)
  unfold unpack_scope
  rw [h1]
  simp only
  rw [h2 _ rfl]
  simp only
  have hb : (match json_object_object_get_ex cur_scope "value" with
      | (true, .string str) =>
        ({ has_offset := (json_object_object_get_ex cur_scope "offset").1
           offset := if (json_object_object_get_ex cur_scope "offset").1 then
             (json_object_get_int64 (json_object_object_get_ex cur_scope "offset").2).getD 0
             else 0
           value := copyCString str, has_value := true } :
          KineticProto_Command_Security_ACL_Scope)
      | _ =>
        { has_offset := (json_object_object_get_ex cur_scope "offset").1
          offset := if (json_object_object_get_ex cur_scope "offset").1 then
            (json_object_get_int64 (json_object_object_get_ex cur_scope "offset").2).getD 0
            else 0 }) = scopeBase cur_scope := by
    unfold scopeBase
    rfl
  rw [hb, unpack_scope_permission_typed cur_scope _ hperm]
  unfold scopeOutcome
  cases hp : permissionOutcome cur_scope (scopeBase cur_scope) with
  | mk res scope => cases res <;> rfl

theorem unpackScopeItems_typed (items : List json_object)
    (h : items.all typedScope = true) :
    ∀ acl : KineticProto_Command_Security_ACL,
      unpackScopeItems items acl = some (scopesOutcome items acl) := by
  induction items with
  | nil => intro acl; rfl
  | cons entry items ih =>
    intro acl
    simp only [List.all_cons, Bool.and_eq_true] at h
    have hu := unpack_scope_typed entry h.1
    cases entry with
    | null => exact ih h.2 acl
    | boolean b =>
      simp only [unpackScopeItems, scopesOutcome, hu]
      cases scopeOutcome (.boolean b) with
      | mk res scope => cases res <;> first | exact ih h.2 _ | rfl
    | int i =>
      simp only [unpackScopeItems, scopesOutcome, hu]
      cases scopeOutcome (.int i) with
      | mk res scope => cases res <;> first | exact ih h.2 _ | rfl
    | string s =>
      simp only [unpackScopeItems, scopesOutcome, hu]
      cases scopeOutcome (.string s) with
      | mk res scope => cases res <;> first | exact ih h.2 _ | rfl
    | array xs =>
      simp only [unpackScopeItems, scopesOutcome, hu]
      cases scopeOutcome (.array xs) with
      | mk res scope => cases res <;> first | exact ih h.2 _ | rfl
    | object fs =>
      simp only [unpackScopeItems, scopesOutcome, hu]
      cases scopeOutcome (.object fs) with
      | mk res scope => cases res <;> first | exact ih h.2 _ | rfl

theorem unpack_scopes_typed (items : List json_object) (h : items.all typedScope = true)
    (acl : KineticProto_Command_Security_ACL) :
    unpack_scopes acl items.length (.array items)
      = some (match scopesOutcome items { acl with scope := [] } with
          | (ACL_OK, acl') => (ACL_OK, { acl' with n_scope := items.length })
          | other => other) := by
  have hloop := unpack_scopes_loop_items items [] { acl with scope := [] }
  simp only [List.nil_append, List.length_nil] at hloop
  unfold unpack_scopes
  rw [List.range_eq_range', hloop, unpackScopeItems_typed items h]
  cases scopesOutcome items { acl with scope := [] } with
  | mk res acl' => cases res <;> rfl

theorem read_next_ACL_object_typed (obj : json_object) (h : typedRecord obj = true) :
    read_next_ACL_object obj = some (recordOutcome obj) := by
  simp only [typedRecord, Bool.and_eq_true, Bool.not_eq_true'] at h
  obtain ⟨⟨⟨hscope, hid⟩, hkey⟩, hhmac⟩ := h
  unfold read_next_ACL_object recordOutcome
  cases hg : json_object_object_get_ex obj "scope" with
  | mk found val =>
    rw [hg] at hscope
    cases found with
    | false => rfl
    | true =>
      cases val with
      | null => exact absurd hscope (by simp)
      | boolean b => exact absurd hscope (by simp)
      | int i => exact absurd hscope (by simp)
      | string s => exact absurd hscope (by simp)
      | object fs => exact absurd hscope (by simp)
      | array scopes =>
        simp only at hscope
        have h1 : read_next_ACL_identity obj {} = some
            { has_identity := (json_object_object_get_ex obj "identity").1
              identity := if (json_object_object_get_ex obj "identity").1 then
                (json_object_get_int64 (json_object_object_get_ex obj "identity").2).getD 0
                else 0 } := by
          unfold read_next_ACL_identity
          cases hi : json_object_object_get_ex obj "identity" with
          | mk found val =>
            rw [hi] at hid
            cases found with
            | false => rfl
            | true =>
              cases val with
              | string s => exact absurd hid (by simp [json_object.isString])
              | null => rfl
              | boolean b => rfl
              | int i => rfl
              | array xs => rfl
              | object fs => rfl
        have h2 : ∀ acl : KineticProto_Command_Security_ACL,
            read_next_ACL_key obj acl = some
              (match json_object_object_get_ex obj "key" with
                | (true, .string key) =>
                  { acl with
                    has_hmacAlgorithm := true
                    hmacAlgorithm := .HmacSHA1
                    key := copyCString key
                    has_key := true }
                | _ => acl) := by
          intro acl
          unfold read_next_ACL_key
          cases hk : json_object_object_get_ex obj "key" with
          | mk found val =>
            rw [hk] at hkey
            cases found with
            | false => rfl
            | true =>
              cases val with
              | string s => rfl
              | null => exact absurd hkey (by simp [json_object.isString])
              | boolean b => exact absurd hkey (by simp [json_object.isString])
              | int i => exact absurd hkey (by simp [json_object.isString])
              | array xs => exact absurd hkey (by simp [json_object.isString])
              | object fs => exact absurd hkey (by simp [json_object.isString])
        have hb : (match json_object_object_get_ex obj "key" with
            | (true, .string key) =>
              ({ has_identity := (json_object_object_get_ex obj "identity").1
                 identity := if (json_object_object_get_ex obj "identity").1 then
                   (json_object_get_int64 (json_object_object_get_ex obj "identity").2).getD 0
                   else 0
                 has_hmacAlgorithm := true
                 hmacAlgorithm := .HmacSHA1
                 key := copyCString key
                 has_key := true } : KineticProto_Command_Security_ACL)
            | _ =>
              { has_identity := (json_object_object_get_ex obj "identity").1
                identity := if (json_object_object_get_ex obj "identity").1 then
                  (json_object_get_int64 (json_object_object_get_ex obj "identity").2).getD 0
                  else 0 }) = recordBase obj := by
          unfold recordBase
          rfl
        have hempty : ({ recordBase obj with scope := [] } : KineticProto_Command_Security_ACL)
            = recordBase obj := by
          unfold recordBase
          cases json_object_object_get_ex obj "key" with
          | mk found val =>
            cases found with
            | false => rfl
            | true => cases val <;> rfl
        simp only [json_object_array_length, h1, h2, hb]
        have hs := unpack_scopes_typed scopes hscope (recordBase obj)
        rw [hempty] at hs
        unfold read_next_ACL_HMACAlgorithm
        cases hh : json_object_object_get_ex obj "HMACAlgorithm" with
        | mk found val =>
          rw [hh] at hhmac
          cases found with
          | false =>
            simp only [hs]
            cases scopesOutcome scopes (recordBase obj) with
            | mk res acl => cases res <;> rfl
          | true =>
            cases val with
            | null => exact absurd hhmac (by simp [json_object.isString])
            | boolean b => exact absurd hhmac (by simp [json_object.isString])
            | int i => exact absurd hhmac (by simp [json_object.isString])
            | array xs => exact absurd hhmac (by simp [json_object.isString])
            | object fs => exact absurd hhmac (by simp [json_object.isString])
            | string hmac =>
              simp only [json_object_get_string]
              cases hcmp : (0 == strcmp hmac "HmacSHA1") with
              | true =>
                have hb2 : (0 != strcmp hmac "HmacSHA1") = false := by
                  simp only [bne, hcmp, Bool.not_true]
                simp only [hb2, Bool.false_eq_true, if_false, hs]
                cases scopesOutcome scopes (recordBase obj) with
                | mk res acl => cases res <;> rfl
              | false =>
                have hb2 : (0 != strcmp hmac "HmacSHA1") = true := by
                  simp only [bne, hcmp, Bool.not_false]
                simp only [hb2, if_true]

theorem permissionOutcome_code (cur_scope : json_object)
    (scope : KineticProto_Command_Security_ACL_Scope) :
    (permissionOutcome cur_scope scope).1 = ACL_OK ∨
    (permissionOutcome cur_scope scope).1 = ACL_ERROR_INVALID_FIELD := by
  unfold permissionOutcome
  cases json_object_object_get_ex cur_scope "permission" with
  | mk found val =>
    cases found with
    | false => exact Or.inl rfl
    | true =>
      cases val with
      | null => exact Or.inr rfl
      | boolean b => exact Or.inr rfl
      | int i => exact Or.inr rfl
      | object fs => exact Or.inr rfl
      | string str =>
        by_cases hp : permission_of_str str = .INVALID_PERMISSION
        · simp [hp]
        · simp [hp]
      | array items =>
        rcases storePermissions_code (items.filterMap json_object.asString)
          { scope with n_permission := 0, permission := some [] } with ⟨h, -⟩ | ⟨h, -, -⟩
        · exact Or.inr h
        · exact Or.inl h

theorem scopeOutcome_code (cur_scope : json_object) :
    ((scopeOutcome cur_scope).1 = ACL_OK ∧
      (permissionOutcome cur_scope (scopeBase cur_scope)).1 = ACL_OK ∧
      (scopeOutcome cur_scope).2 = unpack_scope_TlsRequired cur_scope
        (permissionOutcome cur_scope (scopeBase cur_scope)).2) ∨
    ((scopeOutcome cur_scope).1 = ACL_ERROR_INVALID_FIELD ∧
      (permissionOutcome cur_scope (scopeBase cur_scope)).1 = ACL_ERROR_INVALID_FIELD) := by
  unfold scopeOutcome
  rcases permissionOutcome_code cur_scope (scopeBase cur_scope) with h | h
  · cases hp : permissionOutcome cur_scope (scopeBase cur_scope) with
    | mk res scope =>
      rw [hp] at h
      simp only at h
      subst h
      exact Or.inl ⟨rfl, rfl, rfl⟩
  · cases hp : permissionOutcome cur_scope (scopeBase cur_scope) with
    | mk res scope =>
      rw [hp] at h
      simp only at h
      subst h
      exact Or.inr ⟨rfl, rfl⟩

theorem scopesOutcome_step (entry : json_object) (rest : List json_object)
    (acl : KineticProto_Command_Security_ACL) :
    scopesOutcome (entry :: rest) acl =
      if entry.isNull then scopesOutcome rest acl
      else if (scopeOutcome entry).1 = ACL_OK then
        scopesOutcome rest
          { acl with scope := acl.scope ++ [(scopeOutcome entry).2], n_scope := acl.n_scope + 1 }
      else ((scopeOutcome entry).1, acl) := by
  cases entry with
  | null => rfl
  | boolean b =>
    simp only [scopesOutcome, json_object.isNull, Bool.false_eq_true, if_false]
    cases scopeOutcome (.boolean b) with
    | mk res scope => cases res <;> rfl
  | int i =>
    simp only [scopesOutcome, json_object.isNull, Bool.false_eq_true, if_false]
    cases scopeOutcome (.int i) with
    | mk res scope => cases res <;> rfl
  | string s =>
    simp only [scopesOutcome, json_object.isNull, Bool.false_eq_true, if_false]
    cases scopeOutcome (.string s) with
    | mk res scope => cases res <;> rfl
  | array xs =>
    simp only [scopesOutcome, json_object.isNull, Bool.false_eq_true, if_false]
    cases scopeOutcome (.array xs) with
    | mk res scope => cases res <;> rfl
  | object fs =>
    simp only [scopesOutcome, json_object.isNull, Bool.false_eq_true, if_false]
    cases scopeOutcome (.object fs) with
    | mk res scope => cases res <;> rfl

theorem scopeOutcome_null : (scopeOutcome json_object.null).1 = ACL_OK := rfl

theorem scopesOutcome_spec (items : List json_object) :
    ∀ acl : KineticProto_Command_Security_ACL,
      ((scopesOutcome items acl).2.has_identity = acl.has_identity ∧
        (scopesOutcome items acl).2.identity = acl.identity ∧
        (scopesOutcome items acl).2.has_key = acl.has_key ∧
        (scopesOutcome items acl).2.key = acl.key ∧
        (scopesOutcome items acl).2.has_hmacAlgorithm = acl.has_hmacAlgorithm ∧
        (scopesOutcome items acl).2.hmacAlgorithm = acl.hmacAlgorithm) ∧
      (((scopesOutcome items acl).1 = ACL_OK ∧
          (∀ s, s ∈ items → (scopeOutcome s).1 = ACL_OK) ∧
          (scopesOutcome items acl).2.scope = acl.scope ++
            (items.filter fun s => !s.isNull).map (fun s => (scopeOutcome s).2) ∧
          (scopesOutcome items acl).2.n_scope = acl.n_scope +
            (items.filter fun s => !s.isNull).length) ∨
        ((scopesOutcome items acl).1 = ACL_ERROR_INVALID_FIELD ∧
          ∃ s, s ∈ items ∧ (scopeOutcome s).1 = ACL_ERROR_INVALID_FIELD)) := by
  induction items with
  | nil =>
    intro acl
    exact ⟨⟨rfl, rfl, rfl, rfl, rfl, rfl⟩,
      Or.inl ⟨rfl, fun _ h => absurd h (List.not_mem_nil _), by simp [scopesOutcome],
        by simp [scopesOutcome]⟩⟩
  | cons entry rest ih =>
    intro acl
    rw [scopesOutcome_step]
    by_cases hnull : entry.isNull = true
    · have hentry : entry = json_object.null := by
        cases entry <;> first | rfl | exact absurd hnull (by simp [json_object.isNull])
      rw [if_pos hnull]
      obtain ⟨hf, hcase⟩ := ih acl
      refine ⟨hf, ?_⟩
      rcases hcase with ⟨h1, h2, h3, h4⟩ | ⟨h1, s, hs, hbad⟩
      · refine Or.inl ⟨h1, ?_, ?_, ?_⟩
        · intro s hs
          rcases List.mem_cons.mp hs with rfl | hs'
          · rw [hentry]; exact scopeOutcome_null
          · exact h2 s hs'
        · rw [h3]; simp [List.filter, hnull]
        · rw [h4]; simp [List.filter, hnull]
      · exact Or.inr ⟨h1, s, List.mem_cons_of_mem _ hs, hbad⟩
    · rw [if_neg hnull]
      have hnull' : entry.isNull = false := by simpa using hnull
      rcases scopeOutcome_code entry with ⟨hok, -, -⟩ | ⟨hbad, -⟩
      · rw [if_pos hok]
        obtain ⟨hf, hcase⟩ := ih
          { acl with scope := acl.scope ++ [(scopeOutcome entry).2], n_scope := acl.n_scope + 1 }
        refine ⟨hf, ?_⟩
        rcases hcase with ⟨h1, h2, h3, h4⟩ | ⟨h1, s, hs, hbad⟩
        · refine Or.inl ⟨h1, ?_, ?_, ?_⟩
          · intro s hs
            rcases List.mem_cons.mp hs with rfl | hs'
            · exact hok
            · exact h2 s hs'
          · rw [h3]; simp [List.filter, hnull']
          · rw [h4]; simp [List.filter, hnull']; omega
        · exact Or.inr ⟨h1, s, List.mem_cons_of_mem _ hs, hbad⟩
      · rw [if_neg (by rw [hbad]; decide)]
        exact ⟨⟨rfl, rfl, rfl, rfl, rfl, rfl⟩, Or.inr ⟨hbad, entry, by simp, hbad⟩⟩

theorem scopesOutcome_invalid (items : List json_object)
    (acl : KineticProto_Command_Security_ACL) (s : json_object) (hs : s ∈ items)
    (hbad : (scopeOutcome s).1 = ACL_ERROR_INVALID_FIELD) :
    (scopesOutcome items acl).1 = ACL_ERROR_INVALID_FIELD := by
  rcases (scopesOutcome_spec items acl).2 with ⟨-, h2, -, -⟩ | ⟨h1, -⟩
  · have := h2 s hs
    rw [hbad] at this
    exact absurd this (by decide)
  · exact h1

theorem scopesOutcome_ok (items : List json_object)
    (acl : KineticProto_Command_Security_ACL)
    (hall : ∀ s, s ∈ items → (scopeOutcome s).1 = ACL_OK) :
    (scopesOutcome items acl).1 = ACL_OK := by
  rcases (scopesOutcome_spec items acl).2 with ⟨h1, -⟩ | ⟨-, s, hs, hbad⟩
  · exact h1
  · have := hall s hs
    rw [hbad] at this
    exact absurd this (by decide)

theorem recordOutcome_invalid (obj : json_object) (scopes : List json_object)
    (hscope : json_object_object_get_ex obj "scope" = (true, .array scopes))
    (hbad : (scopesOutcome scopes (recordBase obj)).1 = ACL_ERROR_INVALID_FIELD) :
    recordOutcome obj = (ACL_ERROR_INVALID_FIELD, none) := by
  unfold recordOutcome
  rw [hscope]
  have hs : (match scopesOutcome scopes (recordBase obj) with
      | (ACL_OK, acl) => (ACL_OK, some { acl with n_scope := scopes.length })
      | (res, _) => (res, none)) = (ACL_ERROR_INVALID_FIELD, none) := by
    cases hp : scopesOutcome scopes (recordBase obj) with
    | mk res acl =>
      rw [hp] at hbad
      simp only at hbad
      subst hbad
      rfl
  cases json_object_object_get_ex obj "HMACAlgorithm" with
  | mk found val =>
    cases found with
    | false => exact hs
    | true =>
      cases val with
      | string hmac =>
        simp only
        by_cases hne : (0 != strcmp hmac "HmacSHA1") = true
        · rw [if_pos hne]
        · rw [if_neg hne]; exact hs
      | null => exact hs
      | boolean b => exact hs
      | int i => exact hs
      | array xs => exact hs
      | object fs => exact hs

theorem recordOutcome_ok (obj : json_object) (scopes : List json_object)
    (hscope : json_object_object_get_ex obj "scope" = (true, .array scopes))
    (hhmac : (json_object_object_get_ex obj "HMACAlgorithm").1 = false ∨
      json_object_object_get_ex obj "HMACAlgorithm" = (true, .string "HmacSHA1"))
    (hok : (scopesOutcome scopes (recordBase obj)).1 = ACL_OK) :
    recordOutcome obj = (ACL_OK,
      some { (scopesOutcome scopes (recordBase obj)).2 with n_scope := scopes.length }) := by
  unfold recordOutcome
  rw [hscope]
  have hs : (match scopesOutcome scopes (recordBase obj) with
      | (ACL_OK, acl) => (ACL_OK, some { acl with n_scope := scopes.length })
      | (res, _) => (res, none)) = (ACL_OK,
      some { (scopesOutcome scopes (recordBase obj)).2 with n_scope := scopes.length }) := by
    cases hp : scopesOutcome scopes (recordBase obj) with
    | mk res acl =>
      rw [hp] at hok
      simp only at hok
      subst hok
      rfl
  rcases hhmac with habs | hpres
  · cases hg : json_object_object_get_ex obj "HMACAlgorithm" with
    | mk found val =>
      rw [hg] at habs
      simp only at habs
      subst habs
      exact hs
  · rw [hpres]
    have hcmp : (0 != strcmp "HmacSHA1" "HmacSHA1") = false := by decide
    simp only [hcmp, Bool.false_eq_true, if_false]
    exact hs

theorem permissionRejected_outcome (cur_scope : json_object)
    (scope : KineticProto_Command_Security_ACL_Scope) (hbad : PermissionRejected cur_scope) :
    (permissionOutcome cur_scope scope).1 = ACL_ERROR_INVALID_FIELD := by
  unfold PermissionRejected at hbad
  unfold permissionOutcome
  cases hg : json_object_object_get_ex cur_scope "permission" with
  | mk found val =>
    rw [hg] at hbad
    cases found with
    | false => exact absurd hbad (by simp)
    | true =>
      cases val with
      | null => rfl
      | boolean b => rfl
      | int i => rfl
      | object fs => rfl
      | string str =>
        simp only at hbad
        have hp := (permission_of_str_invalid_iff str).mpr hbad
        simp [hp]
      | array items =>
        simp only at hbad
        obtain ⟨str, hmem, hinv⟩ := hbad
        have hmem' : str ∈ items.filterMap json_object.asString :=
          List.mem_filterMap.mpr ⟨_, hmem, rfl⟩
        rcases storePermissions_code (items.filterMap json_object.asString)
          { scope with n_permission := 0, permission := some [] } with ⟨h, -⟩ | ⟨-, h, -⟩
        · exact h
        · exact absurd (h str hmem') hinv

/-- C12 (as amended): permission names are compared as C strings, that is up
to their first NUL. For a scope entry of the typed shape whose `permission`
field is a string whose C string is outside the eight valid names (`"INVALID"`
is outside), an array holding such a string, or a value that is neither a
string nor an array, `unpack_scopes` ends the entry with
`ACL_ERROR_INVALID_FIELD`, and `read_next_ACL` returns
`ACL_ERROR_INVALID_FIELD` with no record for every typed ACL object whose
scope array contains the entry. -/
theorem invalid_permission_is_invalid_field (cur_scope : json_object)
    (htyped : typedScope cur_scope = true) (hbad : PermissionRejected cur_scope) :
    "INVALID" ∉ validPermissionNames ∧
    (∃ scope, unpack_scope cur_scope = some (ACL_ERROR_INVALID_FIELD, scope)) ∧
    ∀ obj scopes, typedRecord obj = true →
      json_object_object_get_ex obj "scope" = (true, .array scopes) → cur_scope ∈ scopes →
      read_next_ACL_object obj = some (ACL_ERROR_INVALID_FIELD, none) := by
  have hperm := permissionRejected_outcome cur_scope (scopeBase cur_scope) hbad
  have hout : (scopeOutcome cur_scope).1 = ACL_ERROR_INVALID_FIELD := by
    rcases scopeOutcome_code cur_scope with ⟨-, h, -⟩ | ⟨h, -⟩
    · rw [hperm] at h
      exact absurd h (by decide)
    · exact h
  refine ⟨by decide, ?_, ?_⟩
  · rw [unpack_scope_typed cur_scope htyped]
    cases hs : scopeOutcome cur_scope with
    | mk res scope =>
      rw [hs] at hout
      simp only at hout
      subst hout
      exact ⟨scope, rfl⟩
  · intro obj scopes hrec hscope hmem
    rw [read_next_ACL_object_typed obj hrec,
      recordOutcome_invalid obj scopes hscope
        (scopesOutcome_invalid scopes _ cur_scope hmem hout)]

/-- C12 witness: a permission array naming `INVALID` after a valid name, in
the second scope of an object. -/
theorem invalid_permission_is_invalid_field_witness :
    read_next_ACL_object
        (.object [("scope", .array [.object [("permission", .string "READ")],
          invalidPermissionScope])])
      = some (ACL_ERROR_INVALID_FIELD, none) :=
  (invalid_permission_is_invalid_field invalidPermissionScope rfl
    ⟨"INVALID", by simp, by decide⟩).2.2 _ _ rfl rfl (by simp)

/-- C12 counterexample: a scope whose permission is `READ`, a NUL and `junk`.
The string is outside the eight names, yet `permission_of_str` finds `READ`:
the scope is unpacked with `ACL_OK` and `READ` stored, and `read_next_ACL` and
`acl_of_string` return `ACL_OK`. -/
theorem permission_nul_suffix_accepted :
    json_object_object_get_ex nulPermissionScope "permission"
      = (true, .string "READ\x00junk") ∧
    "READ\x00junk" ∉ validPermissionNames ∧
    permission_of_str "READ\x00junk" = KineticProto_Command_Security_ACL_Permission.READ ∧
    unpack_scope nulPermissionScope
      = some (ACL_OK, { n_permission := 1, permission := some [.READ] }) ∧
    read_next_ACL_object nulPermissionObject = some (ACL_OK, some nulPermissionRecord) ∧
    acl_of_string (singleObjectTokener nulPermissionObject) (List.replicate 12 32) 12
      = some (ACL_OK,
          some { ACL_ceil := 1, ACL_count := 1, ACLs := [nulPermissionRecord] }) :=
  ⟨rfl, by decide, rfl, rfl, rfl,
    acl_of_string_single nulPermissionObject nulPermissionRecord 11 rfl⟩

theorem recordBase_scope (obj : json_object) :
    (recordBase obj).scope = [] ∧ (recordBase obj).n_scope = 0 := by
  unfold recordBase
  cases json_object_object_get_ex obj "key" with
  | mk found val =>
    cases found with
    | false => exact ⟨rfl, rfl⟩
    | true => cases val <;> exact ⟨rfl, rfl⟩

theorem typedRecord_scopes (obj : json_object) (scopes : List json_object)
    (htyped : typedRecord obj = true)
    (hscope : json_object_object_get_ex obj "scope" = (true, .array scopes)) :
    ∀ s, s ∈ scopes → typedScope s = true := by
  simp only [typedRecord, hscope, Bool.and_eq_true] at htyped
  exact fun s hs => List.all_eq_true.mp htyped.1.1.1 s hs

theorem scopeOutcome_no_permission (cur_scope : json_object)
    (habsent : (json_object_object_get_ex cur_scope "permission").1 = false) :
    (scopeOutcome cur_scope).1 = ACL_OK ∧ (scopeOutcome cur_scope).2.n_permission = 0 ∧
    (scopeOutcome cur_scope).2.permission = none := by
  have hperm : permissionOutcome cur_scope (scopeBase cur_scope)
      = (ACL_OK, { scopeBase cur_scope with n_permission := 0 }) := by
    unfold permissionOutcome
    cases hg : json_object_object_get_ex cur_scope "permission" with
    | mk found val =>
      rw [hg] at habsent
      simp only at habsent
      subst habsent
      rfl
  have hbase : (scopeBase cur_scope).permission = none := by
    unfold scopeBase
    cases json_object_object_get_ex cur_scope "value" with
    | mk found val =>
      cases found with
      | false => rfl
      | true => cases val <;> rfl
  have htls : ∀ scope : KineticProto_Command_Security_ACL_Scope,
      (unpack_scope_TlsRequired cur_scope scope).n_permission = scope.n_permission ∧
      (unpack_scope_TlsRequired cur_scope scope).permission = scope.permission := by
    intro scope
    unfold unpack_scope_TlsRequired
    cases json_object_object_get_ex cur_scope "TlsRequired" with
    | mk found val => cases found <;> exact ⟨rfl, rfl⟩
  unfold scopeOutcome
  rw [hperm]
  exact ⟨rfl, (htls _).1, (htls _).2.trans hbase⟩

/-- C13 (as amended): the `permission` field of a scope is optional in the
parser. For a typed ACL object whose `HMACAlgorithm` is absent or `"HmacSHA1"`
and whose scopes all lack a `permission` field, every scope entry is unpacked
with `ACL_OK`, `n_permission = 0` and no permission array, and `read_next_ACL`
returns `ACL_OK` with a record whose scopes all have `n_permission = 0`. -/
theorem missing_permission_is_accepted (obj : json_object) (scopes : List json_object)
    (htyped : typedRecord obj = true)
    (hscope : json_object_object_get_ex obj "scope" = (true, .array scopes))
    (hhmac : (json_object_object_get_ex obj "HMACAlgorithm").1 = false ∨
      json_object_object_get_ex obj "HMACAlgorithm" = (true, .string "HmacSHA1"))
    (habsent : ∀ s, s ∈ scopes → (json_object_object_get_ex s "permission").1 = false) :
    (∀ s, s ∈ scopes → ∃ scope, unpack_scope s = some (ACL_OK, scope) ∧
      scope.n_permission = 0 ∧ scope.permission = none) ∧
    ∃ record, read_next_ACL_object obj = some (ACL_OK, some record) ∧
      ∀ scope, scope ∈ record.scope → scope.n_permission = 0 := by
  have htypedScopes := typedRecord_scopes obj scopes htyped hscope
  constructor
  · intro s hs
    obtain ⟨h1, h2, h3⟩ := scopeOutcome_no_permission s (habsent s hs)
    rw [unpack_scope_typed s (htypedScopes s hs)]
    cases ho : scopeOutcome s with
    | mk res scope =>
      rw [ho] at h1 h2 h3
      simp only at h1 h2 h3
      subst h1
      exact ⟨scope, rfl, h2, h3⟩
  · have hall : ∀ s, s ∈ scopes → (scopeOutcome s).1 = ACL_OK :=
      fun s hs => (scopeOutcome_no_permission s (habsent s hs)).1
    have hok := scopesOutcome_ok scopes (recordBase obj) hall
    rw [read_next_ACL_object_typed obj htyped, recordOutcome_ok obj scopes hscope hhmac hok]
    refine ⟨_, rfl, ?_⟩
    intro scope hmem
    rcases (scopesOutcome_spec scopes (recordBase obj)).2 with ⟨-, -, h3, -⟩ | ⟨h1, -⟩
    · simp only at hmem
      rw [h3, (recordBase_scope obj).1, List.nil_append] at hmem
      obtain ⟨s, hs, rfl⟩ := List.mem_map.mp hmem
      exact (scopeOutcome_no_permission s (habsent s (List.mem_filter.mp hs).1)).2.1
    · rw [hok] at h1
      exact absurd h1 (by decide)

/-- C13 witness: an object whose only scope has no `permission` field. -/
theorem missing_permission_is_accepted_witness :
    ∃ record, read_next_ACL_object noPermissionObject = some (ACL_OK, some record) ∧
      ∀ scope, scope ∈ record.scope → scope.n_permission = 0 :=
  (missing_permission_is_accepted noPermissionObject [.object [("offset", .int 0)]] rfl rfl
    (Or.inl rfl) (fun s hs => by
      rcases List.mem_singleton.mp hs with rfl
      rfl)).2

/-- C13 counterexample: a document whose single object has a scope with no
`permission` field; `acl_of_string` returns `ACL_OK` and stores the record,
with `n_permission = 0`. -/
theorem acl_of_string_accepts_missing_permission :
    (json_object_object_get_ex (.object [("offset", .int 0)]) "permission").1 = false ∧
    acl_of_string (singleObjectTokener noPermissionObject) (List.replicate 12 32) 12
      = some (ACL_OK, some { ACL_ceil := 1, ACL_count := 1, ACLs := [noPermissionRecord] }) :=
  ⟨rfl, acl_of_string_single noPermissionObject noPermissionRecord 11 rfl⟩

/-- C14 (the code at the failing input): a scope whose permission array holds
17 valid names. No bound is checked: `acl_of_string` returns `ACL_OK` with
`n_permission = 17`, more than `ACL_MAX_PERMISSIONS = 16`, the seventeenth
permission having been written to slot 16 of the 16-slot array. -/
theorem acl_of_string_seventeen_permissions :
    ACL_MAX_PERMISSIONS = 16 ∧
    acl_of_string (singleObjectTokener seventeenPermissionsObject) (List.replicate 12 32) 12
      = some (ACL_OK,
          some { ACL_ceil := 1, ACL_count := 1, ACLs := [seventeenPermissionsRecord] }) ∧
    seventeenPermissionsRecord.scope.map (fun scope => scope.n_permission) = [17] ∧
    seventeenPermissionsRecord.scope.map
        (fun scope => (scope.permission.getD []).get? 16)
      = [some KineticProto_Command_Security_ACL_Permission.READ] :=
  ⟨rfl, acl_of_string_single seventeenPermissionsObject seventeenPermissionsRecord 11 rfl,
    rfl, rfl⟩

theorem acl_of_string_loop_reads_then_fails (tokener : json_tokener) (buf : List Nat)
    (buf_size : Nat) (final : json_tokener_result) (code : KineticACLLoadResult)
    (hfinal : (final = .error_parse_eof ∧ code = ACL_END_OF_STREAM) ∨
      (final = .error_other ∧ code = ACL_ERROR_BAD_JSON))
    (objs : List json_object) :
    ∀ (records : List KineticProto_Command_Security_ACL) (offset : Nat) (acl_group : ACL)
      (res : KineticACLLoadResult),
      ReadsThenFails tokener buf buf_size offset objs final →
      List.Forall₂ BuildsRecord objs records →
      acl_of_string_loop tokener buf buf_size offset acl_group res
        = some (code, records.foldl acl_store acl_group) := by
  induction objs with
  | nil =>
    intro records offset acl_group res hreads hrec
    cases hrec
    obtain ⟨hlt, htok⟩ := hreads
    have hread : read_next_ACL buf buf_size offset tokener = some (code, 0, none) := by
      rcases hfinal with ⟨hf, hc⟩ | ⟨hf, hc⟩
      · subst hf; subst hc; simp only [read_next_ACL, htok]
      · subst hf; subst hc; simp only [read_next_ACL, htok]
    have hne : code ≠ ACL_OK := by
      rcases hfinal with ⟨-, hc⟩ | ⟨-, hc⟩ <;> (subst hc; decide)
    exact acl_of_string_loop_error tokener buf buf_size offset acl_group res code 0 none hlt
      hread hne
  | cons obj rest ih =>
    intro records offset acl_group res hreads hrec
    cases hrec with
    | cons hobj hrest =>
      rename_i record records
      obtain ⟨char_offset, htok, hpos, hle, hreads'⟩ := hreads
      unfold BuildsRecord at hobj
      have hread : read_next_ACL buf buf_size offset tokener
          = some (ACL_OK, char_offset, some record) :=
        read_next_ACL_built tokener buf buf_size offset char_offset obj record htok hobj
      unfold acl_of_string_loop
      rw [if_pos (by omega)]
      simp only [hread]
      rw [if_neg (by omega)]
      exact ih records (offset + char_offset) (acl_store acl_group record) ACL_OK hreads' hrest

theorem acl_store_foldl_count_pos (records : List KineticProto_Command_Security_ACL)
    (hne : records ≠ []) : (records.foldl acl_store emptyACLGroup).ACL_count ≠ 0 := by
  obtain ⟨h1, -, -⟩ := acl_store_foldl records emptyACLGroup (Nat.le_refl 1) (Nat.zero_le 1)
  rw [h1]
  cases records with
  | nil => exact absurd rfl hne
  | cons r rs => simp

/-- C15 (as amended): let the tokener read the objects `objs`, all valid, and
then fail on the bytes that are left. If it fails with an error other than
`json_tokener_error_parse_eof`, `acl_of_string` returns `ACL_ERROR_BAD_JSON`
and stores nothing, however many objects were read before. If it reports
`json_tokener_error_parse_eof`, `acl_of_string` takes the stream as ended:
`ACL_OK` with the records read when there is at least one, and
`ACL_ERROR_BAD_JSON` when there is none. -/
theorem tokener_failure_after_objects (tokener : json_tokener) (buf : List Nat)
    (buf_size : Nat) (objs : List json_object)
    (records : List KineticProto_Command_Security_ACL) (final : json_tokener_result)
    (hreads : ReadsThenFails tokener buf buf_size 0 objs final)
    (hrec : List.Forall₂ BuildsRecord objs records) :
    (final = .error_other →
      acl_of_string tokener buf buf_size = some (ACL_ERROR_BAD_JSON, none)) ∧
    (final = .error_parse_eof → objs = [] →
      acl_of_string tokener buf buf_size = some (ACL_ERROR_BAD_JSON, none)) ∧
    (final = .error_parse_eof → objs ≠ [] →
      acl_of_string tokener buf buf_size
        = some (ACL_OK, some (records.foldl acl_store emptyACLGroup))) := by
  refine ⟨fun hf => ?_, fun hf hnil => ?_, fun hf hne => ?_⟩
  · have hloop := acl_of_string_loop_reads_then_fails tokener buf buf_size final
      ACL_ERROR_BAD_JSON (Or.inr ⟨hf, rfl⟩) objs records 0
      { ACL_ceil := 1, ACL_count := 0, ACLs := [] } ACL_ERROR_MEMORY hreads hrec
    simp only [acl_of_string, hloop]
    rfl
  · have hloop := acl_of_string_loop_reads_then_fails tokener buf buf_size final
      ACL_END_OF_STREAM (Or.inl ⟨hf, rfl⟩) objs records 0
      { ACL_ceil := 1, ACL_count := 0, ACLs := [] } ACL_ERROR_MEMORY hreads hrec
    subst hnil
    cases hrec
    simp only [acl_of_string, hloop]
    rfl
  · have hloop := acl_of_string_loop_reads_then_fails tokener buf buf_size final
      ACL_END_OF_STREAM (Or.inl ⟨hf, rfl⟩) objs records 0
      { ACL_ceil := 1, ACL_count := 0, ACLs := [] } ACL_ERROR_MEMORY hreads hrec
    have hrne : records ≠ [] := by
      intro h
      subst h
      cases hrec
      exact hne rfl
    have hcount := acl_store_foldl_count_pos records hrne
    have hcount' : (records.foldl acl_store { ACL_ceil := 1, ACL_count := 0, ACLs := [] }).ACL_count
        ≠ 0 := hcount
    simp only [acl_of_string, hloop, true_or, if_true, if_neg hcount']
    rfl

/-- C15 witness: after one complete object the buffer runs out inside the next
one and the tokener fails with another error than `parse_eof`: the result is
`ACL_ERROR_BAD_JSON`. -/
theorem tokener_failure_after_objects_witness :
    acl_of_string truncatedAfterFirstTokener (List.replicate 20 32) 20
      = some (ACL_ERROR_BAD_JSON, none) :=
  (tokener_failure_after_objects truncatedAfterFirstTokener (List.replicate 20 32) 20
    [s4Object "HmacSHA1"] [s4Record] json_tokener_result.error_other
    ⟨12, rfl, by decide, by decide, by decide, rfl⟩
    (List.Forall₂.cons rfl List.Forall₂.nil)).1 rfl

/-- C15 counterexample: after one complete object the tokener meets the end
of the data before the next object is complete and reports
`json_tokener_error_parse_eof`; `acl_of_string` returns `ACL_OK` with the one
record read before. -/
theorem acl_of_string_eof_inside_object :
    eofAfterFirstTokener ((List.replicate 20 32).drop 12)
      = json_tokener_result.error_parse_eof ∧
    acl_of_string eofAfterFirstTokener (List.replicate 20 32) 20
      = some (ACL_OK, some { ACL_ceil := 1, ACL_count := 1, ACLs := [s4Record] }) := by
  refine ⟨rfl, ?_⟩
  have hloop := acl_of_string_loop_reads_then_fails eofAfterFirstTokener
    (List.replicate 20 32) 20 json_tokener_result.error_parse_eof ACL_END_OF_STREAM
    (Or.inl ⟨rfl, rfl⟩) [s4Object "HmacSHA1"] [s4Record] 0
    { ACL_ceil := 1, ACL_count := 0, ACLs := [] } ACL_ERROR_MEMORY
    ⟨12, rfl, by decide, by decide, by decide, rfl⟩
    (List.Forall₂.cons rfl List.Forall₂.nil)
  simp only [acl_of_string, hloop]
  rfl

/-! ### ACL documents: identity and key -/

theorem unpackScopeItems_step (entry : json_object) (rest : List json_object)
    (acl : KineticProto_Command_Security_ACL) :
    unpackScopeItems (entry :: rest) acl =
      if entry.isNull then unpackScopeItems rest acl
      else
        match unpack_scope entry with
        | none => none
        | some (ACL_OK, scope) =>
          unpackScopeItems rest
            { acl with scope := acl.scope ++ [scope], n_scope := acl.n_scope + 1 }
        | some (res, _) => some (res, acl) := by
  cases entry <;> rfl

theorem unpackScopeItems_frame (items : List json_object) :
    ∀ (acl acl' : KineticProto_Command_Security_ACL) (res : KineticACLLoadResult),
      unpackScopeItems items acl = some (res, acl') → SameCredentials acl' acl := by
  induction items with
  | nil =>
    intro acl acl' res h
    simp only [unpackScopeItems, Option.some.injEq, Prod.mk.injEq] at h
    rw [← h.2]
    exact ⟨rfl, rfl, rfl, rfl, rfl, rfl⟩
  | cons entry rest ih =>
    intro acl acl' res h
    rw [unpackScopeItems_step] at h
    by_cases hnull : entry.isNull = true
    · rw [if_pos hnull] at h
      exact ih acl acl' res h
    · rw [if_neg hnull] at h
      cases hu : unpack_scope entry with
      | none => rw [hu] at h; cases h
      | some r =>
        obtain ⟨code, scope⟩ := r
        rw [hu] at h
        cases code with
        | ACL_OK =>
          simp only at h
          have hf := ih _ acl' res h
          exact hf
        | _ =>
          simp only [Option.some.injEq, Prod.mk.injEq] at h
          rw [← h.2]
          exact ⟨rfl, rfl, rfl, rfl, rfl, rfl⟩

theorem unpack_scopes_frame (items : List json_object)
    (acl acl' : KineticProto_Command_Security_ACL) (res : KineticACLLoadResult)
    (h : unpack_scopes acl items.length (.array items) = some (res, acl')) :
    SameCredentials acl' acl := by
  have hloop := unpack_scopes_loop_items items [] { acl with scope := [] }
  simp only [List.nil_append, List.length_nil] at hloop
  unfold unpack_scopes at h
  rw [List.range_eq_range', hloop] at h
  cases hu : unpackScopeItems items { acl with scope := [] } with
  | none => rw [hu] at h; cases h
  | some r =>
    obtain ⟨code, acl3⟩ := r
    have hf := unpackScopeItems_frame items _ acl3 code hu
    rw [hu] at h
    cases code with
    | ACL_OK =>
      simp only [Option.some.injEq, Prod.mk.injEq] at h
      rw [← h.2]
      exact hf
    | _ =>
      simp only [Option.some.injEq, Prod.mk.injEq] at h
      rw [← h.2]
      exact hf

theorem read_next_ACL_object_ok (obj : json_object)
    (record : KineticProto_Command_Security_ACL)
    (h : read_next_ACL_object obj = some (ACL_OK, some record)) :
    ∃ (items : List json_object) (acl1 acl2 : KineticProto_Command_Security_ACL),
      json_object_object_get_ex obj "scope" = (true, .array items) ∧
      read_next_ACL_identity obj {} = some acl1 ∧
      read_next_ACL_key obj acl1 = some acl2 ∧
      read_next_ACL_HMACAlgorithm obj = some true ∧
      unpack_scopes acl2 items.length (.array items) = some (ACL_OK, record) := by
  unfold read_next_ACL_object at h
  cases hg : json_object_object_get_ex obj "scope" with
  | mk found val =>
    rw [hg] at h
    cases found with
    | false => simp at h
    | true =>
      cases val with
      | null => simp [json_object_array_length] at h
      | boolean b => simp [json_object_array_length] at h
      | int i => simp [json_object_array_length] at h
      | string s => simp [json_object_array_length] at h
      | object fs => simp [json_object_array_length] at h
      | array items =>
        simp only [json_object_array_length] at h
        cases hid : read_next_ACL_identity obj {} with
        | none => rw [hid] at h; simp at h
        | some acl1 =>
          rw [hid] at h
          simp only at h
          cases hkey : read_next_ACL_key obj acl1 with
          | none => rw [hkey] at h; simp at h
          | some acl2 =>
            rw [hkey] at h
            simp only at h
            cases hh : read_next_ACL_HMACAlgorithm obj with
            | none => rw [hh] at h; simp at h
            | some ok =>
              rw [hh] at h
              cases ok with
              | false => simp at h
              | true =>
                simp only at h
                cases hu : unpack_scopes acl2 items.length (.array items) with
                | none => rw [hu] at h; simp at h
                | some r =>
                  obtain ⟨code, acl3⟩ := r
                  rw [hu] at h
                  cases code with
                  | ACL_OK =>
                    simp only [Option.some.injEq, Prod.mk.injEq, true_and] at h
                    subst h
                    refine ⟨items, acl1, acl2, rfl, ?_, ?_, ?_, ?_⟩ <;>
                      first | rfl | assumption
                  | _ => simp at h

theorem read_next_ACL_identity_spec (obj : json_object)
    (acl acl1 : KineticProto_Command_Security_ACL)
    (h : read_next_ACL_identity obj acl = some acl1) :
    acl1.has_identity = (json_object_object_get_ex obj "identity").1 ∧
    (∀ i, json_object_object_get_ex obj "identity" = (true, .int i) → acl1.identity = i) ∧
    acl1.has_key = acl.has_key ∧ acl1.key = acl.key ∧
    acl1.has_hmacAlgorithm = acl.has_hmacAlgorithm ∧ acl1.hmacAlgorithm = acl.hmacAlgorithm := by
  unfold read_next_ACL_identity at h
  cases hg : json_object_object_get_ex obj "identity" with
  | mk found val =>
    rw [hg] at h
    cases found with
    | false =>
      simp only [Option.some.injEq] at h
      subst h
      exact ⟨rfl, fun i hi => absurd (congrArg Prod.fst hi) (by simp), rfl, rfl, rfl, rfl⟩
    | true =>
      simp only at h
      cases hv : json_object_get_int64 val with
      | none => rw [hv] at h; cases h
      | some identity =>
        rw [hv] at h
        simp only [Option.some.injEq] at h
        subst h
        refine ⟨rfl, fun i hi => ?_, rfl, rfl, rfl, rfl⟩
        simp only [Prod.mk.injEq, true_and] at hi
        subst hi
        simp only [json_object_get_int64, Option.some.injEq] at hv
        exact hv.symm

theorem read_next_ACL_key_spec (obj : json_object)
    (acl acl2 : KineticProto_Command_Security_ACL)
    (h : read_next_ACL_key obj acl = some acl2) :
    ((json_object_object_get_ex obj "key").1 = false ∧ acl2 = acl) ∨
    (∃ key, json_object_object_get_ex obj "key" = (true, .string key) ∧
      acl2 = { acl with
        has_hmacAlgorithm := true
        hmacAlgorithm := .HmacSHA1
        key := copyCString key
        has_key := true }) := by
  unfold read_next_ACL_key at h
  cases hg : json_object_object_get_ex obj "key" with
  | mk found val =>
    rw [hg] at h
    cases found with
    | false =>
      simp only [Option.some.injEq] at h
      exact Or.inl ⟨rfl, h.symm⟩
    | true =>
      cases val with
      | string key =>
        simp only [json_object_get_string, Option.some.injEq] at h
        exact Or.inr ⟨key, rfl, h.symm⟩
      | null => simp [json_object_get_string] at h
      | boolean b => simp [json_object_get_string] at h
      | int i => simp [json_object_get_string] at h
      | array xs => simp [json_object_get_string] at h
      | object fs => simp [json_object_get_string] at h

/-- C16 (as amended): for every object `read_next_ACL` parses with `ACL_OK`: a
`key` field is a string, and the record has `has_key` set, `key.len` equal to
`strlen` of the key string, the key region holding the bytes of the key string
before its first NUL (`cstringBytes`) followed by the terminator, and
`hmacAlgorithm = HmacSHA1` with `has_hmacAlgorithm` set; without a `key` field
`has_key` is false; `has_identity` is set exactly when an `identity` field is
present, and an integer identity is stored as it is. -/
theorem record_key_and_identity (obj : json_object)
    (record : KineticProto_Command_Security_ACL)
    (h : read_next_ACL_object obj = some (ACL_OK, some record)) :
    (∀ val, json_object_object_get_ex obj "key" = (true, val) →
      ∃ key, val = .string key ∧ record.has_key = true ∧
        record.key.len = strlen key ∧
        strlen key = ((cString key).toList.flatMap utf8Bytes).length ∧
        record.key.data = some (cstringBytes key ++ [0]) ∧
        (record.key.data.getD []).take record.key.len = cstringBytes key ∧
        record.has_hmacAlgorithm = true ∧
        record.hmacAlgorithm = KineticProto_Command_Security_ACL_HMACAlgorithm.HmacSHA1) ∧
    ((json_object_object_get_ex obj "key").1 = false → record.has_key = false) ∧
    record.has_identity = (json_object_object_get_ex obj "identity").1 ∧
    (∀ i, json_object_object_get_ex obj "identity" = (true, .int i) → record.identity = i) := by
  obtain ⟨items, acl1, acl2, -, hid, hkey, -, hu⟩ := read_next_ACL_object_ok obj record h
  obtain ⟨f1, f2, f3, f4, f5, f6⟩ := unpack_scopes_frame items acl2 record ACL_OK hu
  obtain ⟨i1, i2, i3, -, -, -⟩ := read_next_ACL_identity_spec obj {} acl1 hid
  rcases read_next_ACL_key_spec obj acl1 acl2 hkey with ⟨habs, heq⟩ | ⟨key, hpres, heq⟩
  · subst heq
    refine ⟨fun val hval => ?_, fun _ => ?_, ?_, ?_⟩
    · rw [hval] at habs
      cases habs
    · rw [f3, i3]
    · rw [f1, i1]
    · intro i hi
      rw [f2]
      exact i2 i hi
  · subst heq
    refine ⟨fun val hval => ?_, fun habs => ?_, ?_, ?_⟩
    · rw [hpres] at hval
      simp only [Prod.mk.injEq, true_and] at hval
      refine ⟨key, hval.symm, f3, ?_, rfl, ?_, ?_, f5, f6⟩
      · rw [f4]; rfl
      · rw [f4]; rfl
      · rw [f4]
        simp [copyCString, strlen]
    · rw [hpres] at habs
      cases habs
    · rw [f1]
      exact i1
    · intro i hi
      rw [f2]
      exact i2 i hi

/-- C16 witness: the object of scenario S4, with key `"k"` and identity 1. -/
theorem record_key_and_identity_witness :
    s4Record.has_key = true ∧ s4Record.key.len = 1 ∧ s4Record.has_identity = true ∧
    s4Record.identity = 1 := by
  have h := record_key_and_identity (s4Object "HmacSHA1") s4Record rfl
  obtain ⟨key, -, h1, -, -, -, -, -, -⟩ := h.1 (.string "k") rfl
  exact ⟨h1, rfl, h.2.2.1, h.2.2.2 1 rfl⟩

/-- C16 counterexample: an object whose key is `ab`, a NUL and `cd`. The key
string has five bytes; `read_next_ACL` accepts the object and the record holds
the two bytes before the NUL, with `key.len = 2`. -/
theorem key_copied_to_first_nul :
    json_object_object_get_ex nulKeyObject "key" = (true, .string "ab\x00cd") ∧
    "ab\x00cd".toList.flatMap utf8Bytes = [97, 98, 0, 99, 100] ∧
    read_next_ACL_object nulKeyObject = some (ACL_OK, some nulKeyRecord) ∧
    acl_of_string (singleObjectTokener nulKeyObject) (List.replicate 12 32) 12
      = some (ACL_OK, some { ACL_ceil := 1, ACL_count := 1, ACLs := [nulKeyRecord] }) ∧
    nulKeyRecord.key.len = 2 ∧ nulKeyRecord.key.data = some [97, 98, 0] :=
  ⟨rfl, by decide, rfl, acl_of_string_single nulKeyObject nulKeyRecord 11 rfl, rfl, rfl⟩

/-! ### ACL documents: unknown fields -/

theorem get_ex_removeField_any (obj : json_object) (removed key : String)
    (hne : key ≠ removed) :
    json_object_object_get_ex (obj.removeField removed) key
      = json_object_object_get_ex obj key := by
  cases obj with
  | object fields => exact get_ex_removeField fields removed key hne
  | _ => rfl

theorem unpack_scope_congr (s s' : json_object)
    (h : ∀ k, k ∈ scopeFieldNames →
      json_object_object_get_ex s' k = json_object_object_get_ex s k) :
    unpack_scope s' = unpack_scope s := by
  have h1 := h "offset" (by decide)
  have h2 := h "value" (by decide)
  have h3 := h "permission" (by decide)
  have h4 := h "TlsRequired" (by decide)
  simp only [unpack_scope, unpack_scope_offset, unpack_scope_value, unpack_scope_permission,
    unpack_scope_TlsRequired, h1, h2, h3, h4]

theorem scopeExtends_spec (entry extended : json_object) (h : ScopeExtends entry extended) :
    extended.isNull = entry.isNull ∧ unpack_scope extended = unpack_scope entry := by
  rcases h with rfl | ⟨name, hname, rfl⟩
  · exact ⟨rfl, rfl⟩
  · constructor
    · cases extended <;> rfl
    · refine (unpack_scope_congr _ _ fun k hk => ?_).symm
      exact get_ex_removeField_any extended name k (fun hkn => hname (hkn ▸ hk))

theorem unpackScopeItems_congr (items items' : List json_object)
    (h : List.Forall₂ ScopeExtends items items') :
    ∀ acl : KineticProto_Command_Security_ACL,
      unpackScopeItems items' acl = unpackScopeItems items acl := by
  induction h with
  | nil => intro acl; rfl
  | cons hhead _ ih =>
    rename_i entry extended rest rest' hrest
    intro acl
    obtain ⟨hnull, hun⟩ := scopeExtends_spec _ _ hhead
    rw [unpackScopeItems_step, unpackScopeItems_step, hnull, hun, ih]
    by_cases hn : entry.isNull = true
    · rw [if_pos hn, if_pos hn]
    · rw [if_neg hn, if_neg hn]
      cases unpack_scope entry with
      | none => rfl
      | some r =>
        obtain ⟨code, scope⟩ := r
        cases code <;> first | exact ih _ | rfl

theorem unpack_scopes_congr (items items' : List json_object)
    (h : List.Forall₂ ScopeExtends items items') (acl : KineticProto_Command_Security_ACL) :
    unpack_scopes acl items'.length (.array items')
      = unpack_scopes acl items.length (.array items) := by
  have h1 := unpack_scopes_loop_items items [] { acl with scope := [] }
  have h2 := unpack_scopes_loop_items items' [] { acl with scope := [] }
  simp only [List.nil_append, List.length_nil] at h1 h2
  unfold unpack_scopes
  rw [List.range_eq_range', List.range_eq_range', h1, h2, unpackScopeItems_congr items items' h,
    h.length_eq]

theorem read_next_ACL_object_congr (obj obj' : json_object)
    (h : ∀ k, k ∈ recordFieldNames →
      json_object_object_get_ex obj' k = json_object_object_get_ex obj k) :
    read_next_ACL_object obj' = read_next_ACL_object obj := by
  have h1 := h "identity" (by decide)
  have h2 := h "key" (by decide)
  have h3 := h "HMACAlgorithm" (by decide)
  have h4 := h "scope" (by decide)
  simp only [read_next_ACL_object, read_next_ACL_identity, read_next_ACL_key,
    read_next_ACL_HMACAlgorithm, h1, h2, h3, h4]

theorem read_next_ACL_object_congr_scopes (obj obj' : json_object)
    (items items' : List json_object)
    (h1 : json_object_object_get_ex obj' "identity" = json_object_object_get_ex obj "identity")
    (h2 : json_object_object_get_ex obj' "key" = json_object_object_get_ex obj "key")
    (h3 : json_object_object_get_ex obj' "HMACAlgorithm"
      = json_object_object_get_ex obj "HMACAlgorithm")
    (hs : json_object_object_get_ex obj "scope" = (true, .array items))
    (hs' : json_object_object_get_ex obj' "scope" = (true, .array items'))
    (hext : List.Forall₂ ScopeExtends items items') :
    read_next_ACL_object obj' = read_next_ACL_object obj := by
  have hu := fun acl => unpack_scopes_congr items items' hext acl
  simp only [read_next_ACL_object, read_next_ACL_identity, read_next_ACL_key,
    read_next_ACL_HMACAlgorithm, h1, h2, h3, hs, hs', json_object_array_length, hu]

/-- C17: unknown fields are ignored. An ACL object is read by `read_next_ACL`
exactly like the same object without a field whose name is not `identity`,
`key`, `HMACAlgorithm` or `scope`; a scope entry is unpacked exactly like the
same entry without a field whose name is not `offset`, `value`, `permission`
or `TlsRequired`; and two ACL objects that agree on `identity`, `key` and
`HMACAlgorithm` and whose scope arrays differ only by such added fields in
their entries give the same result code and the same record. -/
theorem unknown_fields_ignored :
    (∀ (obj : json_object) (name : String), name ∉ recordFieldNames →
      read_next_ACL_object obj = read_next_ACL_object (obj.removeField name)) ∧
    (∀ (entry : json_object) (name : String), name ∉ scopeFieldNames →
      unpack_scope entry = unpack_scope (entry.removeField name)) ∧
    (∀ (obj obj' : json_object) (items items' : List json_object),
      json_object_object_get_ex obj' "identity" = json_object_object_get_ex obj "identity" →
      json_object_object_get_ex obj' "key" = json_object_object_get_ex obj "key" →
      json_object_object_get_ex obj' "HMACAlgorithm"
        = json_object_object_get_ex obj "HMACAlgorithm" →
      json_object_object_get_ex obj "scope" = (true, .array items) →
      json_object_object_get_ex obj' "scope" = (true, .array items') →
      List.Forall₂ ScopeExtends items items' →
      read_next_ACL_object obj' = read_next_ACL_object obj) := by
  refine ⟨fun obj name hname => ?_, fun entry name hname => ?_,
    fun obj obj' items items' h1 h2 h3 hs hs' hext =>
      read_next_ACL_object_congr_scopes obj obj' items items' h1 h2 h3 hs hs' hext⟩
  · refine (read_next_ACL_object_congr obj _ fun k hk => ?_).symm
    exact get_ex_removeField_any obj name k (fun hkn => hname (hkn ▸ hk))
  · refine (unpack_scope_congr entry _ fun k hk => ?_).symm
    exact get_ex_removeField_any entry name k (fun hkn => hname (hkn ▸ hk))

/-- C17 witness: the object of scenario S4 with an unknown field in the record
and one in its scope is read like the object of scenario S4. -/
theorem unknown_fields_ignored_witness :
    read_next_ACL_object s4ObjectWithUnknownFields
      = read_next_ACL_object (s4Object "HmacSHA1") ∧
    read_next_ACL_object s4ObjectWithUnknownFields = some (ACL_OK, some s4Record) :=
  ⟨unknown_fields_ignored.2.2 (s4Object "HmacSHA1") s4ObjectWithUnknownFields _ _ rfl rfl rfl
      rfl rfl
      (List.Forall₂.cons (Or.inr ⟨"note", by decide, rfl⟩) List.Forall₂.nil),
    rfl⟩

/-! ### Socket transport -/

/-- C18 (the code at the failing inputs): a write interrupted by `EINTR` is
not retried from the same offset, because the `continue` runs the increment
`count += status` with `status = -1`. When the first `write` of a four-byte
buffer is interrupted, `count` wraps to `2 ^ 64 - 1`, the loop ends and
`KineticSocket_Write` returns `true` with no byte written. When a write is
interrupted after two bytes were accepted, the next write starts at offset 1
and the second byte is written twice. -/
theorem write_interrupted_moves_offset :
    KineticSocket_Write [interruptedResult] [1, 2, 3, 4] 4
      = { result := some true
          selects := []
          calls := [{ offset := 0, requested := 4, status := -1, errno := EINTR, data := [] }]
          bytes := [] } ∧
    KineticSocket_Write [{ status := 2 }, interruptedResult, { status := 3 }] [1, 2, 3, 4] 4
      = { result := some true
          selects := []
          calls :=
            [ { offset := 0, requested := 4, status := 2, errno := 0, data := [1, 2] },
              { offset := 2, requested := 2, status := -1, errno := EINTR, data := [] },
              { offset := 1, requested := 3, status := 3, errno := 0, data := [2, 3, 4] } ]
          bytes := [1, 2, 2, 3, 4] } := by
  constructor <;> decide

/-- C20: for an operation ready to be sent on a connection whose admission
semaphore has a free slot, and helpers whose failure statuses are not
`REQUEST_REJECTED` themselves, `KineticOperation_SendRequest` returns, and it
returns `KINETIC_STATUS_REQUEST_REJECTED` exactly when the lock is acquired,
command packing, authentication and message packing succeed, and the bus
refuses the request; the semaphore's count is then what it was before the call.
When these steps succeed and the bus accepts the request, it returns
`KINETIC_STATUS_SUCCESS` and the count is one less than before. -/
theorem sendRequest_rejected_iff_bus_refuses (env : SendEnvironment)
    (operation : KineticOperation) (count : Nat)
    (hready : ReadyToSend operation)
    (hcount : operation.outstanding = some count) (hfree : 0 < count)
    (hauth : env.authentication ≠ KINETIC_STATUS_REQUEST_REJECTED)
    (hmessage : env.packMessage ≠ KINETIC_STATUS_REQUEST_REJECTED) :
    ∃ result : SendResult, KineticOperation_SendRequest env operation = some result ∧
      (result.status = KINETIC_STATUS_REQUEST_REJECTED ↔
        env.reachesBus ∧ env.busAccepts = false) ∧
      (result.status = KINETIC_STATUS_REQUEST_REJECTED →
        result.operation.outstanding = some count) ∧
      (env.reachesBus ∧ env.busAccepts = true →
        result.status = KINETIC_STATUS_SUCCESS ∧
        ∃ left, result.operation.outstanding = some left ∧ left + 1 = count) := by
  obtain ⟨hc, hs⟩ := hready
  rcases operation with ⟨connection, request, response, entry, value, p2pOp, callback, timeout,
    pending⟩
  cases connection with
  | none => simp at hc
  | some connection =>
  cases request with
  | none => simp [KineticOperation.boundSequence] at hs
  | some request =>
  rcases request with ⟨command, pinAuth⟩
  cases command with
  | none => simp [KineticOperation.boundSequence] at hs
  | some command =>
  rcases command with ⟨header, body, status⟩
  cases header with
  | none => simp [KineticOperation.boundSequence] at hs
  | some header =>
  have hs : header.sequence = KINETIC_SEQUENCE_NOT_YET_BOUND := by
    simpa [KineticOperation.boundSequence] using hs
  have hcount : connection.outstandingOperations = count := by
    simpa [KineticOperation.outstanding] using hcount
  have htake : KineticCountingSemaphore_Take connection.outstandingOperations
      = some (count - 1) := by
    simp [KineticCountingSemaphore_Take, hcount]; omega
  rcases env with ⟨lock, pack, auth, message, bus⟩
  simp only at hauth hmessage
  cases lock
  · simp only [KineticOperation_SendRequest, Bool.not_false, if_true]
    refine ⟨_, rfl, ?_, ?_, ?_⟩ <;> simp [SendEnvironment.reachesBus]
  cases pack with
  | none =>
    simp only [KineticOperation_SendRequest, KineticOperation_SendRequestInLock, hs,
      Bool.not_true, Bool.false_eq_true, if_false, Option.some_bind, ne_eq, not_true_eq_false]
    refine ⟨_, rfl, ?_, ?_, ?_⟩ <;> simp [SendEnvironment.reachesBus]
  | some len =>
  by_cases ha : auth = KINETIC_STATUS_SUCCESS
  swap
  · simp only [KineticOperation_SendRequest, KineticOperation_SendRequestInLock, hs, ha,
      Bool.not_true, Bool.false_eq_true, if_false, Option.some_bind, ne_eq, not_true_eq_false,
      not_false_eq_true, if_true]
    refine ⟨_, rfl, ?_, ?_, ?_⟩ <;> simp [SendEnvironment.reachesBus, ha, hauth]
  by_cases hm : message = KINETIC_STATUS_SUCCESS
  swap
  · simp only [KineticOperation_SendRequest, KineticOperation_SendRequestInLock, hs, ha, hm,
      Bool.not_true, Bool.false_eq_true, if_false, Option.some_bind, ne_eq, not_true_eq_false,
      not_false_eq_true, if_true]
    refine ⟨_, rfl, ?_, ?_, ?_⟩ <;> simp [SendEnvironment.reachesBus, hm, hmessage]
  cases bus
  · simp only [KineticOperation_SendRequest, KineticOperation_SendRequestInLock, hs, ha, hm,
      htake, Bool.not_true, Bool.not_false, Bool.false_eq_true, if_false, Option.some_bind, ne_eq,
      not_true_eq_false, not_false_eq_true, if_true]
    refine ⟨_, rfl, ?_, ?_, ?_⟩
    · simp [SendEnvironment.reachesBus]
    · intro _
      simp [KineticOperation.outstanding, KineticOperation.setOutstanding,
        KineticOperation.updateHeader, KineticCountingSemaphore_Give]
      omega
    · simp
  · simp only [KineticOperation_SendRequest, KineticOperation_SendRequestInLock, hs, ha, hm,
      htake, Bool.not_true, Bool.not_false, Bool.false_eq_true, if_false, Option.some_bind, ne_eq,
      not_true_eq_false, not_false_eq_true, if_true]
    refine ⟨_, rfl, ?_, ?_, ?_⟩
    · simp
    · simp
    · intro _
      simp [KineticOperation.outstanding, KineticOperation.setOutstanding,
        KineticOperation.updateHeader]
      omega

/-- C20 witness: the bus refuses the request of an operation ready to be sent
on a connection with three free slots. -/
theorem sendRequest_rejected_iff_bus_refuses_witness :
    ∃ result : SendResult,
      KineticOperation_SendRequest { busAccepts := false } readyOperation = some result ∧
      result.status = KINETIC_STATUS_REQUEST_REJECTED ∧
      result.operation.outstanding = some 3 := by
  obtain ⟨result, hresult, hiff, hsame, _⟩ :=
    sendRequest_rejected_iff_bus_refuses { busAccepts := false } readyOperation 3
      ⟨rfl, rfl⟩ rfl (by decide) (by decide) (by decide)
  have hrejected := hiff.mpr ⟨⟨rfl, rfl, rfl, rfl⟩, rfl⟩
  exact ⟨result, hresult, hrejected, hsame hrejected⟩

/-- A send on an operation ready to be sent whose lock is acquired and which
fails locally: the status is the failing one, the bus is not called, the
semaphore is as before, and the session counter is one more than before, the
number drawn being bound to the header. -/
theorem sendRequest_fails_locally (env : SendEnvironment) (operation : KineticOperation)
    (status : KineticStatus) (hready : ReadyToSend operation)
    (hlock : env.lockAcquired = true) (hfail : env.failsLocally status) :
    ∃ result : SendResult, KineticOperation_SendRequest env operation = some result ∧
      result.status = status ∧ result.busCalled = false ∧
      result.operation.outstanding = operation.outstanding ∧
      result.operation.sessionSequence = operation.sessionSequence.map (fun n => n + 1) ∧
      result.operation.boundSequence = operation.sessionSequence := by
  obtain ⟨hc, hs⟩ := hready
  rcases operation with ⟨connection, request, response, entry, value, p2pOp, callback, timeout,
    pending, buffers, deviceInfo, pin, closure⟩
  cases connection with
  | none => simp at hc
  | some connection =>
  cases request with
  | none => simp [KineticOperation.boundSequence] at hs
  | some request =>
  rcases request with ⟨command, pinAuth⟩
  cases command with
  | none => simp [KineticOperation.boundSequence] at hs
  | some command =>
  rcases command with ⟨header, body, cstatus⟩
  cases header with
  | none => simp [KineticOperation.boundSequence] at hs
  | some header =>
  have hs : header.sequence = KINETIC_SEQUENCE_NOT_YET_BOUND := by
    simpa [KineticOperation.boundSequence] using hs
  rcases env with ⟨lock, pack, auth, message, bus⟩
  simp only at hlock
  subst hlock
  rcases hfail with ⟨hp, hst⟩ | ⟨hp, ha, hst⟩ | ⟨hp, ha, hm, hst⟩
  · simp only at hp hst
    subst hp hst
    simp only [KineticOperation_SendRequest, KineticOperation_SendRequestInLock, hs,
      Bool.not_true, Bool.false_eq_true, if_false, Option.some_bind, ne_eq, not_true_eq_false]
    refine ⟨_, rfl, rfl, rfl, ?_, ?_, ?_⟩ <;>
      simp [KineticOperation.outstanding, KineticOperation.sessionSequence,
        KineticOperation.boundSequence, KineticOperation.updateHeader,
        KineticSession_GetNextSequenceCount]
  · simp only at hp ha hst
    subst hst
    cases pack with
    | none => simp at hp
    | some len =>
    simp only [KineticOperation_SendRequest, KineticOperation_SendRequestInLock, hs, ha,
      Bool.not_true, Bool.false_eq_true, if_false, Option.some_bind, ne_eq, not_true_eq_false,
      not_false_eq_true, if_true]
    refine ⟨_, rfl, rfl, rfl, ?_, ?_, ?_⟩ <;>
      simp [KineticOperation.outstanding, KineticOperation.sessionSequence,
        KineticOperation.boundSequence, KineticOperation.updateHeader,
        KineticSession_GetNextSequenceCount]
  · simp only at hp ha hm hst
    subst hst ha
    cases pack with
    | none => simp at hp
    | some len =>
    simp only [KineticOperation_SendRequest, KineticOperation_SendRequestInLock, hs, hm,
      Bool.not_true, Bool.false_eq_true, if_false, Option.some_bind, ne_eq, not_true_eq_false,
      not_false_eq_true, if_true]
    refine ⟨_, rfl, rfl, rfl, ?_, ?_, ?_⟩ <;>
      simp [KineticOperation.outstanding, KineticOperation.sessionSequence,
        KineticOperation.boundSequence, KineticOperation.updateHeader,
        KineticSession_GetNextSequenceCount]

/-- C21: for an operation ready to be sent whose lock is acquired: when command
packing fails, `KineticOperation_SendRequest` returns
`KINETIC_STATUS_MEMORY_ERROR`, the bus is not called (the operation is not
registered) and the semaphore's count is as before; when authentication fails,
or message packing fails after it, the same holds with the failing status
returned. -/
theorem sendRequest_local_failure_not_registered (env : SendEnvironment)
    (operation : KineticOperation) (hready : ReadyToSend operation)
    (hlock : env.lockAcquired = true) :
    (env.packCommand = none →
      ∃ result : SendResult, KineticOperation_SendRequest env operation = some result ∧
        result.status = KINETIC_STATUS_MEMORY_ERROR ∧ result.busCalled = false ∧
        result.operation.outstanding = operation.outstanding) ∧
    (env.packCommand.isSome = true → env.authentication ≠ KINETIC_STATUS_SUCCESS →
      ∃ result : SendResult, KineticOperation_SendRequest env operation = some result ∧
        result.status = env.authentication ∧ result.busCalled = false ∧
        result.operation.outstanding = operation.outstanding) ∧
    (env.packCommand.isSome = true → env.authentication = KINETIC_STATUS_SUCCESS →
      env.packMessage ≠ KINETIC_STATUS_SUCCESS →
      ∃ result : SendResult, KineticOperation_SendRequest env operation = some result ∧
        result.status = env.packMessage ∧ result.busCalled = false ∧
        result.operation.outstanding = operation.outstanding) := by
  refine ⟨fun hp => ?_, fun hp ha => ?_, fun hp ha hm => ?_⟩
  · obtain ⟨result, h1, h2, h3, h4, -⟩ :=
      sendRequest_fails_locally env operation _ hready hlock (Or.inl ⟨hp, rfl⟩)
    exact ⟨result, h1, h2, h3, h4⟩
  · obtain ⟨result, h1, h2, h3, h4, -⟩ :=
      sendRequest_fails_locally env operation _ hready hlock (Or.inr (Or.inl ⟨hp, ha, rfl⟩))
    exact ⟨result, h1, h2, h3, h4⟩
  · obtain ⟨result, h1, h2, h3, h4, -⟩ :=
      sendRequest_fails_locally env operation _ hready hlock
        (Or.inr (Or.inr ⟨hp, ha, hm, rfl⟩))
    exact ⟨result, h1, h2, h3, h4⟩

/-- C21 witness: command packing fails for an operation ready to be sent on a
connection with three free slots. -/
theorem sendRequest_local_failure_not_registered_witness :
    ∃ result : SendResult,
      KineticOperation_SendRequest { packCommand := none } readyOperation = some result ∧
      result.status = KINETIC_STATUS_MEMORY_ERROR ∧ result.busCalled = false ∧
      result.operation.outstanding = some 3 :=
  (sendRequest_local_failure_not_registered { packCommand := none } readyOperation
    ⟨rfl, rfl⟩ rfl).1 rfl

/-- C22 (as amended): a send that fails locally on an operation ready to be
sent, the lock being acquired, consumes one sequence number: the session's
counter after the send is one more than before, and the number drawn is the
one bound to the header of the request that failed. -/
theorem sendRequest_local_failure_draws_sequence (env : SendEnvironment)
    (operation : KineticOperation) (status : KineticStatus) (hready : ReadyToSend operation)
    (hlock : env.lockAcquired = true) (hfail : env.failsLocally status) :
    ∃ result : SendResult, KineticOperation_SendRequest env operation = some result ∧
      result.status = status ∧ result.busCalled = false ∧
      result.operation.sessionSequence = operation.sessionSequence.map (fun n => n + 1) ∧
      result.operation.boundSequence = operation.sessionSequence := by
  obtain ⟨result, h1, h2, h3, -, h5, h6⟩ :=
    sendRequest_fails_locally env operation status hready hlock hfail
  exact ⟨result, h1, h2, h3, h5, h6⟩

/-- C22 witness: authentication fails for an operation ready to be sent on a
session whose counter is at 7. -/
theorem sendRequest_local_failure_draws_sequence_witness :
    ∃ result : SendResult,
      KineticOperation_SendRequest { authentication := KINETIC_STATUS_INVALID } readyOperation
        = some result ∧
      result.status = KINETIC_STATUS_INVALID ∧ result.busCalled = false ∧
      result.operation.sessionSequence = some 8 ∧
      result.operation.boundSequence = some 7 :=
  sendRequest_local_failure_draws_sequence { authentication := KINETIC_STATUS_INVALID }
    readyOperation KINETIC_STATUS_INVALID ⟨rfl, rfl⟩ rfl
    (Or.inr (Or.inl ⟨rfl, by decide, rfl⟩))

/-- C22 counterexample: command packing fails for an operation ready to be
sent on a session whose counter is at 7; the send returns
`KINETIC_STATUS_MEMORY_ERROR` and the counter is at 8 afterwards. -/
theorem sendRequest_pack_failure_consumes_sequence :
    readyOperation.sessionSequence = some 7 ∧
    (KineticOperation_SendRequest { packCommand := none } readyOperation).map
        (fun result => (result.status, result.busCalled, result.operation.sessionSequence))
      = some (KINETIC_STATUS_MEMORY_ERROR, false, some 8) :=
  ⟨rfl, rfl⟩

/-- One send of a series: on a connection with a free slot, an operation whose
header holds the sentinel is sent; the semaphore loses one slot at most; with
the lock the counter advances by one and the number drawn is bound; without it
the send returns `KINETIC_STATUS_CONNECTION_ERROR` and nothing changes. -/
theorem sendRequest_step (env : SendEnvironment) (operation : KineticOperation)
    (connection : KineticConnection)
    (hs : operation.boundSequence = some KINETIC_SEQUENCE_NOT_YET_BOUND)
    (hfree : 0 < connection.outstandingOperations) :
    ∃ (result : SendResult) (after : KineticConnection),
      KineticOperation_SendRequest env { operation with connection := some connection }
        = some result ∧
      result.operation.connection = some after ∧
      connection.outstandingOperations ≤ after.outstandingOperations + 1 ∧
      (env.lockAcquired = true →
        after.pSession.sequence = connection.pSession.sequence + 1 ∧
        result.operation.boundSequence = some connection.pSession.sequence) ∧
      (env.lockAcquired = false →
        after = connection ∧ result.status = KINETIC_STATUS_CONNECTION_ERROR ∧
        result.busCalled = false ∧
        result.operation.boundSequence = some KINETIC_SEQUENCE_NOT_YET_BOUND) := by
  rcases operation with ⟨connection0, request, response, entry, value, p2pOp, callback, timeout,
    pending, buffers, deviceInfo, pin, closure⟩
  cases request with
  | none => simp [KineticOperation.boundSequence] at hs
  | some request =>
  rcases request with ⟨command, pinAuth⟩
  cases command with
  | none => simp [KineticOperation.boundSequence] at hs
  | some command =>
  rcases command with ⟨header, body, cstatus⟩
  cases header with
  | none => simp [KineticOperation.boundSequence] at hs
  | some header =>
  have hs : header.sequence = KINETIC_SEQUENCE_NOT_YET_BOUND := by
    simpa [KineticOperation.boundSequence] using hs
  have htake : KineticCountingSemaphore_Take connection.outstandingOperations
      = some (connection.outstandingOperations - 1) := by
    simp [KineticCountingSemaphore_Take]; omega
  rcases env with ⟨lock, pack, auth, message, bus⟩
  cases lock
  · simp only [KineticOperation_SendRequest, Bool.not_false, if_true]
    refine ⟨_, connection, rfl, rfl, by omega, by simp, ?_⟩
    intro _
    simp [KineticOperation.boundSequence, hs]
  cases pack with
  | none =>
    simp only [KineticOperation_SendRequest, KineticOperation_SendRequestInLock, hs,
      Bool.not_true, Bool.false_eq_true, if_false, Option.some_bind, ne_eq, not_true_eq_false]
    refine ⟨_, _, rfl, rfl, ?_, ?_, by simp⟩ <;>
      simp [KineticOperation.boundSequence, KineticOperation.updateHeader,
        KineticSession_GetNextSequenceCount]
  | some len =>
  by_cases ha : auth = KINETIC_STATUS_SUCCESS
  swap
  · simp only [KineticOperation_SendRequest, KineticOperation_SendRequestInLock, hs, ha,
      Bool.not_true, Bool.false_eq_true, if_false, Option.some_bind, ne_eq, not_true_eq_false,
      not_false_eq_true, if_true]
    refine ⟨_, _, rfl, rfl, ?_, ?_, by simp⟩ <;>
      simp [KineticOperation.boundSequence, KineticOperation.updateHeader,
        KineticSession_GetNextSequenceCount]
  by_cases hm : message = KINETIC_STATUS_SUCCESS
  swap
  · simp only [KineticOperation_SendRequest, KineticOperation_SendRequestInLock, hs, ha, hm,
      Bool.not_true, Bool.false_eq_true, if_false, Option.some_bind, ne_eq, not_true_eq_false,
      not_false_eq_true, if_true]
    refine ⟨_, _, rfl, rfl, ?_, ?_, by simp⟩ <;>
      simp [KineticOperation.boundSequence, KineticOperation.updateHeader,
        KineticSession_GetNextSequenceCount]
  cases bus
  · simp only [KineticOperation_SendRequest, KineticOperation_SendRequestInLock, hs, ha, hm,
      htake, Bool.not_true, Bool.not_false, Bool.false_eq_true, if_false, Option.some_bind,
      ne_eq, not_true_eq_false, not_false_eq_true, if_true]
    refine ⟨_, _, rfl, rfl, ?_, ?_, by simp⟩
    · simp [KineticCountingSemaphore_Give]; omega
    · simp [KineticOperation.boundSequence, KineticOperation.updateHeader,
        KineticOperation.setOutstanding, KineticSession_GetNextSequenceCount]
  · simp only [KineticOperation_SendRequest, KineticOperation_SendRequestInLock, hs, ha, hm,
      htake, Bool.not_true, Bool.not_false, Bool.false_eq_true, if_false, Option.some_bind,
      ne_eq, not_true_eq_false, not_false_eq_true, if_true]
    refine ⟨_, _, rfl, rfl, ?_, ?_, by simp⟩
    · simp only; omega
    · simp [KineticOperation.boundSequence, KineticOperation.updateHeader,
        KineticOperation.setOutstanding, KineticSession_GetNextSequenceCount]

/-- Consecutive numbers from a later start are all above an earlier one. -/
theorem consecutiveFrom_above (start bound : Int) (n : Nat) (h : bound < start) :
    ∀ x ∈ consecutiveFrom start n, ∃ y, x = some y ∧ bound < y := by
  induction n generalizing start with
  | zero => intro x hx; simp [consecutiveFrom] at hx
  | succ n ih =>
    intro x hx
    simp only [consecutiveFrom, List.mem_cons] at hx
    rcases hx with rfl | hx
    · exact ⟨start, rfl, h⟩
    · exact ih (start + 1) (by omega) x hx

/-- Consecutive numbers are strictly increasing. -/
theorem consecutiveFrom_increasing (start : Int) (n : Nat) :
    List.Pairwise (fun a b => ∃ x y, a = some x ∧ b = some y ∧ x < y)
      (consecutiveFrom start n) := by
  induction n generalizing start with
  | zero => simp [consecutiveFrom]
  | succ n ih =>
    simp only [consecutiveFrom, List.pairwise_cons]
    refine ⟨?_, ih (start + 1)⟩
    intro b hb
    obtain ⟨y, hy, hlt⟩ := consecutiveFrom_above (start + 1) start n (by omega) b hb
    exact ⟨start, y, rfl, hy, hlt⟩

/-- A series of sends of operations whose headers hold the sentinel, on a
connection with a free slot for each: every send returns; the sends with the
lock draw consecutive numbers from the counter and bind them, and the counter
ends that many higher; a send without the lock returns
`KINETIC_STATUS_CONNECTION_ERROR` and its header keeps the sentinel. -/
theorem sendSeries_spec :
    ∀ (sends : List (SendEnvironment × KineticOperation)) (connection : KineticConnection),
      (∀ send ∈ sends, send.2.boundSequence = some KINETIC_SEQUENCE_NOT_YET_BOUND) →
      sends.length ≤ connection.outstandingOperations →
      ∃ (results : List SendResult) (final : KineticConnection),
        sendSeries connection sends = some (results, final) ∧
        results.length = sends.length ∧
        drawnSequences sends results
          = consecutiveFrom connection.pSession.sequence (lockedSends sends) ∧
        final.pSession.sequence = connection.pSession.sequence + lockedSends sends ∧
        ∀ pair ∈ sends.zip results, pair.1.1.lockAcquired = false →
          pair.2.status = KINETIC_STATUS_CONNECTION_ERROR ∧ pair.2.busCalled = false ∧
          pair.2.operation.boundSequence = some KINETIC_SEQUENCE_NOT_YET_BOUND := by
  intro sends
  induction sends with
  | nil =>
    intro connection _ _
    exact ⟨[], connection, rfl, rfl, rfl, by simp [lockedSends], by simp⟩
  | cons send sends ih =>
    intro connection hsent hfree
    obtain ⟨env, operation⟩ := send
    have hs := hsent (env, operation) (List.mem_cons_self _ _)
    simp only [List.length_cons] at hfree
    obtain ⟨result, after, hsend, hconn, hslots, hlocked, hunlocked⟩ :=
      sendRequest_step env operation connection hs (by omega)
    obtain ⟨results, final, hseries, hlen, hdrawn, hfinal, hrest⟩ :=
      ih after (fun s hmem => hsent s (List.mem_cons_of_mem _ hmem)) (by omega)
    refine ⟨result :: results, final, ?_, by simp [hlen], ?_, ?_, ?_⟩
    · simp only [sendSeries, hsend, hconn, hseries]
    · cases hl : env.lockAcquired with
      | true =>
        obtain ⟨hseq, hbound⟩ := hlocked hl
        simp only [drawnSequences, hl, if_true, lockedSends, hdrawn, hseq, hbound]
        rw [Nat.add_comm 1, consecutiveFrom]
      | false =>
        obtain ⟨heq, -, -, -⟩ := hunlocked hl
        simp [drawnSequences, hl, lockedSends, hdrawn, heq]
    · cases hl : env.lockAcquired with
      | true =>
        obtain ⟨hseq, -⟩ := hlocked hl
        simp only [lockedSends, hl, if_true, hfinal, hseq]
        push_cast
        omega
      | false =>
        obtain ⟨heq, -, -, -⟩ := hunlocked hl
        simp [lockedSends, hl, hfinal, heq]
    · intro pair hpair hl
      simp only [List.zip_cons_cons, List.mem_cons] at hpair
      rcases hpair with rfl | hpair
      · obtain ⟨-, h1, h2, h3⟩ := hunlocked hl
        exact ⟨h1, h2, h3⟩
      · exact hrest pair hpair hl

/-- C23: for every connection and every series of sends of operations whose
headers hold the `NOT_YET_BOUND` sentinel (the semaphore having a free slot for
each): the sends for which the lock is acquired each draw one value from the
session's counter and bind it to their header, the values bound being the
consecutive numbers from the counter's start, in send order, hence strictly
increasing with no repeats, and the counter ends that many higher; a send whose
lock is not acquired returns `KINETIC_STATUS_CONNECTION_ERROR`, draws no value
and leaves the sentinel in its header. -/
theorem sends_draw_increasing_sequences (sends : List (SendEnvironment × KineticOperation))
    (connection : KineticConnection)
    (hsentinel : ∀ send ∈ sends, send.2.boundSequence = some KINETIC_SEQUENCE_NOT_YET_BOUND)
    (hfree : sends.length ≤ connection.outstandingOperations) :
    ∃ (results : List SendResult) (final : KineticConnection),
      sendSeries connection sends = some (results, final) ∧
      results.length = sends.length ∧
      drawnSequences sends results
        = consecutiveFrom connection.pSession.sequence (lockedSends sends) ∧
      List.Pairwise (fun a b => ∃ x y, a = some x ∧ b = some y ∧ x < y)
        (drawnSequences sends results) ∧
      final.pSession.sequence = connection.pSession.sequence + lockedSends sends ∧
      ∀ pair ∈ sends.zip results, pair.1.1.lockAcquired = false →
        pair.2.status = KINETIC_STATUS_CONNECTION_ERROR ∧ pair.2.busCalled = false ∧
        pair.2.operation.boundSequence = some KINETIC_SEQUENCE_NOT_YET_BOUND := by
  obtain ⟨results, final, h1, h2, h3, h4, h5⟩ := sendSeries_spec sends connection hsentinel hfree
  exact ⟨results, final, h1, h2, h3, h3 ▸ consecutiveFrom_increasing _ _, h4, h5⟩

/-- C23 witness: three sends on a session whose counter is at 7, the second
without the lock and the third failing to pack: the numbers bound are 7 and 8
and the counter ends at 9. -/
theorem sends_draw_increasing_sequences_witness :
    ∃ (results : List SendResult) (final : KineticConnection),
      sendSeries { pSession := { sequence := 7 }, outstandingOperations := 3 } threeSends
        = some (results, final) ∧
      drawnSequences threeSends results = [some 7, some 8] ∧
      final.pSession.sequence = 9 := by
  obtain ⟨results, final, h1, -, h3, -, h5, -⟩ :=
    sends_draw_increasing_sequences threeSends
      { pSession := { sequence := 7 }, outstandingOperations := 3 }
      (by
        intro send hsend
        simp only [threeSends, List.mem_cons, List.mem_singleton, List.not_mem_nil,
          or_false] at hsend
        rcases hsend with rfl | rfl | rfl <;> rfl)
      (by decide)
  exact ⟨results, final, h1, h3, h5⟩

/-! ### Completion and post-processors -/

/-- C24: `KineticOperation_Complete`, on an operation with a connection, gives
the admission semaphore once (its count is one more afterwards), and does so
first; then, when the closure's callback is set, it calls that callback once
with a completion record holding `status` and with the closure's client data;
when the callback is null it calls nothing; then the operation is freed. -/
theorem complete_gives_then_calls_once (operation : KineticOperation) (status : KineticStatus)
    (connection : KineticConnection) (hconn : operation.connection = some connection) :
    ∃ (events : List CompletionEvent) (after : KineticConnection),
      KineticOperation_Complete operation status = some (events, after) ∧
      after.outstandingOperations = connection.outstandingOperations + 1 ∧
      after.pSession = connection.pSession ∧
      (∀ callback, operation.closure.callback = some callback →
        events = [CompletionEvent.semaphoreGive,
          CompletionEvent.closureCall callback status operation.closure.clientData,
          CompletionEvent.freeOperation]) ∧
      (operation.closure.callback = none →
        events = [CompletionEvent.semaphoreGive, CompletionEvent.freeOperation]) := by
  unfold KineticOperation_Complete
  rw [hconn]
  refine ⟨_, _, rfl, rfl, rfl, ?_, ?_⟩
  · intro callback hcb
    simp [hcb]
  · intro hcb
    simp [hcb]

/-- C24 witness: an operation whose closure names callback 5 with client data 9
is completed with `KINETIC_STATUS_SOCKET_TIMEOUT`. -/
theorem complete_gives_then_calls_once_witness :
    ∃ (events : List CompletionEvent) (after : KineticConnection),
      KineticOperation_Complete closureOperation KINETIC_STATUS_SOCKET_TIMEOUT
        = some (events, after) ∧
      after.outstandingOperations = 3 ∧
      events = [CompletionEvent.semaphoreGive,
        CompletionEvent.closureCall 5 KINETIC_STATUS_SOCKET_TIMEOUT 9,
        CompletionEvent.freeOperation] := by
  obtain ⟨events, after, h1, h2, -, h4, -⟩ :=
    complete_gives_then_calls_once closureOperation KINETIC_STATUS_SOCKET_TIMEOUT
      { outstandingOperations := 2 } rfl
  exact ⟨events, after, h1, h2, h4 5 rfl⟩

/-- C25: for every cluster version `v` and every operation that passes
validation, `KineticOperation_BuildSetClusterVersion` returns an operation with
the same connection (the session's cluster version is not changed by the
builder) and `v` pending. The post-processor called on it with `SUCCESS`
returns `SUCCESS`, sets the session's cluster version to `v` and the pending
value to `-1`; called with any other status it returns that status and leaves
the operation, hence the session's cluster version, as it was. -/
theorem setClusterVersion_applied_on_success (operation : KineticOperation) (v : Int)
    (hvalid : KineticOperation_ValidateOperation operation = true) :
    ∃ built : KineticOperation,
      KineticOperation_BuildSetClusterVersion operation v = some built ∧
      built.connection = operation.connection ∧
      built.pendingClusterVersion = v ∧
      (∃ after : KineticOperation,
        KineticOperation_SetClusterVersionCallback built KINETIC_STATUS_SUCCESS
          = some (KINETIC_STATUS_SUCCESS, after) ∧
        after.clusterVersion = some v ∧ after.pendingClusterVersion = -1) ∧
      (∀ status, status ≠ KINETIC_STATUS_SUCCESS →
        KineticOperation_SetClusterVersionCallback built status = some (status, built)) := by
  obtain ⟨connection, hconn⟩ := validate_connection hvalid
  simp only [KineticOperation_BuildSetClusterVersion, hvalid, Bool.not_true, Bool.false_eq_true,
    if_false]
  refine ⟨_, rfl, ?_, rfl, ?_, ?_⟩
  · simp [KineticOperation.updateBody, KineticOperation.setMessageType,
      KineticOperation.updateHeader]
  · simp only [KineticOperation_SetClusterVersionCallback, KineticOperation.updateBody,
      KineticOperation.setMessageType, KineticOperation.updateHeader, hconn, if_true]
    exact ⟨_, rfl, rfl, rfl⟩
  · intro status hstatus
    simp only [KineticOperation_SetClusterVersionCallback, KineticOperation.updateBody,
      KineticOperation.setMessageType, KineticOperation.updateHeader, hconn, hstatus, if_false]

/-- C25 witness: cluster version 12 is set on a session whose version is 0. -/
theorem setClusterVersion_applied_on_success_witness :
    ∃ built after : KineticOperation,
      KineticOperation_BuildSetClusterVersion validOperation 12 = some built ∧
      built.clusterVersion = some 0 ∧
      KineticOperation_SetClusterVersionCallback built KINETIC_STATUS_SUCCESS
        = some (KINETIC_STATUS_SUCCESS, after) ∧
      after.clusterVersion = some 12 := by
  obtain ⟨built, h1, h2, -, ⟨after, h4, h5, -⟩, -⟩ :=
    setClusterVersion_applied_on_success validOperation 12 rfl
  refine ⟨built, after, h1, ?_, h4, h5⟩
  simp only [KineticOperation.clusterVersion, h2]
  rfl

/-- C26 (the code at the failing input): the GETLOG post-processor reads
`operation->response->command->body->getLog` without testing `body`. Called
with `SUCCESS` on a response whose command has no body, it dereferences the
null pointer (no result) instead of returning `KINETIC_STATUS_OPERATION_FAILED`.
With a body that has no `getLog` it returns `KINETIC_STATUS_OPERATION_FAILED`
and leaves the out-pointer as it was; with a `getLog` body it returns `SUCCESS`
and stores the log info created from that body. -/
theorem getLogCallback_body_absent :
    KineticOperation_GetLogCallback (getLogOperation { command := some { body := none } })
        KINETIC_STATUS_SUCCESS = none ∧
    KineticOperation_GetLogCallback (getLogOperation { command := some { body := some {} } })
        KINETIC_STATUS_SUCCESS
      = some (KINETIC_STATUS_OPERATION_FAILED,
          getLogOperation { command := some { body := some {} } }) ∧
    KineticOperation_GetLogCallback
        (getLogOperation { command := some { body := some { getLog := some sampleGetLog } } })
        KINETIC_STATUS_SUCCESS
      = some (KINETIC_STATUS_SUCCESS,
          { getLogOperation
              { command := some { body := some { getLog := some sampleGetLog } } } with
            deviceInfo := some (some (KineticLogInfo_Create sampleGetLog)) }) :=
  ⟨rfl, rfl, rfl⟩

/-- C28: with the file system a map from paths to optional byte strings, for an
operation that passes validation: when the path names a file that opens and is
not empty and the allocation succeeds, `KineticOperation_BuildUpdateFirmware`
returns `SUCCESS`, the operation's value is the file's bytes with `len` the
file's length, the message type is `SETUP` with its flag set, `firmwareDownload`
is set with its flag, and the post-processor is the firmware one. When the path
is null or the file cannot be opened it returns `KINETIC_STATUS_INVALID_FILE`
and the operation is as it was (its value, message type and post-processor
included), whether or not an allocation would succeed: none is made. -/
theorem buildUpdateFirmware_reads_file (files : FileSystem) (operation : KineticOperation)
    (hvalid : KineticOperation_ValidateOperation operation = true) :
    (∀ path image, files path = some image → image ≠ [] →
      ∃ built : KineticOperation,
        KineticOperation_BuildUpdateFirmware files true operation (some path)
          = some (KINETIC_STATUS_SUCCESS, built) ∧
        built.value = { data := some image, len := image.length } ∧
        built.messageType = some (true, KineticProto_Command_MessageType.SETUP) ∧
        (∃ body setup, built.body = some body ∧ body.setup = some setup ∧
          setup.firmwareDownload = true ∧ setup.has_firmwareDownload = true) ∧
        built.callback = some KineticOperationCallback.KineticOperation_UpdateFirmwareCallback) ∧
    (∀ calloc_succeeds,
      KineticOperation_BuildUpdateFirmware files calloc_succeeds operation none
        = some (KINETIC_STATUS_INVALID_FILE, operation)) ∧
    (∀ calloc_succeeds path, files path = none →
      KineticOperation_BuildUpdateFirmware files calloc_succeeds operation (some path)
        = some (KINETIC_STATUS_INVALID_FILE, operation)) := by
  refine ⟨?_, ?_, ?_⟩
  · intro path image hfile hne
    have hlen : ¬ image.length < 1 := by
      cases image with
      | nil => exact absurd rfl hne
      | cons b bs => simp
    simp only [KineticOperation_BuildUpdateFirmware, hvalid, Bool.not_true, Bool.false_eq_true,
      if_false, hfile, hlen]
    refine ⟨_, rfl, rfl, ?_, ?_, rfl⟩
    · unfold KineticOperation_ValidateOperation at hvalid
      rcases operation with ⟨connection, request, response, entry, value, p2pOp, callback,
        timeout, pending, buffers, deviceInfo, pin, closure⟩
      cases connection with
      | none => simp at hvalid
      | some connection =>
      cases request with
      | none => simp at hvalid
      | some request =>
      rcases request with ⟨command, pinAuth⟩
      cases command with
      | none => simp at hvalid
      | some command =>
      rcases command with ⟨header, body, cstatus⟩
      cases header with
      | none => simp at hvalid
      | some header =>
        simp [KineticOperation.messageType, KineticOperation.updateBody,
          KineticOperation.setMessageType, KineticOperation.updateHeader]
    · unfold KineticOperation_ValidateOperation at hvalid
      rcases operation with ⟨connection, request, response, entry, value, p2pOp, callback,
        timeout, pending, buffers, deviceInfo, pin, closure⟩
      cases connection with
      | none => simp at hvalid
      | some connection =>
      cases request with
      | none => simp at hvalid
      | some request =>
      rcases request with ⟨command, pinAuth⟩
      cases command with
      | none => simp at hvalid
      | some command =>
        simp [KineticOperation.body, KineticOperation.updateBody,
          KineticOperation.setMessageType, KineticOperation.updateHeader]
  · intro calloc_succeeds
    simp only [KineticOperation_BuildUpdateFirmware, hvalid, Bool.not_true, Bool.false_eq_true,
      if_false]
  · intro calloc_succeeds path hfile
    simp only [KineticOperation_BuildUpdateFirmware, hvalid, Bool.not_true, Bool.false_eq_true,
      if_false, hfile]

/-- C28 witness: the four-byte file `firmware.bin` is read into the value of a
valid operation. -/
theorem buildUpdateFirmware_reads_file_witness :
    ∃ built : KineticOperation,
      KineticOperation_BuildUpdateFirmware firmwareFiles true validOperation
          (some "firmware.bin")
        = some (KINETIC_STATUS_SUCCESS, built) ∧
      built.value = { data := some [1, 2, 3, 4], len := 4 } ∧
      KineticOperation_BuildUpdateFirmware firmwareFiles true validOperation (some "missing")
        = some (KINETIC_STATUS_INVALID_FILE, validOperation) := by
  have h := buildUpdateFirmware_reads_file firmwareFiles validOperation rfl
  obtain ⟨built, h1, h2, -, -, -⟩ := h.1 "firmware.bin" [1, 2, 3, 4] (by decide) (by decide)
  exact ⟨built, h1, h2, h.2.2 true "missing" (by decide)⟩

/-! ### Builders: validation and message types -/

/-- An operation fails validation exactly when one of the assertions of
`KineticOperation_ValidateOperation` fails. -/
theorem failsValidation_iff (operation : KineticOperation) :
    FailsValidation operation ↔ KineticOperation_ValidateOperation operation = false := by
  unfold FailsValidation KineticOperation_ValidateOperation
  cases hc : operation.connection with
  | none => simp
  | some connection =>
    cases hr : operation.request with
    | none => simp
    | some request =>
      cases hcmd : request.command with
      | none => simp [hcmd]
      | some command =>
        cases hh : command.header with
        | none => simp [hcmd, hh]
        | some header => simp [hcmd, hh]

/-- C29 (as amended): a builder called on an operation that fails validation
(no connection, no request, no command, no command header, or a header without
a sequence field) does not return: the validation is a series of assertions,
and the call is aborted at the one that fails, before the builder writes
anything. This holds of every builder and every argument. -/
theorem builders_abort_on_failed_validation (operation : KineticOperation)
    (hfails : FailsValidation operation) :
    KineticOperation_BuildNoop operation = none ∧
    (∀ entry, KineticOperation_BuildPut operation entry = none) ∧
    (∀ entry, KineticOperation_BuildGet operation entry = none) ∧
    (∀ entry, KineticOperation_BuildGetPrevious operation entry = none) ∧
    (∀ entry, KineticOperation_BuildGetNext operation entry = none) ∧
    KineticOperation_BuildFlush operation = none ∧
    (∀ entry, KineticOperation_BuildDelete operation entry = none) ∧
    (∀ range buffers, KineticOperation_BuildGetKeyRange operation range buffers = none) ∧
    (∀ convert type info, KineticOperation_BuildGetLog convert operation type info = none) ∧
    (∀ p2pOp, KineticOperation_BuildP2POperation operation p2pOp = none) ∧
    (∀ old_pin new_pin lock,
      KineticOperation_BuildSetPin operation old_pin new_pin lock = none) ∧
    (∀ secure_erase pin, KineticOperation_BuildErase operation secure_erase pin = none) ∧
    (∀ lock pin, KineticOperation_BuildLockUnlock operation lock pin = none) ∧
    (∀ v, KineticOperation_BuildSetClusterVersion operation v = none) ∧
    (∀ ACLs, KineticOperation_BuildSetACL operation ACLs = none) ∧
    (∀ files calloc_succeeds fw_path,
      KineticOperation_BuildUpdateFirmware files calloc_succeeds operation fw_path = none) := by
  have hv := (failsValidation_iff operation).mp hfails
  refine ⟨?_, ?_, ?_, ?_, ?_, ?_, ?_, ?_, ?_, ?_, ?_, ?_, ?_, ?_, ?_, ?_⟩
  · simp [KineticOperation_BuildNoop, hv]
  · intro entry; simp [KineticOperation_BuildPut, hv]
  · intro entry; simp [KineticOperation_BuildGet, build_get_command, hv]
  · intro entry; simp [KineticOperation_BuildGetPrevious, build_get_command, hv]
  · intro entry; simp [KineticOperation_BuildGetNext, build_get_command, hv]
  · simp [KineticOperation_BuildFlush, hv]
  · intro entry; simp [KineticOperation_BuildDelete, hv]
  · intro range buffers; simp [KineticOperation_BuildGetKeyRange, hv]
  · intro convert type info; simp [KineticOperation_BuildGetLog, hv]
  · intro p2pOp; simp [KineticOperation_BuildP2POperation, hv]
  · intro old_pin new_pin lock; simp [KineticOperation_BuildSetPin, hv]
  · intro secure_erase pin; simp [KineticOperation_BuildErase, hv]
  · intro lock pin; simp [KineticOperation_BuildLockUnlock, hv]
  · intro v; simp [KineticOperation_BuildSetClusterVersion, hv]
  · intro ACLs; simp [KineticOperation_BuildSetACL, hv]
  · intro files calloc_succeeds fw_path; simp [KineticOperation_BuildUpdateFirmware, hv]

/-- C29 witness: the builders on an operation without a connection. -/
theorem builders_abort_on_failed_validation_witness :
    KineticOperation_BuildNoop unconnectedOperation = none ∧
    KineticOperation_BuildP2POperation unconnectedOperation (p2pChain 1) = none :=
  have h := builders_abort_on_failed_validation unconnectedOperation (Or.inl rfl)
  ⟨h.1, h.2.2.2.2.2.2.2.2.2.1 (p2pChain 1)⟩

/-- C29 counterexample: `KineticOperation_BuildPut` on an operation without a
connection does not return `KINETIC_STATUS_OPERATION_INVALID` with the
operation unchanged: the assertion `operation->connection != NULL` fails and
the call returns nothing. -/
theorem buildPut_unconnected_aborts :
    FailsValidation unconnectedOperation ∧
    KineticOperation_BuildPut unconnectedOperation putTestEntry = none ∧
    KineticOperation_BuildPut unconnectedOperation putTestEntry
      ≠ some (KINETIC_STATUS_OPERATION_INVALID, unconnectedOperation) :=
  ⟨Or.inl rfl, rfl, by simp [show KineticOperation_BuildPut unconnectedOperation putTestEntry
    = none from rfl]⟩

/-- The shape of an operation that passes validation. -/
theorem valid_shape {operation : KineticOperation}
    (hvalid : KineticOperation_ValidateOperation operation = true) :
    ∃ connection pinAuth header body status,
      operation.connection = some connection ∧
      operation.request
        = some { command := some { header := some header, body := body, status := status },
                 pinAuth := pinAuth } := by
  unfold KineticOperation_ValidateOperation at hvalid
  cases hc : operation.connection with
  | none => simp [hc] at hvalid
  | some connection =>
    cases hr : operation.request with
    | none => simp [hc, hr] at hvalid
    | some request =>
      rcases request with ⟨command, pinAuth⟩
      cases command with
      | none => simp [hc, hr] at hvalid
      | some command =>
        rcases command with ⟨header, body, status⟩
        cases header with
        | none => simp [hc, hr] at hvalid
        | some header => exact ⟨connection, pinAuth, header, body, status, rfl, rfl⟩

/-- The loop of `populateP2PStatusCodes`, sub-operation by sub-operation: the
output has a sub-operation at every index the caller's list has one, with the
status and the chained operation the rule gives and the buffers as they were. -/
theorem populateP2PStatusCodes_loop_spec (convert : Int → KineticStatus) :
    ∀ (operations : List KineticP2P_OperationData)
      (responses : List KineticProto_Command_P2POperation_Operation) (i : Nat)
      (d : KineticP2P_OperationData),
      operations[i]? = some d →
      ∃ written, (populateP2PStatusCodes_loop convert operations responses)[i]? = some written ∧
        written.resultStatus = expectedResultStatus convert responses[i]? ∧
        written.chainedOperation = expectedChained convert d.chainedOperation responses[i]? ∧
        written.buffers = d.buffers := by
  intro operations
  induction operations with
  | nil => intro responses i d h; simp at h
  | cons op rest ih =>
    intro responses i d h
    rcases op with ⟨key, version, newKey, chained, old⟩
    cases responses with
    | nil =>
      cases i with
      | zero =>
        simp only [List.getElem?_cons_zero, Option.some.injEq] at h
        subst h
        simp only [populateP2PStatusCodes_loop, List.getElem?_cons_zero]
        refine ⟨_, rfl, ?_, ?_, ?_⟩
        · simp [KineticP2P_OperationData.resultStatus, expectedResultStatus]
        · cases chained <;>
            simp [KineticP2P_OperationData.chainedOperation, expectedChained]
        · rfl
      | succ i =>
        simp only [List.getElem?_cons_succ] at h
        obtain ⟨written, h1, h2, h3, h4⟩ := ih [] i d h
        exact ⟨written, by simpa [populateP2PStatusCodes_loop] using h1,
          by simpa using h2, by simpa using h3, h4⟩
    | cons r responses =>
      rcases r with ⟨fields, p2pop, status⟩
      cases i with
      | zero =>
        simp only [List.getElem?_cons_zero, Option.some.injEq] at h
        subst h
        simp only [populateP2PStatusCodes_loop, List.getElem?_cons_zero]
        refine ⟨_, rfl, ?_, ?_, ?_⟩
        · cases status <;>
            simp [KineticP2P_OperationData.resultStatus, expectedResultStatus]
        · cases chained <;> cases p2pop <;>
            simp [KineticP2P_OperationData.chainedOperation, expectedChained,
              populateP2PStatusCodes_chained, populateP2PStatusCodes]
        · rfl
      | succ i =>
        simp only [List.getElem?_cons_succ] at h
        obtain ⟨written, h1, h2, h3, h4⟩ := ih responses i d h
        exact ⟨written, by simpa [populateP2PStatusCodes_loop] using h1,
          by simpa using h2, by simpa using h3, h4⟩

/-- The loop of `populateP2PStatusCodes` keeps the number of sub-operations. -/
theorem populateP2PStatusCodes_loop_length (convert : Int → KineticStatus) :
    ∀ (operations : List KineticP2P_OperationData)
      (responses : List KineticProto_Command_P2POperation_Operation),
      (populateP2PStatusCodes_loop convert operations responses).length = operations.length := by
  intro operations
  induction operations with
  | nil => intro responses; simp [populateP2PStatusCodes_loop]
  | cons op rest ih =>
    intro responses
    rcases op with ⟨key, version, newKey, chained, old⟩
    cases responses with
    | nil => simp [populateP2PStatusCodes_loop, ih]
    | cons r responses =>
      rcases r with ⟨fields, p2pop, status⟩
      simp [populateP2PStatusCodes_loop, ih]

/-- The rule of `populateP2PStatusCodes` at one level of the tree: same peer,
same number of sub-operations, and each sub-operation written as the rule
says. -/
theorem populateP2PStatusCodes_spec (convert : Int → KineticStatus)
    (p2pOp : KineticP2P_Operation) (p2pOperation : KineticProto_Command_P2POperation) :
    (populateP2PStatusCodes convert p2pOp (some p2pOperation)).peer = p2pOp.peer ∧
    (populateP2PStatusCodes convert p2pOp (some p2pOperation)).operations.length
      = p2pOp.operations.length ∧
    ∀ (i : Nat) (d : KineticP2P_OperationData), p2pOp.operations[i]? = some d →
      ∃ written,
        (populateP2PStatusCodes convert p2pOp (some p2pOperation)).operations[i]?
          = some written ∧
        written.resultStatus = expectedResultStatus convert p2pOperation.operation[i]? ∧
        written.chainedOperation
          = expectedChained convert d.chainedOperation p2pOperation.operation[i]? ∧
        written.buffers = d.buffers := by
  rcases p2pOp with ⟨peer, operations⟩
  rcases p2pOperation with ⟨rpeer, responses⟩
  refine ⟨rfl, ?_, ?_⟩
  · simp only [populateP2PStatusCodes, populateP2PStatusCodes_tree,
      KineticP2P_Operation.operations]
    exact populateP2PStatusCodes_loop_length convert operations responses
  · intro i d h
    simp only [populateP2PStatusCodes, populateP2PStatusCodes_tree,
      KineticP2P_Operation.operations, KineticProto_Command_P2POperation.operation] at h ⊢
    exact populateP2PStatusCodes_loop_spec convert operations responses i d h

/-- C27: `populateP2PStatusCodes` on a response tree writes, at every level it
visits, a result status into every sub-operation `i` of the caller's tree: the
status mapped from the code when `i` is below the response's count and the
response's sub-operation `i` has a status with a code, `INVALID` otherwise;
and it visits the chained operation of sub-operation `i` with the response's
nested tree when both are present (leaving it as it was otherwise). After
`KineticOperation_P2POperationCallback` with `SUCCESS` on an operation whose
response carries a p2p tree, the caller's tree is the one so written; the
callback returns the status it was given, whatever it is. -/
theorem p2pCallback_writes_statuses (convert : Int → KineticStatus)
    (operation : KineticOperation) (p2pOp : KineticP2P_Operation)
    (p2pOperation : KineticProto_Command_P2POperation) (body : KineticProto_Command_Body)
    (hp2p : operation.p2pOp = some p2pOp)
    (hresponse : KineticResponse.p2pOperation operation.response = some p2pOperation)
    (hbody : operation.body = some body) :
    (∃ after written,
      KineticOperation_P2POperationCallback convert operation KINETIC_STATUS_SUCCESS
        = some (KINETIC_STATUS_SUCCESS, after) ∧
      after.p2pOp = some written ∧
      written = populateP2PStatusCodes convert p2pOp (some p2pOperation) ∧
      written.peer = p2pOp.peer ∧
      written.operations.length = p2pOp.operations.length ∧
      ∀ (i : Nat) (d : KineticP2P_OperationData), p2pOp.operations[i]? = some d →
        ∃ w, written.operations[i]? = some w ∧
          w.resultStatus = expectedResultStatus convert p2pOperation.operation[i]? ∧
          w.chainedOperation
            = expectedChained convert d.chainedOperation p2pOperation.operation[i]? ∧
          w.buffers = d.buffers) ∧
    (∀ status, status ≠ KINETIC_STATUS_SUCCESS →
      ∃ after, KineticOperation_P2POperationCallback convert operation status
          = some (status, after) ∧
        after.p2pOp = some p2pOp) := by
  have hrequest : ∃ request command, operation.request = some request ∧
      request.command = some command ∧ command.body = some body := by
    unfold KineticOperation.body at hbody
    cases hr : operation.request with
    | none => simp [hr] at hbody
    | some request =>
      cases hc : request.command with
      | none => simp [hr, hc] at hbody
      | some command =>
        simp only [hr, hc, Option.some_bind] at hbody
        exact ⟨request, command, rfl, hc, hbody⟩
  obtain ⟨request, command, hr, hc, hb⟩ := hrequest
  obtain ⟨hpeer, hlen, hrule⟩ := populateP2PStatusCodes_spec convert p2pOp p2pOperation
  constructor
  · simp only [KineticOperation_P2POperationCallback, hresponse, hp2p, hr, hc, hb, if_true]
    exact ⟨_, _, rfl, rfl, rfl, hpeer, hlen, hrule⟩
  · intro status hstatus
    simp only [KineticOperation_P2POperationCallback, hstatus, hp2p, hr, hc, hb, if_false]
    exact ⟨_, rfl, rfl⟩

/-- C27 witness: a response with two sub-operations for a caller's tree with
three: the first gets `SUCCESS` and its chained sub-operation `NOT_FOUND`, the
second (no status in the response) and the third (beyond the response's count)
get `INVALID`. -/
theorem p2pCallback_writes_statuses_witness :
    ∃ after,
      KineticOperation_P2POperationCallback sampleStatusConversion p2pAnsweredOperation
          KINETIC_STATUS_SUCCESS
        = some (KINETIC_STATUS_SUCCESS, after) ∧
      after.p2pOp = some (.mk {}
        [ .mk p2pKey BYTE_BUFFER_NONE BYTE_BUFFER_NONE
            (some (.mk {}
              [.mk p2pKey BYTE_BUFFER_NONE BYTE_BUFFER_NONE none KINETIC_STATUS_NOT_FOUND]))
            KINETIC_STATUS_SUCCESS,
          .mk p2pKey BYTE_BUFFER_NONE BYTE_BUFFER_NONE none KINETIC_STATUS_INVALID,
          .mk p2pKey BYTE_BUFFER_NONE BYTE_BUFFER_NONE none KINETIC_STATUS_INVALID ]) := by
  obtain ⟨⟨after, written, h1, h2, h3, -⟩, -⟩ :=
    p2pCallback_writes_statuses sampleStatusConversion p2pAnsweredOperation p2pCallerTree
      p2pResponseTree {} rfl rfl rfl
  refine ⟨after, h1, ?_⟩
  rw [h2, h3]
  rfl

/-! ### The wire tree of a P2P operation -/

/-- What the loop body of `build_p2pOp` builds mirrors the caller's
sub-operation. -/
theorem build_p2pOp_operation_mirrors (nestingLevel : Nat) (d : KineticP2P_OperationData)
    (o : KineticProto_Command_P2POperation_Operation)
    (h : build_p2pOp_operation nestingLevel d = some (some o)) :
    MirrorsCaller nestingLevel d o := by
  rcases d with ⟨key, version, newKey, chained, old⟩
  unfold build_p2pOp_operation at h
  by_cases hk : ByteBuffer_IsNull key = true
  · simp [hk] at h
  · simp only [hk, Bool.false_eq_true, if_false] at h
    cases hc : build_p2pOp_chained nestingLevel chained with
    | none => simp [hc] at h
    | some r =>
      cases r with
      | none => simp [hc] at h
      | some p2pop =>
        simp only [hc, Option.some.injEq] at h
        subst h
        refine ⟨rfl, rfl, ?_, ?_, ?_, rfl, ?_, rfl, hc⟩ <;>
          simp [KineticProto_Command_P2POperation_Operation.fields,
            KineticP2P_OperationData.buffers]

/-- The loop of `build_p2pOp` builds one wire sub-operation per caller's
sub-operation, in order. -/
theorem build_p2pOp_loop_mirrors (nestingLevel : Nat) :
    ∀ (operations : List KineticP2P_OperationData)
      (protoOps : List KineticProto_Command_P2POperation_Operation),
      build_p2pOp_loop nestingLevel operations = some (some protoOps) →
      protoOps.length = operations.length ∧
      ∀ (i : Nat) (d : KineticP2P_OperationData), operations[i]? = some d →
        ∃ o, protoOps[i]? = some o ∧ MirrorsCaller nestingLevel d o := by
  intro operations
  induction operations with
  | nil =>
    intro protoOps h
    simp only [build_p2pOp_loop, Option.some.injEq] at h
    subst h
    exact ⟨rfl, fun i d hd => by simp at hd⟩
  | cons d0 rest ih =>
    intro protoOps h
    unfold build_p2pOp_loop at h
    cases h0 : build_p2pOp_operation nestingLevel d0 with
    | none => simp [h0] at h
    | some r0 =>
      cases r0 with
      | none => simp [h0] at h
      | some o0 =>
        cases hr : build_p2pOp_loop nestingLevel rest with
        | none => simp [h0, hr] at h
        | some rr =>
          cases rr with
          | none => simp [h0, hr] at h
          | some os =>
            simp only [h0, hr, Option.some.injEq] at h
            subst h
            obtain ⟨hlen, hrest⟩ := ih os hr
            refine ⟨by simp [hlen], ?_⟩
            intro i d hd
            cases i with
            | zero =>
              simp only [List.getElem?_cons_zero, Option.some.injEq] at hd
              subst hd
              exact ⟨o0, by simp, build_p2pOp_operation_mirrors nestingLevel _ o0 h0⟩
            | succ i =>
              simp only [List.getElem?_cons_succ] at hd ⊢
              exact hrest i d hd

/-- C31: in the wire tree `build_p2pOp` produces, the number and the order of
sub-operations are the caller's: `n_operation = numOperations`, and the `i`-th
wire sub-operation has the caller's `i`-th key with its used length, `force`
and `has_force` true exactly when the caller supplied no version,
`has_version` true exactly when a version was supplied and `has_newKey` exactly
when a new key was supplied; its nested tree is null when there is no chained
operation, and otherwise the tree `build_p2pOp` produces from the chained
operation one level deeper, of which the same holds. -/
theorem build_p2pOp_mirrors_caller (nestingLevel : Nat) (p2pOp : KineticP2P_Operation)
    (tree : KineticProto_Command_P2POperation)
    (h : build_p2pOp nestingLevel p2pOp = some (some tree)) :
    tree.operation.length = p2pOp.numOperations ∧
    (∀ (i : Nat) (d : KineticP2P_OperationData), p2pOp.operations[i]? = some d →
      ∃ o, tree.operation[i]? = some o ∧ MirrorsCaller nestingLevel d o ∧
        (d.chainedOperation = none → o.p2pop = none) ∧
        (∀ chained, d.chainedOperation = some chained →
          ∃ sub, o.p2pop = some sub ∧
            build_p2pOp (nestingLevel + 1) chained = some (some sub))) := by
  rcases p2pOp with ⟨peer, operations⟩
  unfold build_p2pOp at h
  by_cases hn : nestingLevel ≥ KINETIC_P2P_MAX_NESTING
  · simp [hn] at h
  · simp only [hn, if_false] at h
    cases hl : build_p2pOp_loop nestingLevel operations with
    | none => simp [hl] at h
    | some r =>
      cases r with
      | none => simp [hl] at h
      | some protoOps =>
        simp only [hl, Option.some.injEq] at h
        subst h
        obtain ⟨hlen, hops⟩ := build_p2pOp_loop_mirrors nestingLevel operations protoOps hl
        refine ⟨hlen, ?_⟩
        intro i d hd
        obtain ⟨o, ho, hm⟩ := hops i d hd
        refine ⟨o, ho, hm, ?_, ?_⟩
        · intro hnone
          have hc := hm.2.2.2.2.2.2.2.2
          rw [hnone] at hc
          simp only [build_p2pOp_chained, Option.some.injEq] at hc
          exact hc.symm
        · intro chained hsome
          have hc := hm.2.2.2.2.2.2.2.2
          rw [hsome] at hc
          unfold build_p2pOp_chained at hc
          cases hb : build_p2pOp (nestingLevel + 1) chained with
          | none => simp [hb] at hc
          | some r =>
            cases r with
            | none => simp [hb] at hc
            | some sub =>
              simp only [hb, Option.some.injEq] at hc
              exact ⟨sub, hc.symm, rfl⟩

/-- C31 witness: the wire tree of a caller's tree with two sub-operations, the
first versioned, renamed and chained. -/
theorem build_p2pOp_mirrors_caller_witness :
    ∃ tree, build_p2pOp 0 p2pVersionedTree = some (some tree) ∧
      tree.operation.length = 2 ∧
      tree.operation.map (fun o => (o.fields.has_version, o.fields.force, o.fields.has_newKey))
        = [(true, false, true), (false, true, false)] := by
  have hb : build_p2pOp 0 p2pVersionedTree = some (some
      (.mk (some { hostname := "", has_port := true, port := 0, has_tls := true, tls := false })
        [ .mk { has_key := true, key := { data := p2pKey.array.data, len := p2pKey.bytesUsed }
                has_newKey := true, newKey := { data := some [9, 9], len := 2 }
                has_version := true, version := { data := some [1], len := 1 }
                has_force := false, force := false }
            (some (.mk
              (some { hostname := "", has_port := true, port := 0, has_tls := true,
                      tls := false })
              [ .mk { has_key := true
                      key := { data := p2pKey.array.data, len := p2pKey.bytesUsed }
                      has_force := true, force := true } none none ]))
            none,
          .mk { has_key := true, key := { data := p2pKey.array.data, len := p2pKey.bytesUsed }
                has_force := true, force := true } none none ])) := by
    rfl
  exact ⟨_, hb, (build_p2pOp_mirrors_caller 0 p2pVersionedTree _ hb).1, rfl⟩

/-! ### Administrative builders, timeouts and DELETE -/

/-- C32: on an operation that passes validation, `KineticOperation_BuildSetPin`
with `lock = true` sets `oldLockPIN` to the old pin and `newLockPIN` to the
new pin, with their flags, and leaves the four erase-PIN fields of the security
message as they were; with `lock = false` it sets `oldErasePIN` and
`newErasePIN`, with their flags, and leaves the four lock-PIN fields as they
were. In both cases `pinAuth` is `false`. -/
theorem buildSetPin_selects_pins (operation : KineticOperation) (old_pin new_pin : ByteArray)
    (hvalid : KineticOperation_ValidateOperation operation = true) :
    (∃ built, KineticOperation_BuildSetPin operation old_pin new_pin true = some built ∧
      ∃ security, built.security = some security ∧
      security.oldLockPIN = old_pin ∧ security.has_oldLockPIN = true ∧
      security.newLockPIN = new_pin ∧ security.has_newLockPIN = true ∧
      security.oldErasePIN = operation.securityStorage.oldErasePIN ∧
      security.has_oldErasePIN = operation.securityStorage.has_oldErasePIN ∧
      security.newErasePIN = operation.securityStorage.newErasePIN ∧
      security.has_newErasePIN = operation.securityStorage.has_newErasePIN ∧
      built.pinAuth = some false) ∧
    (∃ built, KineticOperation_BuildSetPin operation old_pin new_pin false = some built ∧
      ∃ security, built.security = some security ∧
      security.oldErasePIN = old_pin ∧ security.has_oldErasePIN = true ∧
      security.newErasePIN = new_pin ∧ security.has_newErasePIN = true ∧
      security.oldLockPIN = operation.securityStorage.oldLockPIN ∧
      security.has_oldLockPIN = operation.securityStorage.has_oldLockPIN ∧
      security.newLockPIN = operation.securityStorage.newLockPIN ∧
      security.has_newLockPIN = operation.securityStorage.has_newLockPIN ∧
      built.pinAuth = some false) := by
  obtain ⟨connection, pinAuth, header, body, status, hc, hr⟩ := valid_shape hvalid
  rcases operation with ⟨connection0, request0, response, entry0, value, p2pOp0, callback,
    timeout, pending, buffers0, deviceInfo, pin0, closure⟩
  simp only at hc hr
  subst hc hr
  rcases old_pin with ⟨oldData, oldLen⟩
  rcases new_pin with ⟨newData, newLen⟩
  cases body <;> constructor
  all_goals
    simp only [KineticOperation_BuildSetPin, hvalid, Bool.not_true, Bool.false_eq_true,
      if_false, if_true]
    refine ⟨_, rfl, ?_⟩
    simp [KineticOperation.securityStorage, KineticOperation.security,
      KineticOperation.body, KineticOperation.pinAuth, KineticOperation.setPinAuth,
      KineticOperation.updateBody, KineticOperation.setMessageType,
      KineticOperation.updateHeader]

/-- C32 witness: the lock pins are set on a valid operation. -/
theorem buildSetPin_selects_pins_witness :
    ∃ built, KineticOperation_BuildSetPin validOperation samplePin otherPin true = some built ∧
      ∃ security, built.security = some security ∧
        security.oldLockPIN = samplePin ∧ security.newLockPIN = otherPin ∧
        security.has_oldErasePIN = false ∧ built.pinAuth = some false := by
  obtain ⟨built, h1, security, h2, h3, -, h5, -, -, h8, -, -, h11⟩ :=
    (buildSetPin_selects_pins validOperation samplePin otherPin rfl).1
  exact ⟨built, h1, security, h2, h3, h5, h8.trans rfl, h11⟩

/-- C33: on an operation that passes validation, `KineticOperation_BuildErase`
and `KineticOperation_BuildLockUnlock` store the pin supplied on the operation,
set `pinAuth`, and set `has_pinOpType` with `pinOpType` `SECURE_ERASE` when
`secure_erase` is true and `ERASE` otherwise, respectively `LOCK` when `lock`
is true and `UNLOCK` otherwise. -/
theorem buildErase_buildLockUnlock_pin_operations (operation : KineticOperation)
    (pin : Option ByteArray) (flag : Bool)
    (hvalid : KineticOperation_ValidateOperation operation = true) :
    (∃ built, KineticOperation_BuildErase operation flag pin = some built ∧
      built.pin = pin ∧ built.pinAuth = some true ∧
      ∃ pinOp, built.pinOp = some pinOp ∧ pinOp.has_pinOpType = true ∧
        pinOp.pinOpType =
          if flag then KineticProto_Command_PinOperation_PinOpType.SECURE_ERASE_PINOP
          else KineticProto_Command_PinOperation_PinOpType.ERASE_PINOP) ∧
    (∃ built, KineticOperation_BuildLockUnlock operation flag pin = some built ∧
      built.pin = pin ∧ built.pinAuth = some true ∧
      ∃ pinOp, built.pinOp = some pinOp ∧ pinOp.has_pinOpType = true ∧
        pinOp.pinOpType =
          if flag then KineticProto_Command_PinOperation_PinOpType.LOCK_PINOP
          else KineticProto_Command_PinOperation_PinOpType.UNLOCK_PINOP) := by
  obtain ⟨connection, pinAuth, header, body, status, hc, hr⟩ := valid_shape hvalid
  rcases operation with ⟨connection0, request0, response, entry0, value, p2pOp0, callback,
    timeout, pending, buffers0, deviceInfo, pin0, closure⟩
  simp only at hc hr
  subst hc hr
  cases body <;> constructor
  all_goals
    simp only [KineticOperation_BuildErase, KineticOperation_BuildLockUnlock, hvalid,
      Bool.not_true, Bool.false_eq_true, if_false]
    refine ⟨_, rfl, ?_⟩
    simp [KineticOperation.pinOp, KineticOperation.body, KineticOperation.pinAuth,
      KineticOperation.setPinAuth, KineticOperation.updateBody,
      KineticOperation.setMessageType, KineticOperation.updateHeader]

/-- C33 witness: a secure erase and an unlock with a pin on a valid operation. -/
theorem buildErase_buildLockUnlock_pin_operations_witness :
    (∃ built, KineticOperation_BuildErase validOperation true (some samplePin) = some built ∧
      built.pin = some samplePin ∧ built.pinAuth = some true ∧
      ∃ pinOp, built.pinOp = some pinOp ∧ pinOp.has_pinOpType = true ∧
        pinOp.pinOpType = KineticProto_Command_PinOperation_PinOpType.SECURE_ERASE_PINOP) ∧
    (∃ built, KineticOperation_BuildLockUnlock validOperation false (some samplePin)
        = some built ∧
      built.pin = some samplePin ∧ built.pinAuth = some true ∧
      ∃ pinOp, built.pinOp = some pinOp ∧ pinOp.has_pinOpType = true ∧
        pinOp.pinOpType = KineticProto_Command_PinOperation_PinOpType.UNLOCK_PINOP) :=
  ⟨(buildErase_buildLockUnlock_pin_operations validOperation (some samplePin) true rfl).1,
    (buildErase_buildLockUnlock_pin_operations validOperation (some samplePin) false rfl).2⟩

/-- C34: on an operation that passes validation, `KineticOperation_BuildSetACL`
sets the operation's timeout to 90 s, `KineticOperation_BuildSetPin` to 30 s,
`KineticOperation_BuildErase` (erase and secure erase) to 180 s and
`KineticOperation_BuildLockUnlock` to 30 s; every other builder leaves the
timeout at the value it had on entry, whatever it returns. -/
theorem builders_timeouts (operation : KineticOperation)
    (hvalid : KineticOperation_ValidateOperation operation = true) :
    (∀ ACLs, ∃ built, KineticOperation_BuildSetACL operation (some ACLs) = some built ∧
      built.timeoutSeconds = 90) ∧
    (∀ old_pin new_pin lock, ∃ built,
      KineticOperation_BuildSetPin operation old_pin new_pin lock = some built ∧
      built.timeoutSeconds = 30) ∧
    (∀ secure_erase pin, ∃ built,
      KineticOperation_BuildErase operation secure_erase pin = some built ∧
      built.timeoutSeconds = 180) ∧
    (∀ lock pin, ∃ built, KineticOperation_BuildLockUnlock operation lock pin = some built ∧
      built.timeoutSeconds = 30) ∧
    (∃ built, KineticOperation_BuildNoop operation = some built ∧
      built.timeoutSeconds = operation.timeoutSeconds) ∧
    (∀ entry status built, KineticOperation_BuildPut operation entry = some (status, built) →
      built.timeoutSeconds = operation.timeoutSeconds) ∧
    (∀ entry, ∃ built, KineticOperation_BuildGet operation entry = some built ∧
      built.timeoutSeconds = operation.timeoutSeconds) ∧
    (∀ entry, ∃ built, KineticOperation_BuildGetNext operation entry = some built ∧
      built.timeoutSeconds = operation.timeoutSeconds) ∧
    (∀ entry, ∃ built, KineticOperation_BuildGetPrevious operation entry = some built ∧
      built.timeoutSeconds = operation.timeoutSeconds) ∧
    (∀ entry, ∃ built, KineticOperation_BuildDelete operation entry = some built ∧
      built.timeoutSeconds = operation.timeoutSeconds) ∧
    (∃ built, KineticOperation_BuildFlush operation = some built ∧
      built.timeoutSeconds = operation.timeoutSeconds) ∧
    (∀ range buffers, ∃ built,
      KineticOperation_BuildGetKeyRange operation (some range) (some buffers) = some built ∧
      built.timeoutSeconds = operation.timeoutSeconds) ∧
    (∀ convert type info, ∃ built,
      KineticOperation_BuildGetLog convert operation type info = some built ∧
      built.timeoutSeconds = operation.timeoutSeconds) ∧
    (∀ p2pOp status built,
      KineticOperation_BuildP2POperation operation p2pOp = some (status, built) →
      built.timeoutSeconds = operation.timeoutSeconds) ∧
    (∀ v, ∃ built, KineticOperation_BuildSetClusterVersion operation v = some built ∧
      built.timeoutSeconds = operation.timeoutSeconds) ∧
    (∀ files calloc_succeeds fw_path, ∃ status built,
      KineticOperation_BuildUpdateFirmware files calloc_succeeds operation fw_path
        = some (status, built) ∧
      built.timeoutSeconds = operation.timeoutSeconds) := by
  obtain ⟨connection, pinAuth, header, body, status, hc, hr⟩ := valid_shape hvalid
  rcases operation with ⟨connection0, request0, response, entry0, value, p2pOp0, callback,
    timeout, pending, buffers0, deviceInfo, pin0, closure⟩
  simp only at hc hr
  subst hc hr
  refine ⟨?_, ?_, ?_, ?_, ?_, ?_, ?_, ?_, ?_, ?_, ?_, ?_, ?_, ?_, ?_, ?_⟩
  · intro ACLs
    simp [KineticOperation_BuildSetACL, KineticOperation_TimeoutSetACL, hvalid]
  · intro old_pin new_pin lock
    simp [KineticOperation_BuildSetPin, KineticOperation_TimeoutSetPin, hvalid]
  · intro secure_erase pin
    simp [KineticOperation_BuildErase, KineticOperation_TimeoutErase, hvalid]
  · intro lock pin
    simp [KineticOperation_BuildLockUnlock, KineticOperation_TimeoutLockUnlock, hvalid]
  · simp [KineticOperation_BuildNoop, KineticOperation.setMessageType,
      KineticOperation.updateHeader, hvalid]
  · intro entry status built hb
    unfold KineticOperation_BuildPut at hb
    simp only [hvalid, Bool.not_true, Bool.false_eq_true, if_false] at hb
    split at hb
    · simp only [Option.some.injEq, Prod.mk.injEq] at hb
      rw [← hb.2]
    · simp only [Option.some.injEq, Prod.mk.injEq] at hb
      rw [← hb.2]
      rfl
  · intro entry
    by_cases hd : entry.value.array.data = none <;>
      simp [KineticOperation_BuildGet, build_get_command, KineticMessage_ConfigureKeyValue,
        KineticOperation.updateBody, KineticOperation.setMessageType,
        KineticOperation.updateHeader, hvalid, hd]
  · intro entry
    by_cases hd : entry.value.array.data = none <;>
      simp [KineticOperation_BuildGetNext, build_get_command, KineticMessage_ConfigureKeyValue,
        KineticOperation.updateBody, KineticOperation.setMessageType,
        KineticOperation.updateHeader, hvalid, hd]
  · intro entry
    by_cases hd : entry.value.array.data = none <;>
      simp [KineticOperation_BuildGetPrevious, build_get_command,
        KineticMessage_ConfigureKeyValue, KineticOperation.updateBody,
        KineticOperation.setMessageType, KineticOperation.updateHeader, hvalid, hd]
  · intro entry
    by_cases hd : entry.value.array.data = none <;>
      simp [KineticOperation_BuildDelete, KineticMessage_ConfigureKeyValue,
        KineticOperation.updateBody, KineticOperation.setMessageType,
        KineticOperation.updateHeader, hvalid, hd]
  · simp [KineticOperation_BuildFlush, KineticOperation.setMessageType,
      KineticOperation.updateHeader, hvalid]
  · intro range buffers
    simp [KineticOperation_BuildGetKeyRange, KineticMessage_ConfigureKeyRange,
      KineticOperation.updateBody, KineticOperation.setMessageType,
      KineticOperation.updateHeader, hvalid]
  · intro convert type info
    simp [KineticOperation_BuildGetLog, KineticOperation.updateBody,
      KineticOperation.setMessageType, KineticOperation.updateHeader, hvalid]
  · intro p2pOp status built hb
    unfold KineticOperation_BuildP2POperation at hb
    simp only [hvalid, Bool.not_true, Bool.false_eq_true, if_false] at hb
    cases hbuild : build_p2pOp 0 p2pOp with
    | none => simp [hbuild] at hb
    | some tree =>
      simp only [hbuild] at hb
      split at hb
      · simp only [Option.some.injEq, Prod.mk.injEq] at hb
        rw [← hb.2]
        rfl
      · split at hb
        · simp only [Option.some.injEq, Prod.mk.injEq] at hb
          rw [← hb.2]
          rfl
        · simp only [Option.some.injEq, Prod.mk.injEq] at hb
          rw [← hb.2]
          rfl
  · intro v
    simp [KineticOperation_BuildSetClusterVersion, KineticOperation.updateBody,
      KineticOperation.setMessageType, KineticOperation.updateHeader, hvalid]
  · intro files calloc_succeeds fw_path
    unfold KineticOperation_BuildUpdateFirmware
    simp only [hvalid, Bool.not_true, Bool.false_eq_true, if_false]
    cases fw_path with
    | none => exact ⟨_, _, rfl, rfl⟩
    | some path =>
      simp only
      cases hfile : files path with
      | none => exact ⟨_, _, rfl, rfl⟩
      | some image =>
        simp only
        split
        · exact ⟨_, _, rfl, rfl⟩
        · split
          · exact ⟨_, _, rfl, rfl⟩
          · exact ⟨_, _, rfl, rfl⟩

/-- C34 witness: the set-ACL builder sets 90 s and the NOOP builder keeps the
10 s of a valid operation. -/
theorem builders_timeouts_witness :
    (∃ built, KineticOperation_BuildSetACL validOperation (some emptyACLGroup) = some built ∧
      built.timeoutSeconds = 90) ∧
    (∃ built, KineticOperation_BuildNoop validOperation = some built ∧
      built.timeoutSeconds = 10) :=
  have h := builders_timeouts validOperation rfl
  ⟨h.1 emptyACLGroup, h.2.2.2.2.1⟩

/-- C40: on an operation that passes validation, `KineticOperation_BuildDelete`
leaves the entry's key, tag, dbVersion and newVersion and the region and
capacity of its value buffer as they were. When the entry has a value buffer,
the buffer is reset to empty (`bytesUsed = 0`) and the operation's value is
that buffer's region with length 0; when the value buffer is null it is left
as it was and the operation's value is not assigned. -/
theorem buildDelete_resets_value (operation : KineticOperation) (entry : KineticEntry)
    (hvalid : KineticOperation_ValidateOperation operation = true) :
    ∃ built written, KineticOperation_BuildDelete operation entry = some built ∧
      built.entry = some written ∧
      written.key = entry.key ∧ written.tag = entry.tag ∧
      written.dbVersion = entry.dbVersion ∧ written.newVersion = entry.newVersion ∧
      written.value.array = entry.value.array ∧
      (entry.value.array.data ≠ none →
        written.value.bytesUsed = 0 ∧
        built.value = { data := entry.value.array.data, len := 0 }) ∧
      (entry.value.array.data = none →
        written.value = entry.value ∧ built.value = operation.value) := by
  unfold KineticOperation_BuildDelete
  rw [hvalid]
  simp only [Bool.not_true, Bool.false_eq_true, if_false]
  by_cases hd : entry.value.array.data = none
  · rw [if_neg (fun h => h hd)]
    exact ⟨_, entry, rfl, rfl, rfl, rfl, rfl, rfl, rfl, fun h => absurd hd h,
      fun _ => ⟨rfl, rfl⟩⟩
  · rw [if_pos hd]
    exact ⟨_, _, rfl, rfl, rfl, rfl, rfl, rfl, rfl, fun _ => ⟨rfl, rfl⟩,
      fun h => absurd h hd⟩

/-- C40 witness: the value buffer of an entry holding two bytes is emptied. -/
theorem buildDelete_resets_value_witness :
    ∃ built written, KineticOperation_BuildDelete validOperation usedValueEntry = some built ∧
      built.entry = some written ∧
      written.value = { array := { data := some [1, 2, 0, 0], len := 4 }, bytesUsed := 0 } ∧
      built.value.len = 0 := by
  obtain ⟨built, written, h1, h2, -, -, -, -, h7, h8, -⟩ :=
    buildDelete_resets_value validOperation usedValueEntry rfl
  obtain ⟨h9, h10⟩ := h8 (by decide)
  refine ⟨built, written, h1, h2, ?_, by rw [h10]⟩
  rcases written with ⟨k, ⟨arr, used⟩, dv, t, a, nv, m, f⟩
  simp only at h7 h9
  subst h7 h9
  rfl

/-! ### GET without a value -/

/-- The GET post-processor appends nothing to the value buffer of an entry
whose buffer is null or which asks for metadata only: whatever the status and
the response, it returns and the entry's value buffer is as before. -/
theorem get_cb_keeps_value (operation : KineticOperation) (connection : KineticConnection)
    (entry : KineticEntry) (status : KineticStatus)
    (hc : operation.connection = some connection) (he : operation.entry = some entry)
    (hr : status = KINETIC_STATUS_SUCCESS → operation.response ≠ none)
    (hskip : entry.metadataOnly = true ∨ entry.value.array.data = none) :
    ∃ returned after written, get_cb operation status = some (returned, after) ∧
      after.entry = some written ∧ written.value = entry.value := by
  unfold get_cb
  rw [hc, he]
  simp only
  by_cases hs : status = KINETIC_STATUS_SUCCESS
  · rw [if_pos hs]
    cases hresp : operation.response with
    | none => exact absurd hresp (hr hs)
    | some response =>
      simp only
      have hno : ∀ e : KineticEntry, e.value = entry.value → e.metadataOnly = entry.metadataOnly →
          (!e.metadataOnly && !ByteBuffer_IsNull e.value) = false := by
        intro e hv hm
        rw [hv, hm]
        rcases hskip with h | h
        · simp [h]
        · simp [ByteBuffer_IsNull, h]
      cases hkv : KineticResponse_GetKeyValue response with
      | none =>
        simp only [Bool.not_true, Bool.false_eq_true, if_false, hno entry rfl rfl]
        exact ⟨_, _, _, rfl, rfl, rfl⟩
      | some keyValue =>
        simp only
        have hv := (copy_keeps_value keyValue entry).1
        have hm := (copy_keeps_value keyValue entry).2
        by_cases hcopy : (Copy_KineticProto_Command_KeyValue_to_KineticEntry keyValue entry).2
            = true
        · simp only [hcopy, Bool.not_true, Bool.false_eq_true, if_false, hno _ hv hm]
          exact ⟨_, _, _, rfl, rfl, hv⟩
        · simp only [hcopy, Bool.not_false, if_true]
          exact ⟨_, _, _, rfl, rfl, hv⟩
  · rw [if_neg hs]
    exact ⟨_, _, _, rfl, he, rfl⟩

/-- C36 (as amended): for GET, GETNEXT and GETPREVIOUS on an operation that
passes validation, with any status and any response (one being attached when
the status is `SUCCESS`). When the entry's value buffer is null, the builder
and the post-processor leave it exactly as it was. When `metadataOnly` is set
and the value buffer is not null, the builder resets the buffer to empty
(`bytesUsed = 0`, region and capacity kept) and the post-processor appends
nothing to it. -/
theorem get_without_value_keeps_buffer (cmd : GetCommand) (operation : KineticOperation)
    (entry : KineticEntry) (status : KineticStatus) (response : Option KineticResponse)
    (hvalid : KineticOperation_ValidateOperation operation = true)
    (hr : status = KINETIC_STATUS_SUCCESS → response ≠ none)
    (hskip : entry.metadataOnly = true ∨ entry.value.array.data = none) :
    ∃ built builtEntry, cmd.build operation entry = some built ∧
      built.entry = some builtEntry ∧
      (entry.value.array.data = none → builtEntry.value = entry.value) ∧
      (entry.value.array.data ≠ none → builtEntry.value = ByteBuffer_Reset entry.value) ∧
      ∃ returned after written,
        cmd.callback { built with response := response } status = some (returned, after) ∧
        after.entry = some written ∧ written.value = builtEntry.value := by
  obtain ⟨connection, hconn⟩ := validate_connection hvalid
  have hbuild : ∀ cb command_id, ∃ built builtEntry,
      build_get_command operation entry cb command_id = some built ∧
      built.connection = some connection ∧
      built.entry = some builtEntry ∧
      builtEntry.metadataOnly = entry.metadataOnly ∧
      (entry.value.array.data = none → builtEntry.value = entry.value) ∧
      (entry.value.array.data ≠ none → builtEntry.value = ByteBuffer_Reset entry.value) := by
    intro cb command_id
    unfold build_get_command
    rw [hvalid]
    simp only [Bool.not_true, Bool.false_eq_true, if_false]
    by_cases hd : entry.value.array.data = none
    · rw [if_neg (fun h => h hd)]
      exact ⟨_, entry, rfl, hconn, rfl, rfl, fun _ => rfl, fun h => absurd hd h⟩
    · rw [if_pos hd]
      exact ⟨_, _, rfl, hconn, rfl, rfl, fun h => absurd h hd, fun _ => rfl⟩
  have hmain : ∀ cb command_id, ∃ built builtEntry,
      build_get_command operation entry cb command_id = some built ∧
      built.entry = some builtEntry ∧
      (entry.value.array.data = none → builtEntry.value = entry.value) ∧
      (entry.value.array.data ≠ none → builtEntry.value = ByteBuffer_Reset entry.value) ∧
      ∃ returned after written,
        get_cb { built with response := response } status = some (returned, after) ∧
        after.entry = some written ∧ written.value = builtEntry.value := by
    intro cb command_id
    obtain ⟨built, builtEntry, h1, h2, h3, h4, h5, h6⟩ := hbuild cb command_id
    refine ⟨built, builtEntry, h1, h3, h5, h6, ?_⟩
    apply get_cb_keeps_value { built with response := response } connection builtEntry status
      h2 h3 hr
    rcases hskip with h | h
    · exact Or.inl (h4.trans h)
    · exact Or.inr (by rw [h5 h]; exact h)
  cases cmd
  · exact hmain _ _
  · exact hmain _ _
  · exact hmain _ _

/-- C36 witness: a GET for metadata only on an entry whose value buffer holds
two bytes, answered with a three-byte value: nothing is appended to the buffer
the builder emptied. -/
theorem get_without_value_keeps_buffer_witness :
    ∃ built builtEntry, KineticOperation_BuildGet validOperation metadataOnlyEntry = some built ∧
      built.entry = some builtEntry ∧
      builtEntry.value = ByteBuffer_Reset metadataOnlyEntry.value ∧
      ∃ returned after written,
        get_cmd_cb { built with response := some threeByteResponse } KINETIC_STATUS_SUCCESS
          = some (returned, after) ∧
        after.entry = some written ∧ written.value = builtEntry.value := by
  obtain ⟨built, builtEntry, h1, h2, -, h4, h5⟩ :=
    get_without_value_keeps_buffer GetCommand.GET validOperation metadataOnlyEntry
      KINETIC_STATUS_SUCCESS (some threeByteResponse) rfl (fun _ => by simp) (Or.inl rfl)
  exact ⟨built, builtEntry, h1, h2, h4 (by decide), h5⟩

/-- C36 counterexample: with `metadataOnly` set on an entry whose value buffer
holds two bytes, `KineticOperation_BuildGet` does not leave the buffer as it
was: it resets `bytesUsed` from 2 to 0. -/
theorem buildGet_metadataOnly_resets_value :
    metadataOnlyEntry.metadataOnly = true ∧
    metadataOnlyEntry.value.bytesUsed = 2 ∧
    (KineticOperation_BuildGet validOperation metadataOnlyEntry).map
        (fun built => built.entry.map fun written => written.value)
      = some (some { array := { data := some [1, 2, 0, 0], len := 4 }, bytesUsed := 0 }) :=
  ⟨rfl, rfl, rfl⟩

/-! ### Post-processors on a status other than SUCCESS -/

/-- C37: every post-processor, on an operation that meets its assertions and
with a status other than `SUCCESS`, returns that status, and leaves the
caller's entry, key-buffer array and device-info out-pointer as they were. -/
theorem callbacks_pass_failure_status (convert : Int → KineticStatus)
    (callback : KineticOperationCallback) (operation : KineticOperation)
    (status : KineticStatus) (hstatus : status ≠ KINETIC_STATUS_SUCCESS)
    (hasserts : CallbackAsserts callback operation) :
    ∃ after, runCallback convert callback operation status = some (status, after) ∧
      after.entry = operation.entry ∧ after.buffers = operation.buffers ∧
      after.deviceInfo = operation.deviceInfo := by
  cases callback
  case KineticOperation_NoopCallback =>
    simp only [CallbackAsserts] at hasserts
    cases hc : operation.connection with
    | none => simp [hc] at hasserts
    | some connection =>
      exact ⟨operation, by simp [runCallback, KineticOperation_NoopCallback, statusCallback, hc],
        rfl, rfl, rfl⟩
  case KineticOperation_PutCallback =>
    obtain ⟨h1, h2⟩ := hasserts
    cases hc : operation.connection with
    | none => simp [hc] at h1
    | some connection =>
      cases he : operation.entry with
      | none => simp [he] at h2
      | some entry =>
        exact ⟨operation,
          by simp [runCallback, KineticOperation_PutCallback, hc, he, hstatus], he.symm ▸ rfl,
          rfl, rfl⟩
  case get_cmd_cb =>
    obtain ⟨h1, h2⟩ := hasserts
    cases hc : operation.connection with
    | none => simp [hc] at h1
    | some connection =>
      cases he : operation.entry with
      | none => simp [he] at h2
      | some entry =>
        exact ⟨operation, by simp [runCallback, get_cmd_cb, get_cb, hc, he, hstatus],
          he.symm ▸ rfl, rfl, rfl⟩
  case getprevious_cmd_cb =>
    obtain ⟨h1, h2⟩ := hasserts
    cases hc : operation.connection with
    | none => simp [hc] at h1
    | some connection =>
      cases he : operation.entry with
      | none => simp [he] at h2
      | some entry =>
        exact ⟨operation, by simp [runCallback, getprevious_cmd_cb, get_cb, hc, he, hstatus],
          he.symm ▸ rfl, rfl, rfl⟩
  case getnext_cmd_cb =>
    obtain ⟨h1, h2⟩ := hasserts
    cases hc : operation.connection with
    | none => simp [hc] at h1
    | some connection =>
      cases he : operation.entry with
      | none => simp [he] at h2
      | some entry =>
        exact ⟨operation, by simp [runCallback, getnext_cmd_cb, get_cb, hc, he, hstatus],
          he.symm ▸ rfl, rfl, rfl⟩
  case KineticOperation_FlushCallback =>
    simp only [CallbackAsserts] at hasserts
    cases hc : operation.connection with
    | none => simp [hc] at hasserts
    | some connection =>
      exact ⟨operation, by simp [runCallback, KineticOperation_FlushCallback, statusCallback, hc],
        rfl, rfl, rfl⟩
  case KineticOperation_DeleteCallback =>
    obtain ⟨h1, h2⟩ := hasserts
    cases hc : operation.connection with
    | none => simp [hc] at h1
    | some connection =>
      cases he : operation.entry with
      | none => simp [he] at h2
      | some entry =>
        exact ⟨operation, by simp [runCallback, KineticOperation_DeleteCallback, hc, he],
          he.symm ▸ rfl, rfl, rfl⟩
  case KineticOperation_GetKeyRangeCallback =>
    obtain ⟨h1, buffers, h2, h3⟩ := hasserts
    cases hc : operation.connection with
    | none => simp [hc] at h1
    | some connection =>
      have hlen : ¬ buffers.buffers.length = 0 := by
        intro h
        exact h3 (List.length_eq_zero.mp h)
      exact ⟨operation,
        by simp [runCallback, KineticOperation_GetKeyRangeCallback, hc, h2, hlen, hstatus],
        rfl, rfl, rfl⟩
  case KineticOperation_GetLogCallback =>
    obtain ⟨h1, h2⟩ := hasserts
    cases hc : operation.connection with
    | none => simp [hc] at h1
    | some connection =>
      cases hd : operation.deviceInfo with
      | none => simp [hd] at h2
      | some info =>
        exact ⟨operation,
          by simp [runCallback, KineticOperation_GetLogCallback, hc, hd, hstatus], rfl, rfl,
          hd.symm ▸ rfl⟩
  case KineticOperation_P2POperationCallback =>
    simp only [CallbackAsserts, KineticOperation.body] at hasserts
    cases hr : operation.request with
    | none => simp [hr] at hasserts
    | some request =>
      cases hcmd : request.command with
      | none => simp [hr, hcmd] at hasserts
      | some command =>
        cases hb : command.body with
        | none => simp [hr, hcmd, hb] at hasserts
        | some body =>
          simp only [runCallback, KineticOperation_P2POperationCallback, hstatus, if_false, hr,
            hcmd, hb]
          exact ⟨_, rfl, rfl, rfl, rfl⟩
  case KineticOperation_SetPinCallback =>
    simp only [CallbackAsserts] at hasserts
    cases hc : operation.connection with
    | none => simp [hc] at hasserts
    | some connection =>
      exact ⟨operation,
        by simp [runCallback, KineticOperation_SetPinCallback, statusCallback, hc],
        rfl, rfl, rfl⟩
  case KineticOperation_EraseCallback =>
    simp only [CallbackAsserts] at hasserts
    cases hc : operation.connection with
    | none => simp [hc] at hasserts
    | some connection =>
      exact ⟨operation,
        by simp [runCallback, KineticOperation_EraseCallback, statusCallback, hc],
        rfl, rfl, rfl⟩
  case KineticOperation_LockUnlockCallback =>
    simp only [CallbackAsserts] at hasserts
    cases hc : operation.connection with
    | none => simp [hc] at hasserts
    | some connection =>
      exact ⟨operation,
        by simp [runCallback, KineticOperation_LockUnlockCallback, statusCallback, hc],
        rfl, rfl, rfl⟩
  case KineticOperation_SetClusterVersionCallback =>
    simp only [CallbackAsserts] at hasserts
    cases hc : operation.connection with
    | none => simp [hc] at hasserts
    | some connection =>
      exact ⟨operation,
        by simp [runCallback, KineticOperation_SetClusterVersionCallback, hc, hstatus],
        rfl, rfl, rfl⟩
  case KineticOperation_SetACLCallback =>
    simp only [CallbackAsserts] at hasserts
    cases hc : operation.connection with
    | none => simp [hc] at hasserts
    | some connection =>
      exact ⟨operation,
        by simp [runCallback, KineticOperation_SetACLCallback, statusCallback, hc],
        rfl, rfl, rfl⟩
  case KineticOperation_UpdateFirmwareCallback =>
    simp only [CallbackAsserts] at hasserts
    cases hc : operation.connection with
    | none => simp [hc] at hasserts
    | some connection =>
      simp only [runCallback, KineticOperation_UpdateFirmwareCallback, hc]
      split
      · exact ⟨_, rfl, rfl, rfl, rfl⟩
      · exact ⟨_, rfl, rfl, rfl, rfl⟩

/-- C37 witness: the GET post-processor called with `NOT_FOUND` on an operation
with an entry. -/
theorem callbacks_pass_failure_status_witness :
    ∃ after,
      get_cmd_cb answeredOperation KINETIC_STATUS_NOT_FOUND
        = some (KINETIC_STATUS_NOT_FOUND, after) ∧
      after.entry = some usedValueEntry :=
  have h := callbacks_pass_failure_status sampleStatusConversion
    KineticOperationCallback.get_cmd_cb answeredOperation KINETIC_STATUS_NOT_FOUND
    (by decide) ⟨rfl, rfl⟩
  h.elim fun after hafter => ⟨after, hafter.1, hafter.2.1⟩

/-! ### ACL documents: permissions as a string and as an array -/

/-- The `permission` field as a single string and as the one-element array of
that string: the same code, and on success the same scope, with one permission. -/
theorem unpack_scope_permission_string_singleton (a b : json_object) (s : String)
    (scope : KineticProto_Command_Security_ACL_Scope)
    (ha : json_object_object_get_ex a "permission" = (true, .string s))
    (hb : json_object_object_get_ex b "permission" = (true, .array [.string s])) :
    (cString s ∈ validPermissionNames →
      unpack_scope_permission a scope
        = some (ACL_OK,
            { scope with n_permission := 1, permission := some [permission_of_str s] }) ∧
      unpack_scope_permission b scope = unpack_scope_permission a scope) ∧
    (cString s ∉ validPermissionNames →
      (∃ left, unpack_scope_permission a scope = some (ACL_ERROR_INVALID_FIELD, left)) ∧
      (∃ left, unpack_scope_permission b scope = some (ACL_ERROR_INVALID_FIELD, left))) := by
  have hta := unpack_scope_permission_typed a scope (by rw [ha])
  have htb := unpack_scope_permission_typed b scope (by rw [hb]; rfl)
  rw [hta, htb]
  unfold permissionOutcome
  rw [ha, hb]
  simp only [List.filterMap_cons, json_object.asString, List.filterMap_nil, storePermissions]
  constructor
  · intro hvalid
    have hp : ¬ permission_of_str s = .INVALID_PERMISSION :=
      fun h => (permission_of_str_invalid_iff s).mp h hvalid
    simp [hp]
  · intro hinvalid
    have hp : permission_of_str s = .INVALID_PERMISSION :=
      (permission_of_str_invalid_iff s).mpr hinvalid
    simp [hp]

/-- The `permission` field as an array of valid names: all are stored, in
array order. -/
theorem unpack_scope_permission_valid_array (c : json_object) (names : List String)
    (scope : KineticProto_Command_Security_ACL_Scope)
    (hc : json_object_object_get_ex c "permission" = (true, .array (names.map .string)))
    (hvalid : ∀ name, name ∈ names → cString name ∈ validPermissionNames) :
    unpack_scope_permission c scope
      = some (ACL_OK,
          { scope with
            n_permission := names.length
            permission := some (names.map permission_of_str) }) := by
  have ht := unpack_scope_permission_typed c scope (by
    rw [hc]
    simp [json_object.isString])
  rw [ht]
  unfold permissionOutcome
  rw [hc]
  have hf : ∀ ns : List String,
      (ns.map json_object.string).filterMap json_object.asString = ns := by
    intro ns
    induction ns with
    | nil => rfl
    | cons n ns ih =>
      simp only [List.map_cons, List.filterMap_cons, json_object.asString]
      rw [ih]
  simp only [hf names]
  rcases storePermissions_code names { scope with n_permission := 0, permission := some [] }
    with ⟨-, str, hmem, hbad⟩ | ⟨h1, -, h3⟩
  · exact absurd (hvalid str hmem) hbad
  · cases hs : storePermissions names { scope with n_permission := 0, permission := some [] } with
    | mk res sc =>
      rw [hs] at h1 h3
      simp only at h1 h3
      subst h1 h3
      cases names with
      | nil => simp
      | cons n ns => simp

/-- C39: in a scope, a permission given as the single string `s` is parsed like
the one-element array `[s]`: for two scope entries that differ in that alone,
`unpack_scope` gives the same result code, and on `ACL_OK` the same scope, with
`n_permission = 1` and `permission[0]` the permission named `s` (the C string
of `s` then being one of the valid names). For an array of names, each valid as
a C string, that fits the `ACL_MAX_PERMISSIONS` slots allocated, the permission
field is read with `ACL_OK`, `n_permission` is the array's length and the
permissions are stored in array order. -/
theorem permission_string_like_singleton_array (a b : json_object) (s : String)
    (ha : json_object_object_get_ex a "permission" = (true, .string s))
    (hb : json_object_object_get_ex b "permission" = (true, .array [.string s]))
    (hsame : ∀ k, k ∈ otherScopeFieldNames →
      json_object_object_get_ex b k = json_object_object_get_ex a k) :
    (unpack_scope b).map Prod.fst = (unpack_scope a).map Prod.fst ∧
    (∀ scope, unpack_scope a = some (ACL_OK, scope) →
      unpack_scope b = some (ACL_OK, scope) ∧ scope.n_permission = 1 ∧
      scope.permission = some [permission_of_str s] ∧ cString s ∈ validPermissionNames) ∧
    (∀ (c : json_object) (names : List String)
      (scope : KineticProto_Command_Security_ACL_Scope),
      json_object_object_get_ex c "permission" = (true, .array (names.map .string)) →
      (∀ name, name ∈ names → cString name ∈ validPermissionNames) →
      names.length ≤ ACL_MAX_PERMISSIONS →
      unpack_scope_permission c scope
        = some (ACL_OK,
            { scope with
              n_permission := names.length
              permission := some (names.map permission_of_str) })) := by
  have h1 := hsame "offset" (by decide)
  have h2 := hsame "value" (by decide)
  have h4 := hsame "TlsRequired" (by decide)
  have hoff : unpack_scope_offset b {} = unpack_scope_offset a {} := by
    simp only [unpack_scope_offset, h1]
  have hval : ∀ sc, unpack_scope_value b sc = unpack_scope_value a sc := by
    intro sc
    simp only [unpack_scope_value, h2]
  have htls : ∀ sc, unpack_scope_TlsRequired b sc = unpack_scope_TlsRequired a sc := by
    intro sc
    simp only [unpack_scope_TlsRequired, h4]
  refine ⟨?_, ?_, fun c names scope hc hv _ =>
    unpack_scope_permission_valid_array c names scope hc hv⟩
  · unfold unpack_scope
    rw [hoff]
    cases unpack_scope_offset a {} with
    | none => rfl
    | some sc1 =>
      simp only [hval]
      cases unpack_scope_value a sc1 with
      | none => rfl
      | some sc2 =>
        simp only
        by_cases hs : cString s ∈ validPermissionNames
        · obtain ⟨hpa, hpb⟩ := (unpack_scope_permission_string_singleton a b s sc2 ha hb).1 hs
          rw [hpb, hpa]
          simp only [htls]
        · obtain ⟨⟨la, hpa⟩, ⟨lb, hpb⟩⟩ :=
            (unpack_scope_permission_string_singleton a b s sc2 ha hb).2 hs
          rw [hpb, hpa]
          rfl
  · intro scope hok
    unfold unpack_scope at hok ⊢
    rw [hoff]
    cases hof : unpack_scope_offset a {} with
    | none => simp [hof] at hok
    | some sc1 =>
      simp only [hof, hval] at hok ⊢
      cases hv : unpack_scope_value a sc1 with
      | none => simp [hv] at hok
      | some sc2 =>
        simp only [hv] at hok ⊢
        by_cases hs : cString s ∈ validPermissionNames
        · obtain ⟨hpa, hpb⟩ := (unpack_scope_permission_string_singleton a b s sc2 ha hb).1 hs
          rw [hpb]
          rw [hpa] at hok ⊢
          simp only [Option.some.injEq, Prod.mk.injEq, true_and] at hok
          subst hok
          refine ⟨by simp only [htls], ?_, ?_, hs⟩
          · simp only [unpack_scope_TlsRequired]
            split <;> rfl
          · simp only [unpack_scope_TlsRequired]
            split <;> rfl
        · obtain ⟨⟨la, hpa⟩, -⟩ :=
            (unpack_scope_permission_string_singleton a b s sc2 ha hb).2 hs
          rw [hpa] at hok
          simp at hok

/-- C39 witness: the permission `"WRITE"` as a string and as the array
`["WRITE"]` in otherwise equal scopes. -/
theorem permission_string_like_singleton_array_witness :
    unpack_scope writeArrayScope = unpack_scope writeStringScope ∧
    unpack_scope writeStringScope
      = some (ACL_OK,
          { has_offset := true, offset := 4, n_permission := 1
            permission := some [KineticProto_Command_Security_ACL_Permission.WRITE] }) ∧
    unpack_scope_permission readWriteArrayScope {}
      = some (ACL_OK,
          { n_permission := 2
            permission := some [KineticProto_Command_Security_ACL_Permission.READ,
              KineticProto_Command_Security_ACL_Permission.WRITE] }) := by
  have h := permission_string_like_singleton_array writeStringScope writeArrayScope "WRITE"
    rfl rfl (by
      intro k hk
      simp only [otherScopeFieldNames, List.mem_cons, List.mem_singleton, List.not_mem_nil,
        or_false] at hk
      rcases hk with rfl | rfl | rfl <;> rfl)
  have hok : unpack_scope writeStringScope
      = some (ACL_OK,
          { has_offset := true, offset := 4, n_permission := 1
            permission := some [KineticProto_Command_Security_ACL_Permission.WRITE] }) := by
    rfl
  have harr := h.2.2 readWriteArrayScope ["READ", "WRITE"] {} rfl (by decide) (by decide)
  exact ⟨(h.2.1 _ hok).1.trans hok.symm, hok, harr⟩

/-! ### ACL documents: what `acl_of_string` hands to its caller -/

theorem acl_store_length (acl_group : ACL) (new_acl : KineticProto_Command_Security_ACL)
    (hlen : acl_group.ACLs.length = acl_group.ACL_count) :
    (acl_store acl_group new_acl).ACLs.length = (acl_store acl_group new_acl).ACL_count := by
  obtain ⟨h1, h2⟩ := acl_store_count acl_group new_acl
  rw [h1, h2, List.length_append, hlen]
  rfl

/-- The loop of `acl_of_string` keeps the group's counters consistent. -/
theorem acl_of_string_loop_group (tokener : json_tokener) (buf : List Nat) (buf_size : Nat) :
    ∀ (fuel offset : Nat) (acl_group : ACL) (res0 res : KineticACLLoadResult) (out : ACL),
      buf_size - offset ≤ fuel →
      1 ≤ acl_group.ACL_ceil → acl_group.ACL_count ≤ acl_group.ACL_ceil →
      acl_group.ACLs.length = acl_group.ACL_count →
      acl_of_string_loop tokener buf buf_size offset acl_group res0 = some (res, out) →
      1 ≤ out.ACL_ceil ∧ out.ACL_count ≤ out.ACL_ceil ∧ out.ACLs.length = out.ACL_count := by
  intro fuel
  induction fuel with
  | zero =>
    intro offset acl_group res0 res out hfuel hceil hle hlen hloop
    unfold acl_of_string_loop at hloop
    have hnot : ¬ buf_size - offset > 0 := by omega
    rw [if_neg hnot] at hloop
    simp only [Option.some.injEq, Prod.mk.injEq] at hloop
    obtain ⟨-, rfl⟩ := hloop
    exact ⟨hceil, hle, hlen⟩
  | succ fuel ih =>
    intro offset acl_group res0 res out hfuel hceil hle hlen hloop
    unfold acl_of_string_loop at hloop
    by_cases hpos : buf_size - offset > 0
    · rw [if_pos hpos] at hloop
      cases hread : read_next_ACL buf buf_size offset tokener with
      | none => simp [hread] at hloop
      | some r =>
        obtain ⟨code, offset_out, acl⟩ := r
        rw [hread] at hloop
        by_cases hcode : code = ACL_OK
        · subst hcode
          cases acl with
          | none => simp at hloop
          | some new_acl =>
            simp only at hloop
            by_cases hbad : offset_out = 0 ∨ offset + offset_out > buf_size
            · simp [hbad] at hloop
            · rw [if_neg hbad] at hloop
              obtain ⟨h3, h4⟩ := acl_store_ceil acl_group new_acl hceil hle
              exact ih (offset + offset_out) (acl_store acl_group new_acl) ACL_OK res out
                (by omega) h3 h4 (acl_store_length acl_group new_acl hlen) hloop
        · have hout : out = acl_group := by
            cases code with
            | ACL_OK => exact absurd rfl hcode
            | _ =>
              simp only [Option.some.injEq, Prod.mk.injEq] at hloop
              exact hloop.2.symm
          subst hout
          exact ⟨hceil, hle, hlen⟩
    · rw [if_neg hpos] at hloop
      simp only [Option.some.injEq, Prod.mk.injEq] at hloop
      obtain ⟨-, rfl⟩ := hloop
      exact ⟨hceil, hle, hlen⟩

/-- C38: `acl_of_string` is atomic on failure. Whenever it returns a code other
than `ACL_OK` the caller's `*instance` is not written; whenever it returns
`ACL_OK`, `*instance` is an ACL group with `ACL_count ≥ 1` (holding exactly
`ACL_count` records, within its `ACL_ceil` slots). -/
theorem acl_of_string_atomic (tokener : json_tokener) (buf : List Nat) (buf_size : Nat)
    (res : KineticACLLoadResult) (inst : Option ACL)
    (hret : acl_of_string tokener buf buf_size = some (res, inst)) :
    (res ≠ ACL_OK → inst = none) ∧
    (res = ACL_OK → ∃ acl_group, inst = some acl_group ∧ 1 ≤ acl_group.ACL_count ∧
      acl_group.Consistent) := by
  unfold acl_of_string at hret
  simp only at hret
  cases hloop : acl_of_string_loop tokener buf buf_size 0
      { ACL_ceil := 1, ACL_count := 0, ACLs := [] } ACL_ERROR_MEMORY with
  | none => simp [hloop] at hret
  | some r =>
    obtain ⟨code, out⟩ := r
    rw [hloop] at hret
    simp only at hret
    obtain ⟨-, h2, h3⟩ := acl_of_string_loop_group tokener buf buf_size buf_size 0
      { ACL_ceil := 1, ACL_count := 0, ACLs := [] } ACL_ERROR_MEMORY code out
      (by omega) (Nat.le_refl 1) (Nat.zero_le 1) rfl hloop
    by_cases hend : code = ACL_END_OF_STREAM ∨ code = ACL_OK
    · rw [if_pos hend] at hret
      by_cases hzero : out.ACL_count = 0
      · rw [if_pos hzero] at hret
        simp only [Option.some.injEq, Prod.mk.injEq] at hret
        obtain ⟨rfl, rfl⟩ := hret
        exact ⟨fun _ => rfl, fun h => absurd h (by decide)⟩
      · rw [if_neg hzero] at hret
        simp only [Option.some.injEq, Prod.mk.injEq] at hret
        obtain ⟨rfl, rfl⟩ := hret
        have hone : 1 ≤ out.ACL_count := Nat.one_le_iff_ne_zero.mpr hzero
        exact ⟨fun h => absurd rfl h, fun _ => ⟨out, rfl, hone, h3, h2⟩⟩
    · rw [if_neg hend] at hret
      simp only [Option.some.injEq, Prod.mk.injEq] at hret
      obtain ⟨rfl, rfl⟩ := hret
      exact ⟨fun _ => rfl, fun h => absurd (Or.inr h) hend⟩

/-- C38 witness: a document with one valid object is handed out as a group of
one record; a document whose first read reports the end of the stream leaves
`*instance` unwritten. -/
theorem acl_of_string_atomic_witness :
    (∃ acl_group,
      acl_of_string (singleObjectTokener noPermissionObject) (List.replicate 12 32) 12
        = some (ACL_OK, some acl_group) ∧ 1 ≤ acl_group.ACL_count) ∧
    acl_of_string (fun _ => json_tokener_result.error_parse_eof) [0] 1
      = some (ACL_ERROR_BAD_JSON, none) := by
  have hok : acl_of_string (singleObjectTokener noPermissionObject) (List.replicate 12 32) 12
      = some (ACL_OK, some { ACL_ceil := 1, ACL_count := 1, ACLs := [noPermissionRecord] }) :=
    acl_of_string_single noPermissionObject noPermissionRecord 11 rfl
  have hfail : acl_of_string (fun _ => json_tokener_result.error_parse_eof) [0] 1
      = some (ACL_ERROR_BAD_JSON, none) := by
    simp [acl_of_string, acl_of_string_loop, read_next_ACL]
  obtain ⟨g, hg, hcount, -⟩ := (acl_of_string_atomic _ _ _ _ _ hok).2 rfl
  exact ⟨⟨g, by rw [hok, hg], hcount⟩, hfail⟩

/-! ### ACL documents: null entries of a scope array -/

/-- C35 (as amended): a null entry in a scope array is not a parse error, it is
skipped. For a typed ACL object whose `HMACAlgorithm` is absent or `"HmacSHA1"`
and whose non-null scope entries each unpack with `ACL_OK`, `read_next_ACL`
returns `ACL_OK` whether or not the array holds null entries, and the scopes
populated are those of the non-null entries, in array order, from slot 0 on. -/
theorem null_scope_entries_are_skipped (obj : json_object) (scopes : List json_object)
    (htyped : typedRecord obj = true)
    (hscope : json_object_object_get_ex obj "scope" = (true, .array scopes))
    (hhmac : (json_object_object_get_ex obj "HMACAlgorithm").1 = false ∨
      json_object_object_get_ex obj "HMACAlgorithm" = (true, .string "HmacSHA1"))
    (hvalid : ∀ s, s ∈ scopes → s.isNull = false →
      (unpack_scope s).map Prod.fst = some ACL_OK) :
    ∃ record, read_next_ACL_object obj = some (ACL_OK, some record) ∧
      List.Forall₂ (fun entry scope => unpack_scope entry = some (ACL_OK, scope))
        (scopes.filter fun s => !s.isNull) record.scope := by
  have htypedScopes := typedRecord_scopes obj scopes htyped hscope
  have hall : ∀ s, s ∈ scopes → (scopeOutcome s).1 = ACL_OK := by
    intro s hs
    cases hn : s.isNull with
    | true =>
      cases s with
      | null => exact scopeOutcome_null
      | _ => simp [json_object.isNull] at hn
    | false =>
      have h := hvalid s hs hn
      rw [unpack_scope_typed s (htypedScopes s hs)] at h
      simpa using h
  have hok := scopesOutcome_ok scopes (recordBase obj) hall
  rw [read_next_ACL_object_typed obj htyped, recordOutcome_ok obj scopes hscope hhmac hok]
  refine ⟨_, rfl, ?_⟩
  rcases (scopesOutcome_spec scopes (recordBase obj)).2 with ⟨-, -, h3, -⟩ | ⟨h1, -⟩
  · simp only
    rw [h3, (recordBase_scope obj).1, List.nil_append, List.forall₂_map_right_iff,
      List.forall₂_same]
    intro s hs
    have hmem := (List.mem_filter.mp hs).1
    rw [unpack_scope_typed s (htypedScopes s hmem)]
    have h1 := hall s hmem
    cases ho : scopeOutcome s with
    | mk res scope =>
      rw [ho] at h1
      simp only at h1
      subst h1
      rfl
  · rw [hok] at h1
    exact absurd h1 (by decide)

/-- C35 witness: the object whose scope array is a null entry followed by a
scope with the permission `"READ"`. -/
theorem null_scope_entries_are_skipped_witness :
    ∃ record, read_next_ACL_object nullScopeObject = some (ACL_OK, some record) ∧
      List.Forall₂ (fun entry scope => unpack_scope entry = some (ACL_OK, scope))
        [.object [("permission", .string "READ")]] record.scope :=
  null_scope_entries_are_skipped nullScopeObject
    [.null, .object [("permission", .string "READ")]] rfl rfl (Or.inl rfl) (fun s hs hn => by
      simp only [List.mem_cons, List.mem_singleton, List.not_mem_nil, or_false] at hs
      rcases hs with rfl | rfl
      · exact absurd hn (by decide)
      · rfl)

/-- C35 counterexample: a document whose single object has the scope array
`[null, {"permission": "READ"}]`. The array contains a null entry, yet
`read_next_ACL` and `acl_of_string` return `ACL_OK`; the record stored has one
populated scope and `n_scope = 2`. -/
theorem acl_of_string_accepts_null_scope :
    json_object_object_get_ex nullScopeObject "scope"
      = (true, .array [.null, .object [("permission", .string "READ")]]) ∧
    read_next_ACL_object nullScopeObject = some (ACL_OK, some nullScopeRecord) ∧
    acl_of_string (singleObjectTokener nullScopeObject) (List.replicate 12 32) 12
      = some (ACL_OK, some { ACL_ceil := 1, ACL_count := 1, ACLs := [nullScopeRecord] }) ∧
    nullScopeRecord.n_scope = 2 ∧ nullScopeRecord.scope.length = 1 :=
  ⟨rfl, rfl, acl_of_string_single nullScopeObject nullScopeRecord 11 rfl, rfl, rfl⟩

end Kinetic
